import Mathlib

/-! Flappy-bird asset loader: `loadBirdModel` (src/main.cpp, lines 344-440).

A shallow embedding of the glTF loader of `src/main.cpp`.

* JSON values follow the semantics of the `nlohmann::json` operations the
  loader uses: `contains`, the const and the non-const `operator[]` (the
  non-const one creates missing members and fills arrays up with nulls), the
  conversions to `int`, `float` and `std::string`, and range-`for` iteration.
* C++ `int` is `Int` wrapped to 32 bits (`wrap32`); `float` values are the
  rational numbers they denote.
* The OpenGL context is the chronological list of the calls made on it, with
  counters that hand out fresh object names.
-/

namespace FlappyBird

/-! ## JSON values -/

/-- A parsed JSON value (`nlohmann::json`).  The members of an object are listed
in the iteration order of the underlying `std::map` (sorted by key). -/
inductive Json where
  | null
  | bool (b : Bool)
  | int (n : Int)
  | real (q : ℚ)
  | str (s : String)
  | arr (elems : List Json)
  | obj (members : List (String × Json))

/-- What ends a run of the loader abnormally.
* `typeError 302`: `nlohmann::json::type_error` of a failed conversion;
* `typeError 305`: `type_error` of `operator[]` used on a value of the wrong kind;
* `parseError`: `nlohmann::json::parse_error` thrown by `f >> j`;
* `assertFailed`: the const `operator[]` was given a key the object does not
  have (`JSON_ASSERT`, undefined behaviour when assertions are off);
* `hugeIndex`: a negative `int` used as an array index, which converts to a
  `size_type` no array can be filled up to. -/
inductive Failure where
  | typeError (id : Nat)
  | parseError
  | assertFailed
  | hugeIndex
  deriving DecidableEq, Repr

/-- One subscript of a chain such as `j["accessors"][idx]`. -/
inductive Step where
  | key (k : String)
  | idx (i : Int)
  deriving DecidableEq, Repr

/-- The 32-bit two's-complement value of an integer: what a C++ `int` holds. -/
def wrap32 (n : Int) : Int := (n + 2147483648) % 4294967296 - 2147483648

/-- Lookup in the member list of an object (`std::map::find`). -/
def lookupMember (k : String) : List (String × Json) → Option Json
  | [] => none
  | (k', v) :: rest => if k' = k then some v else lookupMember k rest

/-- Insertion of a new member at its place in key order (`std::map::operator[]`
on a key that is not present). -/
def insertMember (k : String) (v : Json) : List (String × Json) → List (String × Json)
  | [] => [(k, v)]
  | (k', v') :: rest =>
    if k < k' then (k, v) :: (k', v') :: rest else (k', v') :: insertMember k v rest

/-- Replacement of the value of an existing member. -/
def setMember (k : String) (v : Json) : List (String × Json) → List (String × Json)
  | [] => []
  | (k', v') :: rest => if k' = k then (k', v) :: rest else (k', v') :: setMember k v rest

namespace Json

/-- The member function `contains(key)`: the value is an object with that key. -/
def contains (v : Json) (k : String) : Bool :=
  match v with
  | obj ms => (lookupMember k ms).isSome
  | _ => false

/-- The const `operator[](key)`, used on `mesh` and `primitive`, which are
`const auto&`. -/
def constAt (v : Json) (k : String) : Except Failure Json :=
  match v with
  | obj ms =>
    match lookupMember k ms with
    | some x => .ok x
    | none => .error .assertFailed
  | _ => .error (.typeError 305)

/-- One non-const `operator[]`: the value after the call (a null becomes an
empty container first, a missing member or element is created as null) and
the element referred to. -/
def subscript (v : Json) (s : Step) : Except Failure (Json × Json) :=
  match v, s with
  | null, .key k => .ok (obj [(k, null)], null)
  | obj ms, .key k =>
    match lookupMember k ms with
    | some x => .ok (obj ms, x)
    | none => .ok (obj (insertMember k null ms), null)
  | _, .key _ => .error (.typeError 305)
  | null, .idx i =>
    if i < 0 then .error .hugeIndex
    else .ok (arr (List.replicate (i.toNat + 1) null), null)
  | arr xs, .idx i =>
    if i < 0 then .error .hugeIndex
    else
      match xs[i.toNat]? with
      | some x => .ok (arr xs, x)
      | none => .ok (arr (xs ++ List.replicate (i.toNat + 1 - xs.length) null), null)
  | _, .idx _ => .error (.typeError 305)

/-- Writes `c` back at an existing member or element. -/
def put (v : Json) (s : Step) (c : Json) : Json :=
  match v, s with
  | obj ms, .key k => obj (setMember k c ms)
  | arr xs, .idx i => arr (xs.set i.toNat c)
  | w, _ => w

/-- A chain of non-const `operator[]` calls starting at `v`: the value of `v`
after the chain (also when the chain throws part of the way) and the element
reached or the exception thrown. -/
def access : Json → List Step → Json × Except Failure Json
  | v, [] => (v, .ok v)
  | v, s :: rest =>
    match v.subscript s with
    | .error e => (v, .error e)
    | .ok (v1, child) =>
      match access child rest with
      | (child1, r) => (v1.put s child1, r)

/-- Read-only lookup of one member or element; no value is created. -/
def find? (v : Json) (s : Step) : Option Json :=
  match v, s with
  | obj ms, .key k => lookupMember k ms
  | arr xs, .idx i => if i < 0 then none else xs[i.toNat]?
  | _, _ => none

/-- Read-only lookup along a chain of subscripts. -/
def findPath? : Json → List Step → Option Json
  | v, [] => some v
  | v, s :: rest =>
    match v.find? s with
    | some c => findPath? c rest
    | none => none

/-- Conversion to `int` (`get<int>()`): numbers and booleans convert, with a
`static_cast<int>`; anything else throws `type_error` 302. -/
def toInt (v : Json) : Except Failure Int :=
  match v with
  | int n => .ok (wrap32 n)
  | real q => .ok (wrap32 (if 0 ≤ q then ⌊q⌋ else ⌈q⌉))
  | bool b => .ok (if b then 1 else 0)
  | _ => .error (.typeError 302)

/-- Conversion to `float` (`get<float>()`). -/
def toFloat (v : Json) : Except Failure ℚ :=
  match v with
  | int n => .ok n
  | real q => .ok q
  | bool b => .ok (if b then 1 else 0)
  | _ => .error (.typeError 302)

/-- Conversion to `std::string`: only a JSON string converts. -/
def toStr (v : Json) : Except Failure String :=
  match v with
  | str s => .ok s
  | _ => .error (.typeError 302)

/-- The values a range-`for` over `v` visits: the elements of an array, the
member values of an object, nothing for null, and the value itself for any
other value. -/
def items (v : Json) : List Json :=
  match v with
  | null => []
  | arr xs => xs
  | obj ms => ms.map Prod.snd
  | w => [w]

end Json

/-! ## The OpenGL context -/

def GL_UNSIGNED_SHORT : Int := 5123
def GL_UNSIGNED_INT : Int := 5125
def GL_FLOAT : Int := 5126
def GL_ARRAY_BUFFER : Int := 34962
def GL_ELEMENT_ARRAY_BUFFER : Int := 34963
def GL_STATIC_DRAW : Int := 35044

/-- The bytes `size` bytes long that start at index `offset` of `binData`, when
that range lies inside `binData`; `none` when it does not (what is then read
is not determined by the program). -/
def readRange (binData : List UInt8) (offset size : Int) : Option (List UInt8) :=
  if 0 ≤ offset ∧ 0 ≤ size ∧ offset + size ≤ binData.length then
    some ((binData.drop offset.toNat).take size.toNat)
  else none

/-- The OpenGL calls of the program that create, fill, bind or delete objects.
`bufferData target size offset data` is `glBufferData(target, size,
&binData[offset], GL_STATIC_DRAW)` with `data` the bytes that range denotes. -/
inductive GLCall where
  | genVertexArrays (name : Nat)
  | bindVertexArray (name : Nat)
  | genBuffers (name : Nat)
  | bindBuffer (target : Int) (name : Nat)
  | bufferData (target : Int) (size : Int) (offset : Int) (data : Option (List UInt8))
  | vertexAttribPointer (index : Nat) (size : Nat) (type : Int) (stride : Nat)
  | enableVertexAttribArray (index : Nat)
  | deleteVertexArrays (name : Nat)
  | deleteBuffers (name : Nat)
  deriving DecidableEq

/-- The context: how many vertex-array and buffer names were generated so far
(the next fresh name is the successor) and the calls made, oldest first. -/
structure GLState where
  vertexArrays : Nat
  buffers : Nat
  calls : List GLCall
  deriving DecidableEq

/-- The type `glm::vec4`. -/
structure Vec4 where
  x : ℚ
  y : ℚ
  z : ℚ
  w : ℚ
  deriving DecidableEq

/-- The struct `GLTFMesh`. -/
structure GLTFMesh where
  VAO : Nat
  indexCount : Int
  indexType : Int
  color : Vec4
  deriving DecidableEq

/-! ## The loader -/

/-- The variables of `loadBirdModel` that outlive one loop iteration: the
document `j`, the result vector `meshes`, and the OpenGL context. -/
structure LoadState where
  j : Json
  meshes : List GLTFMesh
  gl : GLState

/-- Result of running a piece of the loader: normal completion with a value,
or a C++ exception (or failed assertion) leaving the piece; both with the
state reached. -/
inductive Res (α : Type) where
  | ok (a : α) (s : LoadState)
  | fail (e : Failure) (s : LoadState)

/-- A piece of the loader: a function of the state. -/
def Load (α : Type) : Type := LoadState → Res α

instance : Monad Load where
  pure a := fun s => .ok a s
  bind m f := fun s =>
    match m s with
    | .ok a s1 => f a s1
    | .fail e s1 => .fail e s1

/-- A conversion or const lookup: it leaves the state alone. -/
def liftE {α : Type} (r : Except Failure α) : Load α := fun s =>
  match r with
  | .ok a => .ok a s
  | .error e => .fail e s

/-- Evaluation of a chain of non-const subscripts on the document `j`. -/
def accessJ (p : List Step) : Load Json := fun s =>
  match s.j.access p with
  | (j1, .ok v) => .ok v { s with j := j1 }
  | (j1, .error e) => .fail e { s with j := j1 }

/-- One OpenGL call that creates nothing. -/
def glCall (c : GLCall) : Load Unit := fun s =>
  .ok () { s with gl := { s.gl with calls := s.gl.calls ++ [c] } }

/-- The call `glGenVertexArrays(1, &name)`. -/
def glGenVertexArrays : Load Nat := fun s =>
  .ok (s.gl.vertexArrays + 1)
    { s with gl := { s.gl with vertexArrays := s.gl.vertexArrays + 1,
                               calls := s.gl.calls ++ [.genVertexArrays (s.gl.vertexArrays + 1)] } }

/-- The call `glGenBuffers(1, &name)`. -/
def glGenBuffers : Load Nat := fun s =>
  .ok (s.gl.buffers + 1)
    { s with gl := { s.gl with buffers := s.gl.buffers + 1,
                               calls := s.gl.calls ++ [.genBuffers (s.gl.buffers + 1)] } }

/-- The call `glBufferData(target, size, &binData[offset], GL_STATIC_DRAW)`. -/
def glBufferData (binData : List UInt8) (target size offset : Int) : Load Unit :=
  glCall (.bufferData target size offset (readRange binData offset size))

/-- The statement `meshes.push_back(gltfMesh)`. -/
def pushMesh (m : GLTFMesh) : Load Unit := fun s =>
  .ok () { s with meshes := s.meshes ++ [m] }

/-- Reading through a reference that was bound to `j` at the chain `p` (the
referent exists once the reference is bound; reading creates nothing). -/
def derefJ (p : List Step) : Load Json := fun s =>
  .ok ((s.j.findPath? p).getD .null) s

/-- An initialisation `int x = ref["k"]`, where `ref` is a reference into `j`
bound at the chain `p`: a non-const `operator[]`, then the conversion. -/
def intMember (p : List Step) (k : String) : Load Int := do
  let v ← accessJ (p ++ [.key k])
  liftE v.toInt

/-- The chain of the reference `j["accessors"][idx]`. -/
def accessorRef (idx : Int) : List Step := [.key "accessors", .idx idx]

/-- The chain of the reference `j["bufferViews"][idx]`. -/
def bufferViewRef (idx : Int) : List Step := [.key "bufferViews", .idx idx]

/-- The expression
`(acc.contains("byteOffset") ? (int)acc["byteOffset"] : 0) + (int)view["byteOffset"]`
of lines 393, 403 and 409, where `acc` and `view` are references into `j`;
the left operand is evaluated first. -/
def byteOffsetOf (acc view : List Step) : Load Int := do
  let a ← derefJ acc
  let accOffset ← (if a.contains "byteOffset" then intMember acc "byteOffset" else pure 0)
  let viewOffset ← intMember view "byteOffset"
  pure (wrap32 (accOffset + viewOffset))

/-- The four statements the loader repeats for the indices, the POSITION and
the NORMAL accessor (lines 390-393, 400-403, 406-409), here for the accessor
index `idx`: bind the accessor, read its `bufferView`, bind the buffer view,
compute the byte offset. -/
def accessorOffset (idx : Int) : Load Int := do
  let _ ← accessJ (accessorRef idx)
  let viewIdx ← intMember (accessorRef idx) "bufferView"
  let _ ← accessJ (bufferViewRef viewIdx)
  byteOffsetOf (accessorRef idx) (bufferViewRef viewIdx)

/-- The material colour of a primitive (lines 378-386).  The four elements of
`colorFactor` are subscripted, then `glm::vec4` converts them to `float` in
the order x, y, z, w. -/
def loadColor (primitive : Json) : Load Vec4 :=
  if primitive.contains "material" then do
    let matIdx ← liftE ((primitive.constAt "material").bind Json.toInt)
    let mat := [Step.key "materials", Step.idx matIdx]
    let _ ← accessJ mat
    let colorFactor := mat ++ [Step.key "pbrMetallicRoughness", Step.key "baseColorFactor"]
    let _ ← accessJ colorFactor
    let c0 ← accessJ (colorFactor ++ [.idx 0])
    let c1 ← accessJ (colorFactor ++ [.idx 1])
    let c2 ← accessJ (colorFactor ++ [.idx 2])
    let c3 ← accessJ (colorFactor ++ [.idx 3])
    let r ← liftE c0.toFloat
    let g ← liftE c1.toFloat
    let b ← liftE c2.toFloat
    let a ← liftE c3.toFloat
    pure ⟨r, g, b, a⟩
  else
    pure ⟨1, 1, 1, 1⟩

/-- The body of the loop over the primitives of a mesh (lines 376-436). -/
def loadPrimitive (binData : List UInt8) (primitive : Json) : Load Unit := do
  -- Material
  let color ← loadColor primitive
  -- Indices
  let indicesIdx ← liftE ((primitive.constAt "indices").bind Json.toInt)
  let indicesOffset ← accessorOffset indicesIdx
  let indexCount ← intMember (accessorRef indicesIdx) "count"
  let componentType ← intMember (accessorRef indicesIdx) "componentType"
  let indexType := if componentType = 5123 then GL_UNSIGNED_SHORT else GL_UNSIGNED_INT
  -- Attributes
  let posIdx ← liftE (((primitive.constAt "attributes").bind (Json.constAt · "POSITION")).bind Json.toInt)
  let posOffset ← accessorOffset posIdx
  let normIdx ← liftE (((primitive.constAt "attributes").bind (Json.constAt · "NORMAL")).bind Json.toInt)
  let normOffset ← accessorOffset normIdx
  let vao ← glGenVertexArrays
  glCall (.bindVertexArray vao)
  -- position buffer
  let posVBO ← glGenBuffers
  glCall (.bindBuffer GL_ARRAY_BUFFER posVBO)
  let posCount ← intMember (accessorRef posIdx) "count"
  glBufferData binData GL_ARRAY_BUFFER (wrap32 (posCount * 12)) posOffset
  glCall (.vertexAttribPointer 0 3 GL_FLOAT 0)
  glCall (.enableVertexAttribArray 0)
  -- normal buffer
  let normVBO ← glGenBuffers
  glCall (.bindBuffer GL_ARRAY_BUFFER normVBO)
  let normCount ← intMember (accessorRef normIdx) "count"
  glBufferData binData GL_ARRAY_BUFFER (wrap32 (normCount * 12)) normOffset
  glCall (.vertexAttribPointer 1 3 GL_FLOAT 0)
  glCall (.enableVertexAttribArray 1)
  -- index buffer
  let EBO ← glGenBuffers
  glCall (.bindBuffer GL_ELEMENT_ARRAY_BUFFER EBO)
  let indexSize : Int := if indexType = GL_UNSIGNED_SHORT then 2 else 4
  glBufferData binData GL_ELEMENT_ARRAY_BUFFER (wrap32 (indexCount * indexSize)) indicesOffset
  pushMesh ⟨vao, indexCount, indexType, color⟩

/-- The loop `for (const auto& primitive : mesh["primitives"])`. -/
def loadPrimitives (binData : List UInt8) : List Json → Load Unit
  | [] => pure ()
  | p :: rest => do
    loadPrimitive binData p
    loadPrimitives binData rest

/-- The body of the loop over the meshes (lines 371-437). -/
def loadMesh (binData : List UInt8) (mesh : Json) : Load Unit := do
  let skip ←
    (if mesh.contains "name" then do
      let name ← liftE ((mesh.constAt "name").bind Json.toStr)
      pure (decide (name = "Cube.001"))
    else pure false)
  if skip then pure ()
  else do
    let prims ← liftE (mesh.constAt "primitives")
    loadPrimitives binData prims.items

/-- The iterations of `for (const auto& mesh : j["meshes"])` over the meshes
the loop visits. -/
def loadMeshList (binData : List UInt8) : List Json → Load Unit
  | [] => pure ()
  | m :: rest => do
    loadMesh binData m
    loadMeshList binData rest

/-- Lines 370-438 of `loadBirdModel`: the loop over `j["meshes"]`, run once the
document and the binary companion are in memory. -/
def loadMeshes (binData : List UInt8) : Load Unit := do
  let meshes ← accessJ [.key "meshes"]
  loadMeshList binData meshes.items

/-- How a call of `loadBirdModel` ends for its caller: it returns the vector
`meshes`, or an exception leaves it (the vector is destroyed on the way and
nothing is returned).  Both with the OpenGL context left behind. -/
inductive Outcome where
  | returned (meshes : List GLTFMesh) (gl : GLState)
  | threw (e : Failure) (gl : GLState)
  deriving DecidableEq

/-- The result of the loop as seen by the caller of `loadBirdModel`. -/
def Res.outcome {α : Type} : Res α → Outcome
  | .ok _ s => .returned s.meshes s.gl
  | .fail e s => .threw e s.gl

/-- The loader on a parsed document `j` and the bytes `binData` of the binary
companion, starting from an empty vector (lines 352 and 370-439). -/
def loadDocument (j : Json) (binData : List UInt8) (gl : GLState) : Outcome :=
  (loadMeshes binData ⟨j, [], gl⟩).outcome

/-! ## Files -/

/-- The files the loader can see.  `document path` is `std::ifstream f(path)`
followed by `f >> j`: `none` when the stream cannot be opened, else the parsed
document or the parse exception.  `binary path` is the content of the file
opened in binary mode, `none` when it cannot be opened. -/
structure Files where
  document : String → Option (Except Failure Json)
  binary : String → Option (List UInt8)

/-- The call `s.find_last_of(set)` on the characters of `s`: the index of the last
character of `s` that occurs in `set`, `none` for `npos`. -/
def findLastOf (s : List Char) (set : List Char) : Option Nat :=
  match s with
  | [] => none
  | c :: rest =>
    match findLastOf rest set with
    | some i => some (i + 1)
    | none => if c ∈ set then some 0 else none

/-- The expression `path.substr(0, path.find_last_of("/\\")) + "/bird.bin"` (line 362);
`substr(0, npos)` is the whole string. -/
def binPathOf (path : String) : String :=
  let head :=
    match findLastOf path.data ['/', '\\'] with
    | some i => String.mk (path.data.take i)
    | none => path
  head ++ "/bird.bin"

/-- The function `loadBirdModel(path)` (lines 351-440). -/
def loadBirdModel (files : Files) (path : String) (gl : GLState) : Outcome :=
  match files.document path with
  | none => .returned [] gl
  | some (.error e) => .threw e gl
  | some (.ok j) =>
    match files.binary (binPathOf path) with
    | none => .returned [] gl
    | some binData => loadDocument j binData gl


/-! ## Read-only view of the document

What the loader reads of a document, written with lookups that create
nothing.  The theorems below relate the loader to this view. -/

namespace Json

/-- Member `k` of `v`, converted to `int`. -/
def intAt? (v : Json) (k : String) : Option Int :=
  match v.find? (.key k) with
  | some x => x.toInt.toOption
  | none => none

/-- Element `i` of `v`, converted to `float`. -/
def floatAt? (v : Json) (i : Int) : Option ℚ :=
  match v.find? (.idx i) with
  | some x => x.toFloat.toOption
  | none => none

end Json

/-- Member `k`, converted to `int`, of the accessor with index `idx`. -/
def accessorInt? (j : Json) (idx : Int) (k : String) : Option Int :=
  (j.findPath? (accessorRef idx)).bind (fun acc => acc.intAt? k)

/-- The absolute byte offset of the accessor with index `idx`: the `byteOffset`
of its buffer view plus its own `byteOffset`, taken as 0 when the accessor has
no such member; the sum is one of C++ `int`s. -/
def absoluteOffset? (j : Json) (idx : Int) : Option Int := do
  let acc ← j.findPath? (accessorRef idx)
  let viewIdx ← acc.intAt? "bufferView"
  let view ← j.findPath? (bufferViewRef viewIdx)
  let accOffset ← (if acc.contains "byteOffset" then acc.intAt? "byteOffset" else some 0)
  let viewOffset ← view.intAt? "byteOffset"
  some (wrap32 (accOffset + viewOffset))

/-- The colour of a primitive: the four numbers of
`pbrMetallicRoughness.baseColorFactor` of its material, or opaque white when
the primitive has no `material` member. -/
def colorOf? (j primitive : Json) : Option Vec4 :=
  if primitive.contains "material" then do
    let matIdx ← primitive.intAt? "material"
    let colorFactor ← j.findPath? [.key "materials", .idx matIdx,
      .key "pbrMetallicRoughness", .key "baseColorFactor"]
    let r ← colorFactor.floatAt? 0
    let g ← colorFactor.floatAt? 1
    let b ← colorFactor.floatAt? 2
    let a ← colorFactor.floatAt? 3
    some ⟨r, g, b, a⟩
  else some ⟨1, 1, 1, 1⟩

/-- The accessor index a primitive gives for the attribute `name`. -/
def attributeIdx? (primitive : Json) (name : String) : Option Int :=
  (primitive.find? (.key "attributes")).bind (fun attrs => attrs.intAt? name)

/-- Everything the loader reads of the document for one primitive. -/
structure Resolved where
  color : Vec4
  indicesOffset : Int
  indexCount : Int
  componentType : Int
  posOffset : Int
  posCount : Int
  normOffset : Int
  normCount : Int
  deriving DecidableEq

/-- The values the loader reads for `primitive`, when every lookup and
conversion it makes finds a value. -/
def resolve? (j primitive : Json) : Option Resolved := do
  let color ← colorOf? j primitive
  let indicesIdx ← primitive.intAt? "indices"
  let indicesOffset ← absoluteOffset? j indicesIdx
  let indexCount ← accessorInt? j indicesIdx "count"
  let componentType ← accessorInt? j indicesIdx "componentType"
  let posIdx ← attributeIdx? primitive "POSITION"
  let posOffset ← absoluteOffset? j posIdx
  let normIdx ← attributeIdx? primitive "NORMAL"
  let normOffset ← absoluteOffset? j normIdx
  let posCount ← accessorInt? j posIdx "count"
  let normCount ← accessorInt? j normIdx "count"
  some ⟨color, indicesOffset, indexCount, componentType, posOffset, posCount,
    normOffset, normCount⟩

/-- The index type chosen for a component type (line 396). -/
def indexTypeOf (componentType : Int) : Int :=
  if componentType = 5123 then GL_UNSIGNED_SHORT else GL_UNSIGNED_INT

/-- The size in bytes of one index of the given index type (line 433). -/
def indexSizeOf (indexType : Int) : Int :=
  if indexType = GL_UNSIGNED_SHORT then 2 else 4

/-- The OpenGL calls of one loop iteration (lines 411-434) for the values `r`,
with `vao` and `vbo` the first vertex-array and buffer names handed out. -/
def uploadCalls (binData : List UInt8) (r : Resolved) (vao vbo : Nat) : List GLCall :=
  [ .genVertexArrays vao, .bindVertexArray vao,
    .genBuffers vbo, .bindBuffer GL_ARRAY_BUFFER vbo,
    .bufferData GL_ARRAY_BUFFER (wrap32 (r.posCount * 12)) r.posOffset
      (readRange binData r.posOffset (wrap32 (r.posCount * 12))),
    .vertexAttribPointer 0 3 GL_FLOAT 0, .enableVertexAttribArray 0,
    .genBuffers (vbo + 1), .bindBuffer GL_ARRAY_BUFFER (vbo + 1),
    .bufferData GL_ARRAY_BUFFER (wrap32 (r.normCount * 12)) r.normOffset
      (readRange binData r.normOffset (wrap32 (r.normCount * 12))),
    .vertexAttribPointer 1 3 GL_FLOAT 0, .enableVertexAttribArray 1,
    .genBuffers (vbo + 2), .bindBuffer GL_ELEMENT_ARRAY_BUFFER (vbo + 2),
    .bufferData GL_ELEMENT_ARRAY_BUFFER
      (wrap32 (r.indexCount * indexSizeOf (indexTypeOf r.componentType))) r.indicesOffset
      (readRange binData r.indicesOffset
        (wrap32 (r.indexCount * indexSizeOf (indexTypeOf r.componentType)))) ]

/-- The mesh pushed for the values `r` and the vertex array `vao`. -/
def meshOf (r : Resolved) (vao : Nat) : GLTFMesh :=
  ⟨vao, r.indexCount, indexTypeOf r.componentType, r.color⟩

/-- The state after one loop iteration that read the values `r`. -/
def uploaded (binData : List UInt8) (r : Resolved) (s : LoadState) : LoadState :=
  { j := s.j,
    meshes := s.meshes ++ [meshOf r (s.gl.vertexArrays + 1)],
    gl := { vertexArrays := s.gl.vertexArrays + 1,
            buffers := s.gl.buffers + 3,
            calls := s.gl.calls ++ uploadCalls binData r (s.gl.vertexArrays + 1) (s.gl.buffers + 1) } }


/-- The values the loader reads for each primitive of a list, in order. -/
def resolveAll? (j : Json) : List Json → Option (List Resolved)
  | [] => some []
  | p :: rest => do
    let r ← resolve? j p
    let rs ← resolveAll? j rest
    some (r :: rs)

/-- The state after the loop iterations that read the values `rs`, in order. -/
def uploadedAll (binData : List UInt8) : List Resolved → LoadState → LoadState
  | [], s => s
  | r :: rest, s => uploadedAll binData rest (uploaded binData r s)

/-- Whether a mesh is the one excluded by name: it has a `name` member that
is the string `"Cube.001"`. -/
def isExcluded (mesh : Json) : Bool :=
  match mesh.find? (.key "name") with
  | some (.str n) => decide (n = "Cube.001")
  | _ => false

/-- The primitives of a mesh: the values a range-`for` over its `primitives`
member visits. -/
def primitivesOf (mesh : Json) : List Json :=
  ((mesh.find? (.key "primitives")).getD .null).items

/-- The meshes of a document: the values a range-`for` over its `meshes`
member visits. -/
def meshesOf (j : Json) : List Json :=
  ((j.find? (.key "meshes")).getD .null).items

/-- The primitives of the meshes that are not excluded, in document traversal
order. -/
def includedPrimitives (j : Json) : List Json :=
  ((meshesOf j).filter (fun m => !isExcluded m)).flatMap primitivesOf

/-- Whether the loop body can walk a mesh: its `name`, when it has one, is a
string, and, unless it is excluded, it has a `primitives` member. -/
def meshWalkable (mesh : Json) : Bool :=
  match mesh.find? (.key "name") with
  | some (.str n) => decide (n = "Cube.001") || (mesh.find? (.key "primitives")).isSome
  | some _ => false
  | none => (mesh.find? (.key "primitives")).isSome

/-! ## Views of the OpenGL context -/

/-- A call without the bytes handed to `glBufferData`. -/
def GLCall.forget : GLCall → GLCall
  | .bufferData target size offset _ => .bufferData target size offset none
  | c => c

/-- A context without the bytes handed to `glBufferData`. -/
def GLState.forget (gl : GLState) : GLState :=
  { gl with calls := gl.calls.map GLCall.forget }

/-- An outcome without the bytes handed to `glBufferData`. -/
def Outcome.forget : Outcome → Outcome
  | .returned meshes gl => .returned meshes gl.forget
  | .threw e gl => .threw e gl.forget

/-- Whether a call releases a vertex array or a buffer. -/
def GLCall.isDelete : GLCall → Bool
  | .deleteVertexArrays _ => true
  | .deleteBuffers _ => true
  | _ => false

/-- The vertex arrays created by a list of calls. -/
def createdVertexArrays (calls : List GLCall) : List Nat :=
  calls.filterMap (fun c => match c with
    | .genVertexArrays n => some n
    | _ => none)

/-- The buffers created by a list of calls. -/
def createdBuffers (calls : List GLCall) : List Nat :=
  calls.filterMap (fun c => match c with
    | .genBuffers n => some n
    | _ => none)

/-- The context an outcome leaves behind. -/
def Outcome.gl : Outcome → GLState
  | .returned _ gl => gl
  | .threw _ gl => gl

/-- The state a piece of the loader ends in. -/
def Res.state {α : Type} : Res α → LoadState
  | .ok _ s => s
  | .fail _ s => s

/-- The primitives of the non-excluded meshes of a list of meshes, in order. -/
def includedOf (meshes : List Json) : List Json :=
  (meshes.filter (fun m => !isExcluded m)).flatMap primitivesOf

/-- Whether `j["meshes"]` can be evaluated: the document is an object or null. -/
def docWalkable (j : Json) : Bool :=
  match j with
  | .obj _ => true
  | .null => true
  | _ => false

/-- The meshes pushed for the values `rs`, the first with the vertex array
`vao + 1`. -/
def meshesFrom (vao : Nat) : List Resolved → List GLTFMesh
  | [] => []
  | r :: rest => meshOf r (vao + 1) :: meshesFrom (vao + 1) rest

/-- The calls made for the values `rs`, after `vao` vertex arrays and `vbo`
buffers were created. -/
def callsFrom (binData : List UInt8) (vao vbo : Nat) : List Resolved → List GLCall
  | [] => []
  | r :: rest => uploadCalls binData r (vao + 1) (vbo + 1) ++ callsFrom binData (vao + 1) (vbo + 3) rest

/-- Two states that differ at most in the bytes handed to `glBufferData`. -/
def LoadState.Similar (s t : LoadState) : Prop :=
  s.j = t.j ∧ s.meshes = t.meshes ∧ s.gl.forget = t.gl.forget

/-- Two results that end the same way, with the same value or exception, in
similar states. -/
def Res.Similar {α : Type} : Res α → Res α → Prop
  | .ok a s, .ok b t => a = b ∧ s.Similar t
  | .fail e s, .fail e1 t => e = e1 ∧ s.Similar t
  | _, _ => False

/-- Two pieces of the loader that behave alike on similar states. -/
def Load.Similar {α : Type} (m m1 : Load α) : Prop :=
  ∀ s t : LoadState, s.Similar t → (m s).Similar (m1 t)

/-- The calls of `t` are those of `s` followed by calls that release nothing. -/
def LoadState.Extends (s t : LoadState) : Prop :=
  ∃ new, t.gl.calls = s.gl.calls ++ new ∧ ∀ c ∈ new, GLCall.isDelete c = false

/-- A piece of the loader that only adds calls, none of which releases an
object, however it ends. -/
def Load.Grows {α : Type} (m : Load α) : Prop :=
  ∀ s : LoadState, s.Extends (m s).state


/-! ## Sample documents -/

/-- An accessor with a buffer view, a component type and a count, and no
`byteOffset`. -/
def sampleAccessor (view componentType count : Int) : Json :=
  .obj [("bufferView", .int view), ("componentType", .int componentType), ("count", .int count)]

/-- A buffer view. -/
def sampleView (byteOffset byteLength : Int) : Json :=
  .obj [("byteLength", .int byteLength), ("byteOffset", .int byteOffset)]

/-- A primitive with indices accessor `indices`, POSITION accessor 1 and NORMAL
accessor 2, and no material. -/
def samplePrimitive (indices : Int) : Json :=
  .obj [("attributes", .obj [("NORMAL", .int 2), ("POSITION", .int 1)]), ("indices", .int indices)]

/-- A mesh called `name` with the given primitives. -/
def sampleMesh (name : String) (primitives : List Json) : Json :=
  .obj [("name", .str name), ("primitives", .arr primitives)]

/-- A document with the given meshes: accessor 0 holds 6 indices of type
`componentType` at bytes 100.., accessor 1 holds 4 positions at bytes 0..48,
accessor 2 holds `normCount` normals at bytes 48..; material 0 has the colour
factor (1/2, 0, 1/4, 1). -/
def sampleScene (componentType normCount : Int) (meshes : List Json) : Json :=
  .obj [("accessors", .arr [sampleAccessor 0 componentType 6, sampleAccessor 1 5126 4,
          sampleAccessor 2 5126 normCount]),
        ("bufferViews", .arr [sampleView 100 200, sampleView 0 48, sampleView 48 48]),
        ("materials", .arr [.obj [("pbrMetallicRoughness",
          .obj [("baseColorFactor", .arr [.real (1/2), .int 0, .real (1/4), .int 1])])]]),
        ("meshes", .arr meshes)]

/-- The document `sampleScene` with one mesh, called `name`. -/
def sampleDocument (name : String) (componentType normCount : Int) (primitives : List Json) :
    Json :=
  sampleScene componentType normCount [sampleMesh name primitives]

/-- A context on which no call was made yet. -/
def freshGL : GLState := ⟨0, 0, []⟩

/-- The calls of one loop iteration on `sampleDocument`, for a buffer that holds
none of the three ranges. -/
def sampleCallsNoData (indexBytes normBytes : Int) : List GLCall :=
  [ .genVertexArrays 1, .bindVertexArray 1,
    .genBuffers 1, .bindBuffer GL_ARRAY_BUFFER 1,
    .bufferData GL_ARRAY_BUFFER 48 0 none,
    .vertexAttribPointer 0 3 GL_FLOAT 0, .enableVertexAttribArray 0,
    .genBuffers 2, .bindBuffer GL_ARRAY_BUFFER 2,
    .bufferData GL_ARRAY_BUFFER normBytes 48 none,
    .vertexAttribPointer 1 3 GL_FLOAT 0, .enableVertexAttribArray 1,
    .genBuffers 3, .bindBuffer GL_ELEMENT_ARRAY_BUFFER 3,
    .bufferData GL_ELEMENT_ARRAY_BUFFER indexBytes 100 none ]

/-- A companion buffer of 300 zero bytes. -/
def sampleBuffer : List UInt8 := List.replicate 300 0

/-- The state in which the loop reaches the first primitive of
`sampleDocument name componentType normCount primitives`. -/
def sampleState (name : String) (componentType normCount : Int) (primitives : List Json) :
    LoadState :=
  ⟨sampleDocument name componentType normCount primitives, [], freshGL⟩

/-- The values the loader reads for `samplePrimitive 0` of
`sampleDocument name componentType normCount primitives`. -/
def sampleResolved (componentType normCount : Int) : Resolved :=
  ⟨⟨1, 1, 1, 1⟩, 100, 6, componentType, 0, 4, 48, normCount⟩

/-- The calls of one loop iteration on `sampleDocument` with `sampleBuffer`:
every range lies inside the buffer of zero bytes. -/
def sampleCalls (indexBytes normBytes : Nat) : List GLCall :=
  [ .genVertexArrays 1, .bindVertexArray 1,
    .genBuffers 1, .bindBuffer GL_ARRAY_BUFFER 1,
    .bufferData GL_ARRAY_BUFFER 48 0 (some (List.replicate 48 0)),
    .vertexAttribPointer 0 3 GL_FLOAT 0, .enableVertexAttribArray 0,
    .genBuffers 2, .bindBuffer GL_ARRAY_BUFFER 2,
    .bufferData GL_ARRAY_BUFFER normBytes 48 (some (List.replicate normBytes 0)),
    .vertexAttribPointer 1 3 GL_FLOAT 0, .enableVertexAttribArray 1,
    .genBuffers 3, .bindBuffer GL_ELEMENT_ARRAY_BUFFER 3,
    .bufferData GL_ELEMENT_ARRAY_BUFFER indexBytes 100 (some (List.replicate indexBytes 0)) ]

/-- The sample primitive with material 0. -/
def sampleMaterialPrimitive : Json :=
  .obj [("attributes", .obj [("NORMAL", .int 2), ("POSITION", .int 1)]), ("indices", .int 0),
        ("material", .int 0)]


/-! ## The loader seen from its caller -/

/-- What `loadBirdModel(path)` writes to `std::cout` before the loop
(lines 356 and 365), one string per line. -/
def loadBirdModelOutput (files : Files) (path : String) : List String :=
  match files.document path with
  | none => ["Failed to load GLTF: " ++ path]
  | some (.error _) => []
  | some (.ok _) =>
    match files.binary (binPathOf path) with
    | none => ["Failed to load binary: " ++ binPathOf path]
    | some _ => []

/-- The failure a piece of the loader ended with, if it did. -/
def Res.failure? {α : Type} : Res α → Option Failure
  | .ok _ _ => none
  | .fail e _ => some e

/-- The references of a primitive that the loader follows before its first
OpenGL call (lines 378-409), when every one of them resolves. -/
def references? (j primitive : Json) : Option Unit := do
  let _ ← colorOf? j primitive
  let indicesIdx ← primitive.intAt? "indices"
  let _ ← absoluteOffset? j indicesIdx
  let _ ← accessorInt? j indicesIdx "count"
  let _ ← accessorInt? j indicesIdx "componentType"
  let posIdx ← attributeIdx? primitive "POSITION"
  let _ ← absoluteOffset? j posIdx
  let normIdx ← attributeIdx? primitive "NORMAL"
  let _ ← absoluteOffset? j normIdx
  some ()

/-- A piece of the loader that leaves the OpenGL context and the vector
`meshes` alone, however it ends. -/
def Load.KeepsContext {α : Type} (m : Load α) : Prop :=
  ∀ s : LoadState, (m s).state.gl = s.gl ∧ (m s).state.meshes = s.meshes

/-- The example document of the specification: one mesh `"Wing"` with one
primitive, indices accessor 0 = {bufferView 0, componentType 5123, count 6},
POSITION accessor 1 = {bufferView 1, componentType 5126, count 4}, buffer view
0 = {byteOffset 100, byteLength 200}, buffer view 1 = {byteOffset 0,
byteLength 48}.  With `withNormal` the primitive also has the NORMAL accessor
2 = {bufferView 2, componentType 5126, count 4}, buffer view 2 = {byteOffset 48,
byteLength 48}. -/
def wingDocument (withNormal : Bool) : Json :=
  .obj [("accessors", .arr ([sampleAccessor 0 5123 6, sampleAccessor 1 5126 4] ++
          (if withNormal then [sampleAccessor 2 5126 4] else []))),
        ("bufferViews", .arr ([sampleView 100 200, sampleView 0 48] ++
          (if withNormal then [sampleView 48 48] else []))),
        ("meshes", .arr [.obj [("name", .str "Wing"),
          ("primitives", .arr [.obj [
            ("attributes", .obj ((if withNormal then [("NORMAL", Json.int 2)] else []) ++
              [("POSITION", .int 1)])),
            ("indices", .int 0)]])]])]

/-- The files in which the document at any path parses to `document` and the
binary companion is `binary`. -/
def sampleFiles (document : Json) (binary : Option (List UInt8)) : Files :=
  ⟨fun _ => some (.ok document), fun _ => binary⟩

/-- The sample primitive without its `indices` member. -/
def primitiveWithoutIndices : Json :=
  .obj [("attributes", .obj [("NORMAL", .int 2), ("POSITION", .int 1)])]


/-! ## The game (src/main.cpp, lines 31-38, 151-202, 280-342, 718-782, 902-947)

`float` values are the rational numbers they denote; the values drawn from
`dist(rng)` are inputs of a frame. -/

def GRAVITY : ℚ := -15
def JUMP_FORCE : ℚ := 7
def BIRD_SPEED : ℚ := 3
def PIPE_SPAWN_X : ℚ := 10
def PIPE_DISTANCE : ℚ := 6
def PIPE_GAP : ℚ := 5 / 2
def PIPE_WIDTH : ℚ := 1

/-- The type `glm::vec3`. -/
structure Vec3 where
  x : ℚ
  y : ℚ
  z : ℚ
  deriving DecidableEq

/-- The struct `Bird`. -/
structure Bird where
  position : Vec3
  velocity : ℚ
  size : ℚ
  rotation : ℚ
  deriving DecidableEq

namespace Bird

/-- The constructor `Bird()` (line 165). -/
def new : Bird := ⟨⟨0, 0, 0⟩, 0, 1 / 2, 0⟩

/-- The member function `reset` (lines 167-171). -/
def reset (b : Bird) : Bird :=
  { b with position := ⟨0, 0, 0⟩, velocity := 0, rotation := 0 }

/-- The member function `update` (lines 173-184). -/
def update (b : Bird) (dt : ℚ) : Bird :=
  let velocity := b.velocity + GRAVITY * dt
  let position : Vec3 := { b.position with y := b.position.y + velocity * dt }
  if velocity > 0 then
    { b with velocity := velocity, position := position, rotation := 30 }
  else
    let rotation := b.rotation - 100 * dt
    { b with velocity := velocity, position := position,
             rotation := if rotation < -90 then -90 else rotation }

/-- The member function `jump` (lines 186-189). -/
def jump (b : Bird) : Bird :=
  { b with velocity := JUMP_FORCE, rotation := 30 }

end Bird

/-- The struct `Pipe`; the constructor sets `passed` to false. -/
structure Pipe where
  x : ℚ
  gapY : ℚ
  passed : Bool
  deriving DecidableEq

/-- The function `checkCollision` (lines 320-342). -/
def checkCollision (b : Bird) (p : Pipe) : Bool :=
  let bLeft := b.position.x - b.size / 2
  let bRight := b.position.x + b.size / 2
  let bTop := b.position.y + b.size / 2
  let bBottom := b.position.y - b.size / 2
  let pLeft := p.x - PIPE_WIDTH / 2
  let pRight := p.x + PIPE_WIDTH / 2
  if bRight > pLeft ∧ bLeft < pRight then
    let gapTop := p.gapY + PIPE_GAP / 2
    let gapBottom := p.gapY - PIPE_GAP / 2
    if bTop > gapTop ∨ bBottom < gapBottom then true else false
  else false

/-- The loop `for (int i = 0; i < 5; i++) pipes.emplace_back(PIPE_SPAWN_X + i *
PIPE_DISTANCE, dist(rng))` on an empty vector (lines 722-724, 300-302, 941-943);
`gap i` is the value drawn in iteration `i`. -/
def spawnPipes (gap : Nat → ℚ) : List Pipe :=
  (List.range 5).map (fun (i : Nat) => ⟨PIPE_SPAWN_X + (i : ℚ) * PIPE_DISTANCE, gap i, false⟩)

/-- The globals of the game and the two `static` flags of the input code. -/
structure Game where
  gameOver : Bool
  gameStarted : Bool
  score : Int
  bird : Bird
  pipes : List Pipe
  spacePressed : Bool
  mousePressed : Bool

/-- What one iteration of the render loop takes from outside: the time step,
the keys and the mouse, and the values `dist(rng)` returns. -/
structure FrameInput where
  deltaTime : ℚ
  keyR : Bool
  keySpace : Bool
  mouseDown : Bool
  overStart : Bool
  overRestart : Bool
  keyGaps : Nat → ℚ
  recycleGap : ℚ
  buttonGaps : Nat → ℚ

/-- The globals when the render loop starts (lines 152-154, 281, 721-724). -/
def initialGame (gap : Nat → ℚ) : Game :=
  { gameOver := false, gameStarted := false, score := 0, bird := Bird.new,
    pipes := spawnPipes gap, spacePressed := false, mousePressed := false }

/-- The function `processInput` (lines 282-317), without the escape key. -/
def processInput (i : FrameInput) (g : Game) : Game :=
  let g1 : Game :=
    if g.gameOver ∧ i.keyR then
      { g with gameOver := false, gameStarted := false, bird := g.bird.reset, score := 0,
               pipes := spawnPipes i.keyGaps }
    else g
  if i.keySpace then
    if ¬ g1.spacePressed then
      let g2 : Game :=
        if ¬ g1.gameOver then { g1 with gameStarted := true, bird := g1.bird.jump } else g1
      { g2 with spacePressed := true }
    else g1
  else { g1 with spacePressed := false }

/-- The loop `for (auto& pipe : pipes) pipe.x -= BIRD_SPEED * deltaTime`
(lines 750-752). -/
def movePipes (dt : ℚ) (pipes : List Pipe) : List Pipe :=
  pipes.map (fun p => { p with x := p.x - BIRD_SPEED * dt })

/-- The recycling of the first pipe (lines 755-759).  `none` when `pipes.front()`
or `pipes.back()` is applied to an empty vector. -/
def recyclePipes (gap : ℚ) (pipes : List Pipe) : Option (List Pipe) :=
  match pipes with
  | [] => none
  | p :: rest =>
    if p.x < -10 then
      match rest.getLast? with
      | none => none
      | some last => some (rest ++ [⟨last.x + PIPE_DISTANCE, gap, false⟩])
    else some (p :: rest)

/-- The scoring loop (lines 762-767): the pipes and the score after it.  The
statement `score++` is an `int` increment. -/
def scorePass (birdX : ℚ) : List Pipe → Int → List Pipe × Int
  | [], score => ([], score)
  | p :: rest, score =>
    if ¬ p.passed ∧ p.x < birdX then
      match scorePass birdX rest (wrap32 (score + 1)) with
      | (rest1, score1) => ({ p with passed := true } :: rest1, score1)
    else
      match scorePass birdX rest score with
      | (rest1, score1) => (p :: rest1, score1)

/-- The game update of a frame (lines 746-782).  `none` when the recycling
applies `front()` or `back()` to an empty vector. -/
def updateGame (i : FrameInput) (g : Game) : Option Game :=
  if g.gameStarted ∧ ¬ g.gameOver then
    let bird := g.bird.update i.deltaTime
    match recyclePipes i.recycleGap (movePipes i.deltaTime g.pipes) with
    | none => none
    | some pipes =>
      match scorePass bird.position.x pipes g.score with
      | (pipes1, score1) =>
        let hit := pipes1.any (fun p => checkCollision bird p)
        let out := decide (bird.position.y < -5 ∨ bird.position.y > 5)
        some { g with bird := bird, pipes := pipes1, score := score1,
                      gameOver := g.gameOver || hit || out }
  else some g

/-- The mouse handling at the end of a frame (lines 903-947). -/
def handleMouse (i : FrameInput) (g : Game) : Game :=
  let click := i.mouseDown && !g.mousePressed
  let g1 : Game := { g with mousePressed := i.mouseDown }
  if ¬ g1.gameStarted then
    if click ∧ i.overStart then { g1 with gameStarted := true, bird := g1.bird.jump } else g1
  else if g1.gameOver then
    if click ∧ i.overRestart then
      { g1 with gameOver := false, gameStarted := true, bird := g1.bird.reset, score := 0,
                pipes := spawnPipes i.buttonGaps }
    else g1
  else g1

/-- One iteration of the render loop (lines 730-952), as far as the game state
goes: input, update, mouse. -/
def frame (i : FrameInput) (g : Game) : Option Game :=
  (updateGame i (processInput i g)).map (handleMouse i)

/-- The states at the top of the render loop. -/
inductive Reachable : Game → Prop where
  | start (gap : Nat → ℚ) : Reachable (initialGame gap)
  | step (i : FrameInput) (g g1 : Game) : Reachable g → frame i g = some g1 → Reachable g1

/-- The rotation of a bird lies in the closed range [-90, 30]. -/
def Bird.rotationInRange (b : Bird) : Prop := -90 ≤ b.rotation ∧ b.rotation ≤ 30

/-- The number of pipes not yet marked as passed. -/
def unpassed (pipes : List Pipe) : Nat := (pipes.filter (fun p => !p.passed)).length

theorem lookupMember_insertMember (k : String) (v : Json) (ms : List (String × Json))
    (h : lookupMember k ms = none) : lookupMember k (insertMember k v ms) = some v := by
  induction ms with
  | nil => simp [insertMember, lookupMember]
  | cons kv rest ih =>
    obtain ⟨k1, v1⟩ := kv
    simp only [lookupMember] at h
    split at h
    · cases h
    · rename_i hne
      simp only [insertMember]
      split
      · simp [lookupMember]
      · simp [lookupMember, hne, ih h]

theorem lookupMember_setMember (k : String) (c : Json) (ms : List (String × Json))
    (h : (lookupMember k ms).isSome) : lookupMember k (setMember k c ms) = some c := by
  induction ms with
  | nil => simp [lookupMember] at h
  | cons kv rest ih =>
    obtain ⟨k1, v1⟩ := kv
    simp only [lookupMember] at h
    simp only [setMember]
    split
    · rename_i heq
      simp [lookupMember, heq]
    · rename_i hne
      simp only [hne, if_false] at h
      simp [lookupMember, hne, ih h]

theorem setMember_self (k : String) (c : Json) (ms : List (String × Json))
    (h : lookupMember k ms = some c) : setMember k c ms = ms := by
  induction ms with
  | nil => rfl
  | cons kv rest ih =>
    obtain ⟨k1, v1⟩ := kv
    simp only [lookupMember] at h
    simp only [setMember]
    split
    · rename_i heq
      simp only [heq, if_true, Option.some.injEq] at h
      rw [h]
    · rename_i hne
      simp only [hne, if_false] at h
      rw [ih h]

theorem list_set_self {α : Type} (xs : List α) (i : Nat) (x : α) (h : xs[i]? = some x) :
    xs.set i x = xs := by
  induction xs generalizing i with
  | nil => rfl
  | cons y ys ih =>
    cases i with
    | zero => simp at h; simp [h]
    | succ n => simp at h; simp [ih n h]

namespace Json

theorem find?_of_subscript {v v1 c : Json} {s : Step} (h : v.subscript s = .ok (v1, c)) :
    v1.find? s = some c := by
  unfold subscript at h
  split at h
  · cases h; simp [find?, lookupMember]
  · split at h
    · cases h; rename_i hx; simpa [find?] using hx
    · cases h; rename_i hx; simpa [find?] using lookupMember_insertMember _ _ _ hx
  · cases h
  · split at h
    · cases h
    · rename_i hi
      cases h
      simp [find?, hi]
  · split at h
    · cases h
    · rename_i hi
      split at h
      · cases h; rename_i hx; simpa [find?, hi] using hx
      · cases h; rename_i xs i _ hx
        have hlen : _ := List.getElem?_eq_none_iff.mp hx
        simp only [find?, hi, if_false]
        rw [List.getElem?_append_right hlen]
        rw [List.getElem?_replicate]
        have : i.toNat - xs.length < i.toNat + 1 - xs.length := by omega
        simp [this]
  · cases h


theorem find?_put {v : Json} {s : Step} (c : Json) (h : (v.find? s).isSome) :
    (v.put s c).find? s = some c := by
  cases v <;> cases s <;> simp [find?] at h
  · rename_i xs i
    simp only [put, find?]
    split
    · rename_i hi; simp [hi] at h
    · rename_i hi
      simp only [hi, if_false] at h
      have hlt : i.toNat < xs.length := by
        rcases hx : xs[i.toNat]? with _ | x
        · simp [hx] at h
        · exact (List.getElem?_eq_some_iff.mp hx).1
      simp [hlt]
  · rename_i ms k
    simpa [put, find?] using lookupMember_setMember k c ms h

theorem put_self {v c : Json} {s : Step} (h : v.find? s = some c) : v.put s c = v := by
  cases v <;> cases s <;> simp [find?] at h
  · rename_i xs i
    simp only [put]
    congr 1
    obtain ⟨_, hx⟩ := h
    exact list_set_self xs i.toNat c hx
  · rename_i ms k
    simp [put, setMember_self k c ms h]

theorem subscript_of_find? {v c : Json} {s : Step} (h : v.find? s = some c) :
    v.subscript s = .ok (v, c) := by
  cases v <;> cases s <;> simp [find?] at h
  · rename_i xs i
    obtain ⟨hi, hx⟩ := h
    have hi2 : ¬ i < 0 := by omega
    simp [subscript, hi2, hx]
  · rename_i ms k
    simp [subscript, h]

theorem subscript_nonnull {v v1 c : Json} {s : Step} (h : v.subscript s = .ok (v1, c))
    (hc : c ≠ null) : v1 = v ∧ v.find? s = some c := by
  unfold subscript at h
  split at h
  · cases h; exact absurd rfl hc
  · split at h
    · cases h; rename_i hx; exact ⟨rfl, by simpa [find?] using hx⟩
    · cases h; exact absurd rfl hc
  · cases h
  · split at h
    · cases h
    · cases h; exact absurd rfl hc
  · split at h
    · cases h
    · rename_i hi
      split at h
      · cases h; rename_i hx; exact ⟨rfl, by simpa [find?, hi] using hx⟩
      · cases h; exact absurd rfl hc
  · cases h

theorem subscript_null_child {s : Step} {v1 c : Json} (h : null.subscript s = .ok (v1, c)) :
    c = null := by
  cases s with
  | key k => simp [subscript] at h; exact h.2.symm
  | idx i =>
    simp only [subscript] at h
    split at h
    · cases h
    · cases h; rfl

theorem access_null {p : List Step} {v1 r : Json} (h : null.access p = (v1, .ok r)) :
    r = null := by
  induction p generalizing v1 r with
  | nil => simp [access] at h; exact h.2.symm
  | cons s rest ih =>
    simp only [access] at h
    split at h
    · cases h
    · rename_i v2 child hsub
      have hc := subscript_null_child hsub
      subst hc
      rcases hr : null.access rest with ⟨c1, r1⟩
      rw [hr] at h
      simp only [Prod.mk.injEq] at h
      rw [h.2] at hr
      exact ih hr

/-- An access that reaches a non-null value has created nothing: the document is
unchanged and the read-only lookup finds the same value. -/
theorem access_nonnull {v v1 r : Json} {p : List Step} (h : v.access p = (v1, .ok r))
    (hr : r ≠ null) : v1 = v ∧ v.findPath? p = some r := by
  induction p generalizing v v1 with
  | nil =>
    simp only [access, Prod.mk.injEq, Except.ok.injEq] at h
    obtain ⟨h1, h2⟩ := h
    subst h1; subst h2
    exact ⟨rfl, rfl⟩
  | cons s rest ih =>
    simp only [access] at h
    split at h
    · cases h
    · rename_i v2 child hsub
      rcases hacc : child.access rest with ⟨c1, r1⟩
      rw [hacc] at h
      simp only [Prod.mk.injEq] at h
      obtain ⟨h1, h2⟩ := h
      subst h2
      have hchild : child ≠ null := by
        intro hn
        subst hn
        exact hr (access_null hacc)
      obtain ⟨hv, hfind⟩ := subscript_nonnull hsub hchild
      obtain ⟨hc1, hpath⟩ := ih hacc
      subst hv; subst hc1
      refine ⟨?_, ?_⟩
      · rw [← h1]; exact put_self hfind
      · simp [findPath?, hfind, hpath]

theorem access_of_findPath? {v r : Json} {p : List Step} (h : v.findPath? p = some r) :
    v.access p = (v, .ok r) := by
  induction p generalizing v with
  | nil => simp only [findPath?, Option.some.injEq] at h; subst h; rfl
  | cons s rest ih =>
    simp only [findPath?] at h
    split at h
    · rename_i c hc
      simp only [access, subscript_of_find? hc, ih h, put_self hc]
    · cases h

theorem findPath?_of_access {v v1 w : Json} {p : List Step} (h : v.access p = (v1, .ok w)) :
    v1.findPath? p = some w := by
  induction p generalizing v v1 with
  | nil =>
    simp only [access, Prod.mk.injEq, Except.ok.injEq] at h
    obtain ⟨h1, h2⟩ := h
    subst h1; subst h2; rfl
  | cons s rest ih =>
    simp only [access] at h
    split at h
    · cases h
    · rename_i v2 child hsub
      rcases hacc : child.access rest with ⟨c1, r1⟩
      rw [hacc] at h
      simp only [Prod.mk.injEq] at h
      obtain ⟨h1, h2⟩ := h
      subst h2; subst h1
      have hf := find?_of_subscript hsub
      have := find?_put (s := s) c1 (by rw [hf]; rfl)
      simp only [findPath?, this]
      exact ih hacc

theorem findPath?_append (v : Json) (p q : List Step) :
    v.findPath? (p ++ q) = (v.findPath? p).bind (fun w => w.findPath? q) := by
  induction p generalizing v with
  | nil => simp [findPath?]
  | cons s rest ih =>
    simp only [List.cons_append, findPath?]
    split
    · exact ih _
    · simp

theorem findPath?_null_cons (s : Step) (q : List Step) : null.findPath? (s :: q) = none := by
  simp [findPath?, find?]

/-- A reference bound by a chain of subscripts and then read through at a deeper
place: the binding created nothing. -/
theorem access_eq_of_findPath?_append {v v1 w r : Json} {p : List Step} {s : Step}
    {q : List Step} (h : v.access p = (v1, .ok w))
    (hr : v1.findPath? (p ++ s :: q) = some r) : v1 = v := by
  have hw := findPath?_of_access h
  rw [findPath?_append, hw] at hr
  simp only [Option.some_bind] at hr
  have hne : w ≠ null := by
    intro hn; subst hn
    rw [findPath?_null_cons] at hr
    cases hr
  exact (access_nonnull h hne).1

end Json

/-! ## The loader monad -/

section LoadLemmas

variable {α β : Type}

@[simp] theorem Load.bind_apply (m : Load α) (f : α → Load β) (s : LoadState) :
    (m >>= f) s = match m s with
      | .ok a s1 => f a s1
      | .fail e s1 => .fail e s1 := rfl

@[simp] theorem Load.pure_apply (a : α) (s : LoadState) : (pure a : Load α) s = .ok a s := rfl

theorem Load.bind_ok_iff {m : Load α} {f : α → Load β} {s s2 : LoadState} {b : β} :
    (m >>= f) s = .ok b s2 ↔ ∃ a s1, m s = .ok a s1 ∧ f a s1 = .ok b s2 := by
  rw [Load.bind_apply]
  constructor
  · intro h
    rcases hm : m s with ⟨a, s1⟩ | ⟨e, s1⟩
    · rw [hm] at h
      exact ⟨a, s1, rfl, h⟩
    · rw [hm] at h
      cases h
  · rintro ⟨a, s1, hm, hf⟩
    rw [hm]
    exact hf

theorem liftE_ok_iff {r : Except Failure α} {s s1 : LoadState} {a : α} :
    liftE r s = .ok a s1 ↔ r = .ok a ∧ s1 = s := by
  unfold liftE
  cases r with
  | ok x =>
    constructor
    · intro h; cases h; exact ⟨rfl, rfl⟩
    · rintro ⟨h1, h2⟩; cases h1; subst h2; rfl
  | error e =>
    constructor
    · intro h; cases h
    · rintro ⟨h1, _⟩; cases h1

theorem accessJ_ok_iff {p : List Step} {s s1 : LoadState} {v : Json} :
    accessJ p s = .ok v s1 ↔ ∃ j1, s.j.access p = (j1, .ok v) ∧ s1 = { s with j := j1 } := by
  unfold accessJ
  rcases h : s.j.access p with ⟨j1, r⟩
  cases r with
  | ok x =>
    constructor
    · intro h1; cases h1; exact ⟨j1, rfl, rfl⟩
    · rintro ⟨j2, h1, h2⟩; cases h1; subst h2; rfl
  | error e =>
    constructor
    · intro h1; cases h1
    · rintro ⟨j2, h1, _⟩; cases h1

theorem toInt_ne_null {v : Json} {n : Int} (h : v.toInt = .ok n) : v ≠ .null := by
  intro hv; subst hv; cases h

theorem toFloat_ne_null {v : Json} {q : ℚ} (h : v.toFloat = .ok q) : v ≠ .null := by
  intro hv; subst hv; cases h

theorem toOption_eq_some_iff {r : Except Failure α} {a : α} :
    r.toOption = some a ↔ r = .ok a := by
  cases r <;> simp [Except.toOption]

/-- An access whose result converts to `int` leaves the document as it is. -/
theorem accessJ_nonnull {p : List Step} {s s1 : LoadState} {v : Json}
    (h : accessJ p s = .ok v s1) (hv : v ≠ .null) : s1 = s ∧ s.j.findPath? p = some v := by
  obtain ⟨j1, hacc, hs⟩ := accessJ_ok_iff.mp h
  obtain ⟨hj, hf⟩ := Json.access_nonnull hacc hv
  subst hj
  exact ⟨hs, hf⟩

theorem accessJ_of_findPath? {p : List Step} {s : LoadState} {v : Json}
    (h : s.j.findPath? p = some v) : accessJ p s = .ok v s :=
  accessJ_ok_iff.mpr ⟨s.j, Json.access_of_findPath? h, rfl⟩

/-- A reference bound with `accessJ p` and found read through at a deeper place
afterwards: binding it changed nothing. -/
theorem accessJ_bound {p : List Step} {s s1 : LoadState} {w r : Json} {st : Step}
    {q : List Step} (h : accessJ p s = .ok w s1)
    (hr : s1.j.findPath? (p ++ st :: q) = some r) : s1 = s := by
  obtain ⟨j1, hacc, hs⟩ := accessJ_ok_iff.mp h
  subst hs
  have := Json.access_eq_of_findPath?_append hacc hr
  simp only at this
  subst this
  rfl

theorem findPath?_snoc_key (v : Json) (p : List Step) (k : String) :
    (v.findPath? (p ++ [.key k])).bind (fun x => x.toInt.toOption)
      = (v.findPath? p).bind (fun w => w.intAt? k) := by
  rw [Json.findPath?_append]
  cases v.findPath? p with
  | none => rfl
  | some w =>
    simp only [Option.some_bind, Json.findPath?, Json.intAt?]
    cases w.find? (.key k) <;> rfl

theorem intMember_ok_iff {p : List Step} {k : String} {s s1 : LoadState} {n : Int} :
    intMember p k s = .ok n s1 ↔
      s1 = s ∧ (s.j.findPath? p).bind (fun w => w.intAt? k) = some n := by
  unfold intMember
  rw [Load.bind_ok_iff]
  constructor
  · rintro ⟨v, s2, hacc, hconv⟩
    obtain ⟨hv, hs⟩ := liftE_ok_iff.mp hconv
    subst hs
    obtain ⟨hs, hf⟩ := accessJ_nonnull hacc (toInt_ne_null hv)
    refine ⟨hs, ?_⟩
    rw [← findPath?_snoc_key, hf]
    simp [toOption_eq_some_iff, hv]
  · rintro ⟨hs, hf⟩
    have hs := hs.symm
    subst hs
    rw [← findPath?_snoc_key] at hf
    rcases hv : (s.j.findPath? (p ++ [.key k])) with _ | v
    · rw [hv] at hf; cases hf
    · rw [hv] at hf
      simp only [Option.some_bind, toOption_eq_some_iff] at hf
      exact ⟨v, s, accessJ_of_findPath? hv, liftE_ok_iff.mpr ⟨hf, rfl⟩⟩

/-- From a successful `intMember` on a reference: the member is found in the
document, at a place one subscript below the reference. -/
theorem intMember_found {p : List Step} {k : String} {s : LoadState} {n : Int}
    (h : (s.j.findPath? p).bind (fun w => w.intAt? k) = some n) :
    ∃ r, s.j.findPath? (p ++ Step.key k :: []) = some r := by
  rw [Json.findPath?_append]
  rcases hw : (s.j.findPath? p) with _ | w
  · rw [hw] at h; cases h
  · rw [hw] at h
    simp only [Option.some_bind, Json.intAt?] at h
    rcases hx : (w.find? (.key k)) with _ | x
    · rw [hx] at h; cases h
    · exact ⟨x, by simp [Json.findPath?, hx]⟩

theorem accessorOffset_ok_iff {idx : Int} {s s1 : LoadState} {off : Int} :
    accessorOffset idx s = .ok off s1 ↔ s1 = s ∧ absoluteOffset? s.j idx = some off := by
  unfold accessorOffset byteOffsetOf absoluteOffset?
  constructor
  · intro h
    simp only [Load.bind_ok_iff] at h
    obtain ⟨w, s2, hbind, viewIdx, s3, hview, w2, s4, hbind2, a, s5, hderef, accOff, s6, hacc,
      viewOff, s7, hvo, hpure⟩ := h
    obtain ⟨hs3, hviewIdx⟩ := intMember_ok_iff.mp hview
    have hs3 := hs3.symm
    subst hs3
    obtain ⟨r, hr⟩ := intMember_found hviewIdx
    have hs2 := (accessJ_bound hbind hr).symm
    subst hs2
    obtain ⟨hs7, hviewOff⟩ := intMember_ok_iff.mp hvo
    have hs7 := hs7.symm
    subst hs7
    simp only [derefJ, Res.ok.injEq] at hderef
    obtain ⟨ha, hs5⟩ := hderef
    subst hs5
    have hs6 : s4 = s6 ∧ (if a.contains "byteOffset" then
        (s4.j.findPath? (accessorRef idx)).bind (fun w => w.intAt? "byteOffset") else some 0)
          = some accOff := by
      split at hacc
      · rename_i hc
        have := intMember_ok_iff.mp hacc
        exact ⟨this.1.symm, by simpa [hc] using this.2⟩
      · rename_i hc
        simp only [Load.pure_apply, Res.ok.injEq] at hacc
        simp [hc, hacc.1, hacc.2]
    obtain ⟨hs6a, haccOff⟩ := hs6
    subst hs6a
    obtain ⟨r2, hr2⟩ := intMember_found hviewOff
    have hs4 := (accessJ_bound hbind2 hr2).symm
    subst hs4
    simp only [Load.pure_apply, Res.ok.injEq] at hpure
    obtain ⟨hoff, hs1⟩ := hpure
    subst hs1
    refine ⟨rfl, ?_⟩
    rcases hacc1 : (s.j.findPath? (accessorRef idx)) with _ | acc
    · rw [hacc1] at hviewIdx; cases hviewIdx
    · rw [hacc1] at hviewIdx haccOff ha
      simp only [Option.some_bind, Option.getD_some] at hviewIdx haccOff ha
      subst ha
      rcases hview1 : (s.j.findPath? (bufferViewRef viewIdx)) with _ | view
      · rw [hview1] at hviewOff; cases hviewOff
      · rw [hview1] at hviewOff
        simp only [Option.some_bind] at hviewOff
        simp [hviewIdx, hview1, haccOff, hviewOff, hoff]
  · rintro ⟨hs, h⟩
    subst hs
    rcases hacc1 : (s1.j.findPath? (accessorRef idx)) with _ | acc
    · rw [hacc1] at h; cases h
    rw [hacc1] at h
    simp only [Option.bind_eq_bind, Option.some_bind] at h
    rcases hvi : (acc.intAt? "bufferView") with _ | viewIdx
    · rw [hvi] at h; cases h
    rw [hvi] at h
    simp only [Option.some_bind] at h
    rcases hview1 : (s1.j.findPath? (bufferViewRef viewIdx)) with _ | view
    · rw [hview1] at h; cases h
    rw [hview1] at h
    simp only [Option.some_bind] at h
    rcases hao : (if acc.contains "byteOffset" then acc.intAt? "byteOffset" else some 0)
      with _ | accOff
    · rw [hao] at h; cases h
    rw [hao] at h
    simp only [Option.some_bind] at h
    rcases hvo : (view.intAt? "byteOffset") with _ | viewOff
    · rw [hvo] at h; cases h
    rw [hvo] at h
    simp only [Option.some_bind, Option.some.injEq] at h
    simp only [Load.bind_ok_iff]
    refine ⟨acc, s1, accessJ_of_findPath? hacc1, viewIdx, s1,
      intMember_ok_iff.mpr ⟨rfl, by simp [hacc1, hvi]⟩, view, s1, accessJ_of_findPath? hview1,
      acc, s1, by simp [derefJ, hacc1], accOff, s1, ?_, viewOff, s1,
      intMember_ok_iff.mpr ⟨rfl, by simp [hview1, hvo]⟩, by simp [h]⟩
    split
    · rename_i hc
      simp only [hc, if_true] at hao
      exact intMember_ok_iff.mpr ⟨rfl, by simp [hacc1, hao]⟩
    · rename_i hc
      simp only [hc] at hao
      simp only [Bool.false_eq_true, if_false, Option.some.injEq] at hao
      simp [hao]

end LoadLemmas

section ColorLemmas

theorem findPath?_snoc (v : Json) (p : List Step) (st : Step) :
    v.findPath? (p ++ [st]) = (v.findPath? p).bind (fun w => w.find? st) := by
  rw [Json.findPath?_append]
  cases v.findPath? p with
  | none => rfl
  | some w =>
    simp only [Option.some_bind, Json.findPath?]
    cases w.find? st <;> rfl

theorem constAt_eq_ok_iff {v x : Json} {k : String} :
    v.constAt k = .ok x ↔ v.find? (.key k) = some x := by
  cases v <;> simp [Json.constAt, Json.find?]
  rename_i ms
  cases lookupMember k ms <;> simp

theorem except_bind_eq_ok_iff {α β : Type} {r : Except Failure α} {f : α → Except Failure β}
    {b : β} : r.bind f = .ok b ↔ ∃ a, r = .ok a ∧ f a = .ok b := by
  cases r <;> simp [Except.bind]

theorem constAt_toInt_iff {v : Json} {k : String} {n : Int} :
    (v.constAt k).bind Json.toInt = .ok n ↔ v.intAt? k = some n := by
  rw [except_bind_eq_ok_iff]
  simp only [constAt_eq_ok_iff, Json.intAt?]
  constructor
  · rintro ⟨x, hx, hn⟩
    simp [hx, hn, Except.toOption]
  · intro h
    rcases hx : (v.find? (.key k)) with _ | x
    · rw [hx] at h; cases h
    · rw [hx] at h
      exact ⟨x, rfl, toOption_eq_some_iff.mp h⟩

theorem constAt_attribute_iff {v : Json} {name : String} {n : Int} :
    (((v.constAt "attributes").bind (fun a => a.constAt name)).bind Json.toInt) = .ok n ↔
      attributeIdx? v name = some n := by
  rw [except_bind_eq_ok_iff]
  simp only [except_bind_eq_ok_iff, constAt_eq_ok_iff, attributeIdx?, Json.intAt?]
  constructor
  · rintro ⟨x, ⟨a, ha, hx⟩, hn⟩
    simp [ha, hx, hn, Except.toOption]
  · intro h
    rcases ha : (v.find? (.key "attributes")) with _ | a
    · rw [ha] at h; cases h
    · rw [ha] at h
      simp only [Option.some_bind] at h
      rcases hx : (a.find? (.key name)) with _ | x
      · rw [hx] at h; cases h
      · rw [hx] at h
        exact ⟨x, ⟨a, rfl, hx⟩, toOption_eq_some_iff.mp h⟩

theorem floatAt?_eq_some_iff {v : Json} {i : Int} {q : ℚ} :
    v.floatAt? i = some q ↔ ∃ x, v.find? (.idx i) = some x ∧ x.toFloat = .ok q := by
  unfold Json.floatAt?
  cases v.find? (.idx i) <;> simp [toOption_eq_some_iff]

theorem loadColor_ok_iff {primitive : Json} {s s1 : LoadState} {c : Vec4} :
    loadColor primitive s = .ok c s1 ↔ s1 = s ∧ colorOf? s.j primitive = some c := by
  unfold loadColor colorOf?
  split
  · constructor
    · intro h
      simp only [Load.bind_ok_iff, liftE_ok_iff, constAt_toInt_iff] at h
      obtain ⟨matIdx, s2, ⟨hmat, hs2⟩, w1, s3, hb1, w2, s4, hb2, c0, s5, h0, c1, s6, h1, c2, s7,
        h2, c3, s8, h3, r, s9, ⟨hr, hs9⟩, g, s10, ⟨hg, hs10⟩, b, s11, ⟨hb, hs11⟩, a, s12,
        ⟨ha, hs12⟩, hpure⟩ := h
      have hs2 := hs2.symm
      subst hs2
      obtain ⟨e3, f3⟩ := accessJ_nonnull h3 (toFloat_ne_null ha)
      have e3 := e3.symm
      subst e3
      obtain ⟨e2, f2⟩ := accessJ_nonnull h2 (toFloat_ne_null hb)
      have e2 := e2.symm
      subst e2
      obtain ⟨e1, f1⟩ := accessJ_nonnull h1 (toFloat_ne_null hg)
      have e1 := e1.symm
      subst e1
      obtain ⟨e0, f0⟩ := accessJ_nonnull h0 (toFloat_ne_null hr)
      have e0 := e0.symm
      subst e0
      have e4 := (accessJ_bound hb2 f0).symm
      subst e4
      have e5 := (accessJ_bound (q := [.key "baseColorFactor", .idx 0]) hb1
        (by simpa using f0)).symm
      subst e5
      have hs9 := hs9.symm
      subst hs9
      have hs10 := hs10.symm
      subst hs10
      have hs11 := hs11.symm
      subst hs11
      have hs12 := hs12.symm
      subst hs12
      simp only [Load.pure_apply, Res.ok.injEq] at hpure
      obtain ⟨hc, hs1⟩ := hpure
      subst hs1
      refine ⟨rfl, ?_⟩
      rw [findPath?_snoc] at f0 f1 f2 f3
      simp only [List.cons_append, List.nil_append] at f0 f1 f2 f3
      rcases hcf : (s.j.findPath? [.key "materials", .idx matIdx, .key "pbrMetallicRoughness",
        .key "baseColorFactor"]) with _ | cf
      · rw [hcf] at f0; cases f0
      · rw [hcf] at f0 f1 f2 f3
        simp only [Option.some_bind] at f0 f1 f2 f3
        have q0 := floatAt?_eq_some_iff.mpr ⟨c0, f0, hr⟩
        have q1 := floatAt?_eq_some_iff.mpr ⟨c1, f1, hg⟩
        have q2 := floatAt?_eq_some_iff.mpr ⟨c2, f2, hb⟩
        have q3 := floatAt?_eq_some_iff.mpr ⟨c3, f3, ha⟩
        simp [hmat, hcf, q0, q1, q2, q3, hc]
    · rintro ⟨hs, h⟩
      have hs := hs.symm
      subst hs
      rcases hmat : (primitive.intAt? "material") with _ | matIdx
      · rw [hmat] at h; cases h
      rw [hmat] at h
      simp only [Option.bind_eq_bind, Option.some_bind] at h
      rcases hcf : (s.j.findPath? [.key "materials", .idx matIdx, .key "pbrMetallicRoughness",
        .key "baseColorFactor"]) with _ | cf
      · rw [hcf] at h; cases h
      rw [hcf] at h
      simp only [Option.some_bind] at h
      rcases q0 : (cf.floatAt? 0) with _ | r
      · rw [q0] at h; cases h
      rw [q0] at h
      simp only [Option.some_bind] at h
      rcases q1 : (cf.floatAt? 1) with _ | g
      · rw [q1] at h; cases h
      rw [q1] at h
      simp only [Option.some_bind] at h
      rcases q2 : (cf.floatAt? 2) with _ | b
      · rw [q2] at h; cases h
      rw [q2] at h
      simp only [Option.some_bind] at h
      rcases q3 : (cf.floatAt? 3) with _ | a
      · rw [q3] at h; cases h
      rw [q3] at h
      simp only [Option.some_bind, Option.some.injEq] at h
      obtain ⟨c0, f0, hr⟩ := floatAt?_eq_some_iff.mp q0
      obtain ⟨c1, f1, hg⟩ := floatAt?_eq_some_iff.mp q1
      obtain ⟨c2, f2, hb⟩ := floatAt?_eq_some_iff.mp q2
      obtain ⟨c3, f3, ha⟩ := floatAt?_eq_some_iff.mp q3
      have hfind : ∀ (i : Int) (x : Json), cf.find? (.idx i) = some x →
          s.j.findPath? ([Step.key "materials", Step.idx matIdx] ++
            [Step.key "pbrMetallicRoughness", Step.key "baseColorFactor"] ++ [Step.idx i])
            = some x := by
        intro i x hx
        rw [findPath?_snoc]
        simp only [List.cons_append, List.nil_append, hcf, Option.some_bind, hx]
      have hmatPath : ∃ m, s.j.findPath? [Step.key "materials", Step.idx matIdx] = some m := by
        have := hcf
        rw [show [Step.key "materials", Step.idx matIdx, Step.key "pbrMetallicRoughness",
          Step.key "baseColorFactor"] = [Step.key "materials", Step.idx matIdx] ++
          [Step.key "pbrMetallicRoughness", Step.key "baseColorFactor"] from rfl,
          Json.findPath?_append] at this
        rcases hm : (s.j.findPath? [Step.key "materials", Step.idx matIdx]) with _ | m
        · rw [hm] at this; cases this
        · exact ⟨m, rfl⟩
      obtain ⟨m, hm⟩ := hmatPath
      simp only [Load.bind_ok_iff, liftE_ok_iff, constAt_toInt_iff]
      exact ⟨matIdx, s, ⟨hmat, rfl⟩, m, s, accessJ_of_findPath? hm, cf, s,
        accessJ_of_findPath? (by simpa using hcf), c0, s, accessJ_of_findPath? (hfind 0 c0 f0),
        c1, s, accessJ_of_findPath? (hfind 1 c1 f1), c2, s, accessJ_of_findPath? (hfind 2 c2 f2),
        c3, s, accessJ_of_findPath? (hfind 3 c3 f3), r, s, ⟨hr, rfl⟩, g, s, ⟨hg, rfl⟩,
        b, s, ⟨hb, rfl⟩, a, s, ⟨ha, rfl⟩, by simp [h]⟩
  · simp only [Load.pure_apply, Res.ok.injEq, Option.some.injEq]
    constructor
    · rintro ⟨h1, h2⟩; exact ⟨h2.symm, h1⟩
    · rintro ⟨h1, h2⟩; exact ⟨h2, h1.symm⟩

end ColorLemmas

section PrimitiveLemmas

theorem glCall_ok_iff {c : GLCall} {s s1 : LoadState} {u : Unit} :
    glCall c s = .ok u s1 ↔
      s1 = { s with gl := { s.gl with calls := s.gl.calls ++ [c] } } := by
  unfold glCall
  constructor
  · intro h; cases h; rfl
  · intro h; subst h; rfl

theorem glBufferData_ok_iff {binData : List UInt8} {target size offset : Int}
    {s s1 : LoadState} {u : Unit} :
    glBufferData binData target size offset s = .ok u s1 ↔
      s1 = { s with gl := { s.gl with calls := s.gl.calls ++
        [.bufferData target size offset (readRange binData offset size)] } } := by
  unfold glBufferData
  exact glCall_ok_iff

theorem glGenVertexArrays_ok_iff {s s1 : LoadState} {n : Nat} :
    glGenVertexArrays s = .ok n s1 ↔ n = s.gl.vertexArrays + 1 ∧
      s1 = { s with gl := { s.gl with vertexArrays := s.gl.vertexArrays + 1,
                                      calls := s.gl.calls ++
                                        [.genVertexArrays (s.gl.vertexArrays + 1)] } } := by
  unfold glGenVertexArrays
  constructor
  · intro h; cases h; exact ⟨rfl, rfl⟩
  · rintro ⟨h1, h2⟩; subst h1; subst h2; rfl

theorem glGenBuffers_ok_iff {s s1 : LoadState} {n : Nat} :
    glGenBuffers s = .ok n s1 ↔ n = s.gl.buffers + 1 ∧
      s1 = { s with gl := { s.gl with buffers := s.gl.buffers + 1,
                                      calls := s.gl.calls ++
                                        [.genBuffers (s.gl.buffers + 1)] } } := by
  unfold glGenBuffers
  constructor
  · intro h; cases h; exact ⟨rfl, rfl⟩
  · rintro ⟨h1, h2⟩; subst h1; subst h2; rfl

theorem pushMesh_ok_iff {m : GLTFMesh} {s s1 : LoadState} {u : Unit} :
    pushMesh m s = .ok u s1 ↔ s1 = { s with meshes := s.meshes ++ [m] } := by
  unfold pushMesh
  constructor
  · intro h; cases h; rfl
  · intro h; subst h; rfl

theorem loadPrimitive_ok_iff {binData : List UInt8} {primitive : Json} {s s1 : LoadState}
    {u : Unit} : loadPrimitive binData primitive s = .ok u s1 ↔
      ∃ r, resolve? s.j primitive = some r ∧ s1 = uploaded binData r s := by
  unfold loadPrimitive
  simp only [Load.bind_ok_iff, loadColor_ok_iff, liftE_ok_iff, constAt_toInt_iff,
    constAt_attribute_iff, accessorOffset_ok_iff, intMember_ok_iff, glCall_ok_iff,
    glBufferData_ok_iff, glGenVertexArrays_ok_iff, glGenBuffers_ok_iff, pushMesh_ok_iff]
  constructor
  · rintro ⟨color, _, ⟨rfl, hcolor⟩, iIdx, _, ⟨hiIdx, rfl⟩, iOff, _, ⟨rfl, hiOff⟩,
      iCount, _, ⟨rfl, hiCount⟩, ct, _, ⟨rfl, hct⟩, pIdx, _, ⟨hpIdx, rfl⟩, pOff, _, ⟨rfl, hpOff⟩,
      nIdx, _, ⟨hnIdx, rfl⟩, nOff, _, ⟨rfl, hnOff⟩, vao, _, ⟨rfl, rfl⟩, _, _, rfl,
      vbo1, _, ⟨rfl, rfl⟩, _, _, rfl, pCount, _, ⟨rfl, hpCount⟩, _, _, rfl, _, _, rfl, _, _, rfl,
      vbo2, _, ⟨rfl, rfl⟩, _, _, rfl, nCount, _, ⟨rfl, hnCount⟩, _, _, rfl, _, _, rfl, _, _, rfl,
      vbo3, _, ⟨rfl, rfl⟩, _, _, rfl, _, _, rfl, rfl⟩
    refine ⟨⟨color, iOff, iCount, ct, pOff, pCount, nOff, nCount⟩, ?_, ?_⟩
    · simp only [resolve?, accessorInt?, hcolor, hiIdx, hiOff, hiCount, hct, hpIdx, hpOff, hnIdx,
        hnOff, hpCount, hnCount, Option.bind_eq_bind, Option.some_bind]
    · simp [uploaded, uploadCalls, meshOf, indexTypeOf, indexSizeOf]
  · rintro ⟨r, hr, rfl⟩
    simp only [resolve?, Option.bind_eq_bind, Option.bind_eq_some, Option.some.injEq] at hr
    obtain ⟨color, hcolor, iIdx, hiIdx, iOff, hiOff, iCount, hiCount, ct, hct, pIdx, hpIdx,
      pOff, hpOff, nIdx, hnIdx, nOff, hnOff, pCount, hpCount, nCount, hnCount, rfl⟩ := hr
    simp only [accessorInt?] at hiCount hct hpCount hnCount
    refine ⟨color, s, ⟨rfl, hcolor⟩, iIdx, s, ⟨hiIdx, rfl⟩, iOff, s, ⟨rfl, hiOff⟩,
      iCount, s, ⟨rfl, hiCount⟩, ct, s, ⟨rfl, hct⟩, pIdx, s, ⟨hpIdx, rfl⟩, pOff, s, ⟨rfl, hpOff⟩,
      nIdx, s, ⟨hnIdx, rfl⟩, nOff, s, ⟨rfl, hnOff⟩, _, _, ⟨rfl, rfl⟩, (), _, rfl,
      _, _, ⟨rfl, rfl⟩, (), _, rfl, pCount, _, ⟨rfl, hpCount⟩, (), _, rfl, (), _, rfl, (), _, rfl,
      _, _, ⟨rfl, rfl⟩, (), _, rfl, nCount, _, ⟨rfl, hnCount⟩, (), _, rfl, (), _, rfl, (), _, rfl,
      _, _, ⟨rfl, rfl⟩, (), _, rfl, (), _, rfl, ?_⟩
    simp [uploaded, uploadCalls, meshOf, indexTypeOf, indexSizeOf]

end PrimitiveLemmas

section LoopLemmas

@[simp] theorem uploaded_j (binData : List UInt8) (r : Resolved) (s : LoadState) :
    (uploaded binData r s).j = s.j := rfl

@[simp] theorem uploadedAll_j (binData : List UInt8) (rs : List Resolved) (s : LoadState) :
    (uploadedAll binData rs s).j = s.j := by
  induction rs generalizing s with
  | nil => rfl
  | cons r rest ih => simp [uploadedAll, ih]

theorem loadPrimitives_ok_iff {binData : List UInt8} {prims : List Json} {s s1 : LoadState}
    {u : Unit} : loadPrimitives binData prims s = .ok u s1 ↔
      ∃ rs, resolveAll? s.j prims = some rs ∧ s1 = uploadedAll binData rs s := by
  induction prims generalizing s with
  | nil =>
    simp only [loadPrimitives, Load.pure_apply, Res.ok.injEq, true_and, resolveAll?,
      Option.some.injEq]
    constructor
    · intro h; exact ⟨[], rfl, h.symm⟩
    · rintro ⟨rs, rfl, h⟩; exact h.symm
  | cons p rest ih =>
    simp only [loadPrimitives, Load.bind_ok_iff, loadPrimitive_ok_iff, ih, resolveAll?,
      Option.bind_eq_bind, Option.bind_eq_some, Option.some.injEq]
    constructor
    · rintro ⟨_, _, ⟨r, hr, rfl⟩, rs, hrs, rfl⟩
      exact ⟨r :: rs, ⟨r, hr, rs, by simpa using hrs, rfl⟩, rfl⟩
    · rintro ⟨_, ⟨r, hr, rs, hrs, rfl⟩, rfl⟩
      exact ⟨(), _, ⟨r, hr, rfl⟩, rs, by simpa using hrs, rfl⟩

theorem resolveAll?_append {j : Json} {ps qs : List Json} {rs : List Resolved} :
    resolveAll? j (ps ++ qs) = some rs ↔
      ∃ r1 r2, resolveAll? j ps = some r1 ∧ resolveAll? j qs = some r2 ∧ rs = r1 ++ r2 := by
  induction ps generalizing rs with
  | nil => simp [resolveAll?]
  | cons p rest ih =>
    simp only [List.cons_append, resolveAll?, Option.bind_eq_bind, Option.bind_eq_some,
      Option.some.injEq, List.append_eq, ih]
    constructor
    · rintro ⟨r, hr, rs1, ⟨r1, r2, h1, h2, rfl⟩, rfl⟩
      exact ⟨r :: r1, r2, ⟨r, hr, r1, h1, rfl⟩, h2, rfl⟩
    · rintro ⟨_, r2, ⟨r, hr, r1, h1, rfl⟩, h2, rfl⟩
      exact ⟨r, hr, r1 ++ r2, ⟨r1, r2, h1, h2, rfl⟩, rfl⟩

theorem uploadedAll_append (binData : List UInt8) (r1 r2 : List Resolved) (s : LoadState) :
    uploadedAll binData (r1 ++ r2) s = uploadedAll binData r2 (uploadedAll binData r1 s) := by
  induction r1 generalizing s with
  | nil => rfl
  | cons r rest ih => simp [uploadedAll, ih]

theorem constAt_toStr_iff {v : Json} {k n : String} :
    (v.constAt k).bind Json.toStr = .ok n ↔ v.find? (.key k) = some (.str n) := by
  rw [except_bind_eq_ok_iff]
  simp only [constAt_eq_ok_iff]
  constructor
  · rintro ⟨x, hx, hn⟩
    cases x <;> simp [Json.toStr] at hn
    subst hn; exact hx
  · intro h
    exact ⟨_, h, rfl⟩

theorem contains_eq_isSome (v : Json) (k : String) :
    v.contains k = (v.find? (.key k)).isSome := by
  cases v <;> simp [Json.contains, Json.find?]

/-- The loop body on a mesh: an excluded mesh is skipped, any other mesh that
can be walked has its primitives loaded in order. -/
theorem loadMesh_ok_iff {binData : List UInt8} {mesh : Json} {s s1 : LoadState} {u : Unit} :
    loadMesh binData mesh s = .ok u s1 ↔
      meshWalkable mesh = true ∧
        loadPrimitives binData (if isExcluded mesh then [] else primitivesOf mesh) s
          = .ok u s1 := by
  unfold loadMesh meshWalkable isExcluded primitivesOf
  rw [contains_eq_isSome]
  rcases hname : (mesh.find? (.key "name")) with _ | nm
  · simp only [Option.isSome_none, Bool.false_eq_true, if_false, Load.bind_ok_iff,
      Load.pure_apply, Res.ok.injEq, liftE_ok_iff, constAt_eq_ok_iff]
    constructor
    · rintro ⟨b, s2, ⟨rfl, rfl⟩, h⟩
      simp only [Bool.false_eq_true, if_false, Load.bind_ok_iff, liftE_ok_iff,
        constAt_eq_ok_iff] at h
      obtain ⟨prims, s3, ⟨hp, rfl⟩, h⟩ := h
      simp [hp, h]
    · rintro ⟨hw, h⟩
      refine ⟨false, s, ⟨rfl, rfl⟩, ?_⟩
      rcases hp : (mesh.find? (.key "primitives")) with _ | prims
      · simp [hp] at hw
      · simp only [Bool.false_eq_true, if_false, Load.bind_ok_iff, liftE_ok_iff,
          constAt_eq_ok_iff]
        exact ⟨prims, s, ⟨hp, rfl⟩, by simpa [hp] using h⟩
  · simp only [Option.isSome_some, if_true, Load.bind_ok_iff, Load.pure_apply, Res.ok.injEq,
      liftE_ok_iff, constAt_toStr_iff, hname, Option.some.injEq]
    constructor
    · rintro ⟨b, s2, ⟨n, s3, ⟨rfl, rfl⟩, rfl, rfl⟩, h⟩
      by_cases hn : n = "Cube.001"
      · simp only [hn, decide_True, if_true, Load.pure_apply, Res.ok.injEq, true_and] at h
        simp [hn, loadPrimitives, h]
      · simp only [hn, decide_False, Bool.false_eq_true, if_false, Load.bind_ok_iff,
          liftE_ok_iff, constAt_eq_ok_iff] at h
        obtain ⟨prims, s3, ⟨hp, rfl⟩, h⟩ := h
        simp [hn, hp, h]
    · rintro ⟨hw, h⟩
      cases nm <;> simp at hw
      rename_i n
      refine ⟨decide (n = "Cube.001"), s, ⟨n, s, ⟨rfl, rfl⟩, rfl, rfl⟩, ?_⟩
      by_cases hn : n = "Cube.001"
      · simp only [hn, decide_True, if_true, loadPrimitives, Load.pure_apply] at h ⊢
        exact h
      · simp only [hn, decide_False, Bool.false_eq_true, if_false, Load.bind_ok_iff,
          liftE_ok_iff, constAt_eq_ok_iff] at h ⊢
        simp only [hn, false_or] at hw
        rcases hp : (mesh.find? (.key "primitives")) with _ | prims
        · simp [hp] at hw
        · exact ⟨prims, s, ⟨rfl, rfl⟩, by simpa [hp] using h⟩

end LoopLemmas

section DocumentLemmas

theorem includedOf_cons (m : Json) (ms : List Json) :
    includedOf (m :: ms) = (if isExcluded m then [] else primitivesOf m) ++ includedOf ms := by
  unfold includedOf
  by_cases h : isExcluded m <;> simp [List.filter, h]

theorem loadMeshList_ok_iff {binData : List UInt8} {ms : List Json} {s s1 : LoadState}
    {u : Unit} : loadMeshList binData ms s = .ok u s1 ↔
      (∀ m ∈ ms, meshWalkable m = true) ∧
        ∃ rs, resolveAll? s.j (includedOf ms) = some rs ∧ s1 = uploadedAll binData rs s := by
  induction ms generalizing s with
  | nil =>
    simp only [loadMeshList, Load.pure_apply, Res.ok.injEq, true_and, List.not_mem_nil,
      false_imp_iff, implies_true, includedOf, List.filter_nil, List.flatMap_nil, resolveAll?,
      Option.some.injEq]
    constructor
    · intro h; exact ⟨[], rfl, h.symm⟩
    · rintro ⟨rs, rfl, h⟩; exact h.symm
  | cons m rest ih =>
    simp only [loadMeshList, Load.bind_ok_iff, loadMesh_ok_iff, loadPrimitives_ok_iff, ih,
      includedOf_cons, resolveAll?_append, List.mem_cons, forall_eq_or_imp]
    constructor
    · rintro ⟨_, _, ⟨hw, r1, h1, rfl⟩, hall, r2, h2, rfl⟩
      refine ⟨⟨hw, hall⟩, r1 ++ r2, ⟨r1, r2, h1, by simpa using h2, rfl⟩, ?_⟩
      rw [uploadedAll_append]
    · rintro ⟨⟨hw, hall⟩, _, ⟨r1, r2, h1, h2, rfl⟩, rfl⟩
      refine ⟨(), _, ⟨hw, r1, h1, rfl⟩, hall, r2, by simpa using h2, ?_⟩
      rw [uploadedAll_append]

theorem uploadedAll_meshes (binData : List UInt8) (rs : List Resolved) (s : LoadState) :
    (uploadedAll binData rs s).meshes = s.meshes ++ meshesFrom s.gl.vertexArrays rs := by
  induction rs generalizing s with
  | nil => simp [uploadedAll, meshesFrom]
  | cons r rest ih => simp [uploadedAll, meshesFrom, ih, uploaded]

theorem uploadedAll_gl (binData : List UInt8) (rs : List Resolved) (s : LoadState) :
    (uploadedAll binData rs s).gl =
      { vertexArrays := s.gl.vertexArrays + rs.length,
        buffers := s.gl.buffers + 3 * rs.length,
        calls := s.gl.calls ++ callsFrom binData s.gl.vertexArrays s.gl.buffers rs } := by
  induction rs generalizing s with
  | nil => simp [uploadedAll, callsFrom]
  | cons r rest ih =>
    simp only [uploadedAll, ih, uploaded, callsFrom, List.length_cons, List.append_assoc,
      GLState.mk.injEq, and_true]
    constructor <;> omega

/-- The values of `j["meshes"]` the loop visits, and what evaluating it does
to the document. -/
theorem accessJ_meshes {s s1 : LoadState} {v : Json}
    (h : accessJ [.key "meshes"] s = .ok v s1) :
    docWalkable s.j = true ∧ v.items = meshesOf s.j ∧ (v.items ≠ [] → s1 = s) ∧
      s1.meshes = s.meshes ∧ s1.gl = s.gl := by
  obtain ⟨j1, hacc, rfl⟩ := accessJ_ok_iff.mp h
  have hdoc : docWalkable s.j = true := by
    cases hj : s.j <;> simp [hj, Json.access, Json.subscript] at hacc <;> rfl
  refine ⟨hdoc, ?_, ?_, rfl, rfl⟩
  · by_cases hv : v = .null
    · subst hv
      unfold meshesOf
      rcases hf : (s.j.find? (.key "meshes")) with _ | x
      · rfl
      · have := Json.access_of_findPath? (v := s.j) (p := [.key "meshes"]) (r := x)
          (by simp [Json.findPath?, hf])
        rw [this] at hacc
        cases hacc
        rfl
    · have := (Json.access_nonnull hacc hv).2
      simp only [Json.findPath?] at this
      unfold meshesOf
      rcases hf : (s.j.find? (.key "meshes")) with _ | x
      · rw [hf] at this; cases this
      · rw [hf] at this
        simp only [Option.some.injEq] at this
        subst this; rfl
  · intro hne
    have hv : v ≠ .null := by
      intro hv; subst hv; exact hne rfl
    have := (Json.access_nonnull hacc hv).1
    subst this
    rfl

theorem accessJ_meshes_of_walkable {s : LoadState} (h : docWalkable s.j = true) :
    ∃ v s1, accessJ [.key "meshes"] s = .ok v s1 := by
  unfold accessJ
  cases hj : s.j <;> simp [hj, docWalkable] at h
  · simp [Json.access, Json.subscript]
  · rename_i ms
    cases hl : lookupMember "meshes" ms <;> simp [Json.access, Json.subscript, hl]

/-- The loader on a document, characterised: it returns exactly when the
document and its meshes can be walked and every primitive of a non-excluded
mesh resolves; it then returns one mesh per such primitive, in order. -/
theorem loadDocument_returned_iff {j : Json} {binData : List UInt8} {gl gl1 : GLState}
    {ms : List GLTFMesh} :
    loadDocument j binData gl = .returned ms gl1 ↔
      docWalkable j = true ∧ (∀ m ∈ meshesOf j, meshWalkable m = true) ∧
        ∃ rs, resolveAll? j (includedPrimitives j) = some rs ∧
          ms = meshesFrom gl.vertexArrays rs ∧
          gl1 = { vertexArrays := gl.vertexArrays + rs.length,
                  buffers := gl.buffers + 3 * rs.length,
                  calls := gl.calls ++ callsFrom binData gl.vertexArrays gl.buffers rs } := by
  unfold loadDocument loadMeshes
  constructor
  · intro h
    rcases hrun : (accessJ [Step.key "meshes"] >>= fun meshes =>
        loadMeshList binData meshes.items) ⟨j, [], gl⟩ with ⟨u, s1⟩ | ⟨e, s1⟩
    · rw [hrun] at h
      simp only [Res.outcome, Outcome.returned.injEq] at h
      obtain ⟨hms, hgl⟩ := h
      obtain ⟨v, s2, hacc, hloop⟩ := Load.bind_ok_iff.mp hrun
      obtain ⟨hdoc, hitems, hsame, hm2, hg2⟩ := accessJ_meshes hacc
      obtain ⟨hall, rs, hrs, hs1⟩ := loadMeshList_ok_iff.mp hloop
      rw [hitems] at hall hrs
      refine ⟨hdoc, hall, rs, ?_, ?_, ?_⟩
      · by_cases hne : v.items = []
        · rw [hitems] at hne
          simp only [includedPrimitives, includedOf, hne, List.filter_nil, List.flatMap_nil,
            resolveAll?, Option.some.injEq] at hrs ⊢
          exact hrs
        · rw [hsame hne] at hrs
          exact hrs
      · rw [← hms, hs1, uploadedAll_meshes, hm2, hg2]
        rfl
      · rw [← hgl, hs1, uploadedAll_gl, hg2]
    · rw [hrun] at h
      cases h
  · rintro ⟨hdoc, hall, rs, hrs, rfl, rfl⟩
    obtain ⟨v, s2, hacc⟩ := accessJ_meshes_of_walkable (s := ⟨j, [], gl⟩) hdoc
    obtain ⟨_, hitems, hsame, hm2, hg2⟩ := accessJ_meshes hacc
    have hrs2 : resolveAll? s2.j (includedOf v.items) = some rs := by
      by_cases hne : v.items = []
      · rw [hitems] at hne
        simp only [includedPrimitives, includedOf, hne, List.filter_nil, List.flatMap_nil,
          resolveAll?, Option.some.injEq] at hrs
        simp only [hitems, includedOf, hne, List.filter_nil, List.flatMap_nil,
          resolveAll?, Option.some.injEq]
        exact hrs
      · rw [hsame hne, hitems]
        exact hrs
    have hloop : loadMeshList binData v.items s2 = .ok () (uploadedAll binData rs s2) :=
      loadMeshList_ok_iff.mpr ⟨by rw [hitems]; exact hall, rs, hrs2, rfl⟩
    have hrun : (accessJ [Step.key "meshes"] >>= fun meshes =>
        loadMeshList binData meshes.items) ⟨j, [], gl⟩ = .ok () (uploadedAll binData rs s2) :=
      Load.bind_ok_iff.mpr ⟨v, s2, hacc, hloop⟩
    rw [hrun]
    simp only [Res.outcome, uploadedAll_meshes, uploadedAll_gl, hm2, hg2, List.nil_append]

end DocumentLemmas

section SimilarLemmas

variable {α β : Type}

theorem similar_refl (s : LoadState) : s.Similar s := ⟨rfl, rfl, rfl⟩

theorem sim_pure (a : α) : Load.Similar (pure a) (pure a) := by
  intro s t h
  exact ⟨rfl, h⟩

theorem sim_bind {m m1 : Load α} {f f1 : α → Load β} (hm : Load.Similar m m1)
    (hf : ∀ a, Load.Similar (f a) (f1 a)) : Load.Similar (m >>= f) (m1 >>= f1) := by
  intro s t h
  have := hm s t h
  simp only [Load.bind_apply]
  rcases h1 : m s with ⟨a, s1⟩ | ⟨e, s1⟩ <;> rcases h2 : m1 t with ⟨b, t1⟩ | ⟨e1, t1⟩ <;>
    rw [h1, h2] at this <;> simp only [Res.Similar] at this
  · obtain ⟨rfl, hs⟩ := this
    exact hf a s1 t1 hs
  · exact this

theorem sim_ite {c : Prop} [Decidable c] {m m1 n n1 : Load α} (hm : Load.Similar m m1)
    (hn : Load.Similar n n1) : Load.Similar (if c then m else n) (if c then m1 else n1) := by
  split
  · exact hm
  · exact hn

theorem sim_liftE (r : Except Failure α) : Load.Similar (liftE r) (liftE r) := by
  intro s t h
  unfold liftE
  cases r <;> exact ⟨rfl, h⟩

theorem sim_accessJ (p : List Step) : Load.Similar (accessJ p) (accessJ p) := by
  intro s t h
  obtain ⟨hj, hm, hg⟩ := h
  unfold accessJ
  rw [hj]
  rcases t.j.access p with ⟨j1, r⟩
  cases r <;> exact ⟨rfl, rfl, hm, hg⟩

theorem sim_derefJ (p : List Step) : Load.Similar (derefJ p) (derefJ p) := by
  intro s t h
  unfold derefJ
  exact ⟨by rw [h.1], h⟩

theorem GLState.forget_append (gl : GLState) (c : GLCall) :
    GLState.forget { gl with calls := gl.calls ++ [c] } =
      { gl.forget with calls := gl.forget.calls ++ [c.forget] } := by
  simp [GLState.forget]

theorem sim_glCall {c c1 : GLCall} (hc : c.forget = c1.forget) :
    Load.Similar (glCall c) (glCall c1) := by
  intro s t h
  obtain ⟨hj, hm, hg⟩ := h
  refine ⟨rfl, hj, hm, ?_⟩
  simp only [GLState.forget_append, hg, hc]

theorem sim_glBufferData (binData binData1 : List UInt8) (target size offset : Int) :
    Load.Similar (glBufferData binData target size offset)
      (glBufferData binData1 target size offset) :=
  sim_glCall rfl

theorem sim_glGenVertexArrays : Load.Similar glGenVertexArrays glGenVertexArrays := by
  intro s t h
  obtain ⟨hj, hm, hg⟩ := h
  have hv : s.gl.forget.vertexArrays = t.gl.forget.vertexArrays := by rw [hg]
  have hb : s.gl.forget.buffers = t.gl.forget.buffers := by rw [hg]
  have hc : s.gl.forget.calls = t.gl.forget.calls := by rw [hg]
  simp only [GLState.forget] at hv hb hc
  refine ⟨by rw [hv], hj, hm, ?_⟩
  simp [GLState.forget, hv, hb, hc]

theorem sim_glGenBuffers : Load.Similar glGenBuffers glGenBuffers := by
  intro s t h
  obtain ⟨hj, hm, hg⟩ := h
  have hv : s.gl.forget.vertexArrays = t.gl.forget.vertexArrays := by rw [hg]
  have hb : s.gl.forget.buffers = t.gl.forget.buffers := by rw [hg]
  have hc : s.gl.forget.calls = t.gl.forget.calls := by rw [hg]
  simp only [GLState.forget] at hv hb hc
  refine ⟨by rw [hb], hj, hm, ?_⟩
  simp [GLState.forget, hv, hb, hc]

theorem sim_pushMesh (m : GLTFMesh) : Load.Similar (pushMesh m) (pushMesh m) := by
  intro s t h
  obtain ⟨hj, hm, hg⟩ := h
  exact ⟨rfl, hj, by simp [hm], hg⟩

theorem sim_intMember (p : List Step) (k : String) :
    Load.Similar (intMember p k) (intMember p k) :=
  sim_bind (sim_accessJ _) (fun _ => sim_liftE _)

theorem sim_byteOffsetOf (acc view : List Step) :
    Load.Similar (byteOffsetOf acc view) (byteOffsetOf acc view) :=
  sim_bind (sim_derefJ _) (fun _ =>
    sim_bind (sim_ite (sim_intMember _ _) (sim_pure _)) (fun _ =>
      sim_bind (sim_intMember _ _) (fun _ => sim_pure _)))

theorem sim_accessorOffset (idx : Int) :
    Load.Similar (accessorOffset idx) (accessorOffset idx) :=
  sim_bind (sim_accessJ _) (fun _ =>
    sim_bind (sim_intMember _ _) (fun _ =>
      sim_bind (sim_accessJ _) (fun _ => sim_byteOffsetOf _ _)))

theorem sim_loadColor (primitive : Json) :
    Load.Similar (loadColor primitive) (loadColor primitive) := by
  unfold loadColor
  refine sim_ite ?_ (sim_pure _)
  repeat first
    | with_reducible exact sim_pure _
    | with_reducible exact sim_liftE _
    | with_reducible exact sim_accessJ _
    | with_reducible refine sim_bind ?_ (fun _ => ?_)
    | dsimp only

theorem sim_loadPrimitive (binData binData1 : List UInt8) (primitive : Json) :
    Load.Similar (loadPrimitive binData primitive) (loadPrimitive binData1 primitive) := by
  unfold loadPrimitive
  repeat first
    | with_reducible exact sim_pushMesh _
    | with_reducible exact sim_liftE _
    | with_reducible exact sim_loadColor _
    | with_reducible exact sim_accessorOffset _
    | with_reducible exact sim_intMember _ _
    | with_reducible exact sim_glGenVertexArrays
    | with_reducible exact sim_glGenBuffers
    | with_reducible exact sim_glBufferData _ _ _ _ _
    | with_reducible exact sim_glCall rfl
    | with_reducible refine sim_bind ?_ (fun _ => ?_)
    | dsimp only

theorem sim_loadPrimitives (binData binData1 : List UInt8) (prims : List Json) :
    Load.Similar (loadPrimitives binData prims) (loadPrimitives binData1 prims) := by
  induction prims with
  | nil => exact sim_pure _
  | cons p rest ih => exact sim_bind (sim_loadPrimitive _ _ _) (fun _ => ih)

theorem sim_loadMesh (binData binData1 : List UInt8) (mesh : Json) :
    Load.Similar (loadMesh binData mesh) (loadMesh binData1 mesh) := by
  unfold loadMesh
  refine sim_bind (sim_ite (sim_bind (sim_liftE _) (fun _ => sim_pure _)) (sim_pure _))
    (fun skip => ?_)
  exact sim_ite (sim_pure _) (sim_bind (sim_liftE _) (fun _ => sim_loadPrimitives _ _ _))

theorem sim_loadMeshList (binData binData1 : List UInt8) (ms : List Json) :
    Load.Similar (loadMeshList binData ms) (loadMeshList binData1 ms) := by
  induction ms with
  | nil => exact sim_pure _
  | cons m rest ih => exact sim_bind (sim_loadMesh _ _ _) (fun _ => ih)

theorem sim_loadMeshes (binData binData1 : List UInt8) :
    Load.Similar (loadMeshes binData) (loadMeshes binData1) :=
  sim_bind (sim_accessJ _) (fun _ => sim_loadMeshList _ _ _)

theorem outcome_forget_of_similar {r r1 : Res α} (h : r.Similar r1) :
    r.outcome.forget = r1.outcome.forget := by
  cases r <;> cases r1 <;> simp only [Res.Similar] at h
  · obtain ⟨_, _, hm, hg⟩ := h
    simp [Res.outcome, Outcome.forget, hm, hg]
  · obtain ⟨he, _, _, hg⟩ := h
    simp [Res.outcome, Outcome.forget, he, hg]

end SimilarLemmas

section GrowsLemmas

variable {α β : Type}

theorem extends_refl (s : LoadState) : s.Extends s :=
  ⟨[], by simp, by simp⟩

theorem extends_trans {s t u : LoadState} (h1 : s.Extends t) (h2 : t.Extends u) :
    s.Extends u := by
  obtain ⟨n1, e1, d1⟩ := h1
  obtain ⟨n2, e2, d2⟩ := h2
  refine ⟨n1 ++ n2, by rw [e2, e1, List.append_assoc], ?_⟩
  intro c hc
  rcases List.mem_append.mp hc with h | h
  · exact d1 c h
  · exact d2 c h

theorem grows_pure (a : α) : Load.Grows (pure a) := fun s => extends_refl s

theorem grows_bind {m : Load α} {f : α → Load β} (hm : Load.Grows m)
    (hf : ∀ a, Load.Grows (f a)) : Load.Grows (m >>= f) := by
  intro s
  have h1 := hm s
  simp only [Load.bind_apply]
  rcases hr : m s with ⟨a, s1⟩ | ⟨e, s1⟩
  · rw [hr] at h1
    exact extends_trans h1 (hf a s1)
  · rw [hr] at h1
    exact h1

theorem grows_ite {c : Prop} [Decidable c] {m n : Load α} (hm : Load.Grows m)
    (hn : Load.Grows n) : Load.Grows (if c then m else n) := by
  split
  · exact hm
  · exact hn

theorem grows_liftE (r : Except Failure α) : Load.Grows (liftE r) := by
  intro s
  unfold liftE
  cases r <;> exact extends_refl s

theorem grows_accessJ (p : List Step) : Load.Grows (accessJ p) := by
  intro s
  unfold accessJ
  rcases s.j.access p with ⟨j1, r⟩
  cases r <;> exact ⟨[], by simp [Res.state], by simp⟩

theorem grows_derefJ (p : List Step) : Load.Grows (derefJ p) :=
  fun s => extends_refl s

theorem grows_glCall {c : GLCall} (hc : c.isDelete = false) : Load.Grows (glCall c) := by
  intro s
  refine ⟨[c], rfl, ?_⟩
  intro d hd
  rw [List.mem_singleton.mp hd]
  exact hc

theorem grows_glBufferData (binData : List UInt8) (target size offset : Int) :
    Load.Grows (glBufferData binData target size offset) :=
  grows_glCall rfl

theorem grows_glGenVertexArrays : Load.Grows glGenVertexArrays := by
  intro s
  refine ⟨[.genVertexArrays (s.gl.vertexArrays + 1)], rfl, ?_⟩
  intro d hd
  rw [List.mem_singleton.mp hd]
  rfl

theorem grows_glGenBuffers : Load.Grows glGenBuffers := by
  intro s
  refine ⟨[.genBuffers (s.gl.buffers + 1)], rfl, ?_⟩
  intro d hd
  rw [List.mem_singleton.mp hd]
  rfl

theorem grows_pushMesh (m : GLTFMesh) : Load.Grows (pushMesh m) :=
  fun _ => ⟨[], by simp [pushMesh, Res.state], by simp⟩

theorem grows_intMember (p : List Step) (k : String) : Load.Grows (intMember p k) :=
  grows_bind (grows_accessJ _) (fun _ => grows_liftE _)

theorem grows_byteOffsetOf (acc view : List Step) : Load.Grows (byteOffsetOf acc view) :=
  grows_bind (grows_derefJ _) (fun _ =>
    grows_bind (grows_ite (grows_intMember _ _) (grows_pure _)) (fun _ =>
      grows_bind (grows_intMember _ _) (fun _ => grows_pure _)))

theorem grows_accessorOffset (idx : Int) : Load.Grows (accessorOffset idx) :=
  grows_bind (grows_accessJ _) (fun _ =>
    grows_bind (grows_intMember _ _) (fun _ =>
      grows_bind (grows_accessJ _) (fun _ => grows_byteOffsetOf _ _)))

theorem grows_loadColor (primitive : Json) : Load.Grows (loadColor primitive) := by
  unfold loadColor
  refine grows_ite ?_ (grows_pure _)
  repeat first
    | with_reducible exact grows_pure _
    | with_reducible exact grows_liftE _
    | with_reducible exact grows_accessJ _
    | with_reducible refine grows_bind ?_ (fun _ => ?_)
    | dsimp only

theorem grows_loadPrimitive (binData : List UInt8) (primitive : Json) :
    Load.Grows (loadPrimitive binData primitive) := by
  unfold loadPrimitive
  repeat first
    | with_reducible exact grows_pushMesh _
    | with_reducible exact grows_liftE _
    | with_reducible exact grows_loadColor _
    | with_reducible exact grows_accessorOffset _
    | with_reducible exact grows_intMember _ _
    | with_reducible exact grows_glGenVertexArrays
    | with_reducible exact grows_glGenBuffers
    | with_reducible exact grows_glBufferData _ _ _ _
    | with_reducible refine grows_glCall ?_
    | with_reducible refine grows_bind ?_ (fun _ => ?_)
    | dsimp only
    | exact rfl

theorem grows_loadPrimitives (binData : List UInt8) (prims : List Json) :
    Load.Grows (loadPrimitives binData prims) := by
  induction prims with
  | nil => exact grows_pure _
  | cons p rest ih => exact grows_bind (grows_loadPrimitive _ _) (fun _ => ih)

theorem grows_loadMesh (binData : List UInt8) (mesh : Json) :
    Load.Grows (loadMesh binData mesh) := by
  unfold loadMesh
  refine grows_bind (grows_ite (grows_bind (grows_liftE _) (fun _ => grows_pure _))
    (grows_pure _)) (fun skip => ?_)
  exact grows_ite (grows_pure _) (grows_bind (grows_liftE _) (fun _ => grows_loadPrimitives _ _))

theorem grows_loadMeshList (binData : List UInt8) (ms : List Json) :
    Load.Grows (loadMeshList binData ms) := by
  induction ms with
  | nil => exact grows_pure _
  | cons m rest ih => exact grows_bind (grows_loadMesh _ _) (fun _ => ih)

theorem grows_loadMeshes (binData : List UInt8) : Load.Grows (loadMeshes binData) :=
  grows_bind (grows_accessJ _) (fun _ => grows_loadMeshList _ _)

end GrowsLemmas

section CountLemmas

theorem resolveAll?_length {j : Json} {ps : List Json} {rs : List Resolved}
    (h : resolveAll? j ps = some rs) : rs.length = ps.length := by
  induction ps generalizing rs with
  | nil =>
    simp only [resolveAll?, Option.some.injEq] at h
    subst h; rfl
  | cons p rest ih =>
    simp only [resolveAll?, Option.bind_eq_bind, Option.bind_eq_some, Option.some.injEq] at h
    obtain ⟨r, _, rs1, hrs1, rfl⟩ := h
    simp [ih hrs1]

theorem meshesFrom_length (vao : Nat) (rs : List Resolved) :
    (meshesFrom vao rs).length = rs.length := by
  induction rs generalizing vao with
  | nil => rfl
  | cons r rest ih => simp [meshesFrom, ih]

theorem forall₂_meshesFrom {j : Json} {ps : List Json} {rs : List Resolved} (vao : Nat)
    (h : resolveAll? j ps = some rs) :
    List.Forall₂ (fun p m => ∃ r, resolve? j p = some r ∧ m.indexCount = r.indexCount ∧
      m.indexType = indexTypeOf r.componentType ∧ m.color = r.color) ps (meshesFrom vao rs) := by
  induction ps generalizing rs vao with
  | nil =>
    simp only [resolveAll?, Option.some.injEq] at h
    subst h
    exact List.Forall₂.nil
  | cons p rest ih =>
    simp only [resolveAll?, Option.bind_eq_bind, Option.bind_eq_some, Option.some.injEq] at h
    obtain ⟨r, hr, rs1, hrs1, rfl⟩ := h
    exact List.Forall₂.cons ⟨r, hr, rfl, rfl, rfl⟩ (ih (vao + 1) hrs1)

theorem includedOf_length (ms : List Json) :
    (includedOf ms).length
      = ((ms.filter (fun m => !isExcluded m)).map (fun m => (primitivesOf m).length)).sum := by
  unfold includedOf
  induction ms.filter (fun m => !isExcluded m) with
  | nil => rfl
  | cons m rest ih => simp [List.flatMap_cons, ih]

end CountLemmas

section GameLemmas

theorem spawnPipes_length (gap : Nat → ℚ) : (spawnPipes gap).length = 5 := by
  simp [spawnPipes]

theorem processInput_pipes_length (i : FrameInput) (g : Game) (h : g.pipes.length = 5) :
    (processInput i g).pipes.length = 5 := by
  unfold processInput
  simp only
  split_ifs <;> simp [spawnPipes_length, h]

theorem movePipes_length (dt : ℚ) (pipes : List Pipe) :
    (movePipes dt pipes).length = pipes.length := by
  simp [movePipes]

theorem recyclePipes_length (gap : ℚ) (pipes : List Pipe) (n : Nat)
    (h : pipes.length = n + 2) :
    ∃ ps, recyclePipes gap pipes = some ps ∧ ps.length = n + 2 := by
  match pipes, h with
  | p :: q :: rest, h =>
    simp only [recyclePipes]
    split_ifs
    · obtain ⟨last, hlast⟩ : ∃ last, (q :: rest).getLast? = some last := by
        cases hq : (q :: rest).getLast? with
        | none => simp at hq
        | some x => exact ⟨x, rfl⟩
      rw [hlast]
      refine ⟨_, rfl, ?_⟩
      simp only [List.length_cons, List.length_append, List.length_nil] at h ⊢
      omega
    · exact ⟨_, rfl, h⟩

theorem scorePass_length (birdX : ℚ) (pipes : List Pipe) (score : Int) :
    (scorePass birdX pipes score).1.length = pipes.length := by
  induction pipes generalizing score with
  | nil => rfl
  | cons p rest ih =>
    unfold scorePass
    split_ifs
    · have := ih (wrap32 (score + 1))
      rcases h : scorePass birdX rest (wrap32 (score + 1)) with ⟨r1, s1⟩
      rw [h] at this
      simpa using this
    · have := ih score
      rcases h : scorePass birdX rest score with ⟨r1, s1⟩
      rw [h] at this
      simpa using this

theorem updateGame_pipes_length (i : FrameInput) (g : Game) (h : g.pipes.length = 5) :
    ∃ g1, updateGame i g = some g1 ∧ g1.pipes.length = 5 := by
  unfold updateGame
  split_ifs
  · obtain ⟨ps, hps, hlen⟩ := recyclePipes_length i.recycleGap (movePipes i.deltaTime g.pipes) 3
      (by rw [movePipes_length, h])
    simp only [hps]
    have hs := scorePass_length (g.bird.update i.deltaTime).position.x ps g.score
    rcases hsp : scorePass (g.bird.update i.deltaTime).position.x ps g.score with ⟨p1, s1⟩
    rw [hsp] at hs
    exact ⟨_, rfl, by simpa [hlen] using hs⟩
  · exact ⟨g, rfl, h⟩

theorem handleMouse_pipes_length (i : FrameInput) (g : Game) (h : g.pipes.length = 5) :
    (handleMouse i g).pipes.length = 5 := by
  unfold handleMouse
  simp only
  split_ifs <;> simp [spawnPipes_length, h]

theorem frame_pipes_length (i : FrameInput) (g : Game) (h : g.pipes.length = 5) :
    ∃ g1, frame i g = some g1 ∧ g1.pipes.length = 5 := by
  obtain ⟨g1, hg1, hlen⟩ := updateGame_pipes_length i (processInput i g)
    (processInput_pipes_length i g h)
  exact ⟨handleMouse i g1, by simp [frame, hg1], handleMouse_pipes_length i g1 hlen⟩

theorem reachable_pipes_length {g : Game} (h : Reachable g) : g.pipes.length = 5 := by
  induction h with
  | start gap => exact spawnPipes_length gap
  | step i g g1 _ hframe ih =>
    obtain ⟨g2, hg2, hlen⟩ := frame_pipes_length i g ih
    rw [hframe] at hg2
    cases hg2
    exact hlen

end GameLemmas

section ScoreLemmas

end ScoreLemmas

section KeepsLemmas

variable {α β : Type}

theorem keeps_pure (a : α) : Load.KeepsContext (pure a) := fun _ => ⟨rfl, rfl⟩

theorem keeps_bind {m : Load α} {f : α → Load β} (hm : Load.KeepsContext m)
    (hf : ∀ a, Load.KeepsContext (f a)) : Load.KeepsContext (m >>= f) := by
  intro s
  have h1 := hm s
  simp only [Load.bind_apply]
  rcases hr : m s with ⟨a, s1⟩ | ⟨e, s1⟩
  · rw [hr] at h1
    simp only [Res.state] at h1
    have h2 := hf a s1
    exact ⟨h2.1.trans h1.1, h2.2.trans h1.2⟩
  · rw [hr] at h1
    exact h1

theorem keeps_ite {c : Prop} [Decidable c] {m n : Load α} (hm : Load.KeepsContext m)
    (hn : Load.KeepsContext n) : Load.KeepsContext (if c then m else n) := by
  split
  · exact hm
  · exact hn

theorem keeps_liftE (r : Except Failure α) : Load.KeepsContext (liftE r) := by
  intro s
  unfold liftE
  cases r <;> exact ⟨rfl, rfl⟩

theorem keeps_accessJ (p : List Step) : Load.KeepsContext (accessJ p) := by
  intro s
  unfold accessJ
  rcases s.j.access p with ⟨j1, r⟩
  cases r <;> exact ⟨rfl, rfl⟩

theorem keeps_derefJ (p : List Step) : Load.KeepsContext (derefJ p) :=
  fun _ => ⟨rfl, rfl⟩

theorem keeps_intMember (p : List Step) (k : String) : Load.KeepsContext (intMember p k) :=
  keeps_bind (keeps_accessJ _) (fun _ => keeps_liftE _)

theorem keeps_byteOffsetOf (acc view : List Step) :
    Load.KeepsContext (byteOffsetOf acc view) :=
  keeps_bind (keeps_derefJ _) (fun _ =>
    keeps_bind (keeps_ite (keeps_intMember _ _) (keeps_pure _)) (fun _ =>
      keeps_bind (keeps_intMember _ _) (fun _ => keeps_pure _)))

theorem keeps_accessorOffset (idx : Int) : Load.KeepsContext (accessorOffset idx) :=
  keeps_bind (keeps_accessJ _) (fun _ =>
    keeps_bind (keeps_intMember _ _) (fun _ =>
      keeps_bind (keeps_accessJ _) (fun _ => keeps_byteOffsetOf _ _)))

theorem keeps_loadColor (primitive : Json) : Load.KeepsContext (loadColor primitive) := by
  unfold loadColor
  refine keeps_ite ?_ (keeps_pure _)
  repeat first
    | with_reducible exact keeps_pure _
    | with_reducible exact keeps_liftE _
    | with_reducible exact keeps_accessJ _
    | with_reducible refine keeps_bind ?_ (fun _ => ?_)
    | dsimp only

/-- A failing step that keeps the context, at the head of a sequence. -/
theorem bind_fail_keeps {m : Load α} {f : α → Load β} (hm : Load.KeepsContext m)
    {s s1 : LoadState} {e : Failure} (h : m s = .fail e s1) :
    (m >>= f) s = .fail e s1 ∧ s1.gl = s.gl ∧ s1.meshes = s.meshes := by
  have hk := hm s
  rw [h] at hk
  exact ⟨by simp [Load.bind_apply, h], hk.1, hk.2⟩

theorem bind_ok_eq {m : Load α} {f : α → Load β} {s s1 : LoadState} {a : α}
    (h : m s = .ok a s1) : (m >>= f) s = f a s1 := by
  simp [Load.bind_apply, h]

theorem liftE_fail_iff {r : Except Failure α} {s s1 : LoadState} {e : Failure} :
    liftE r s = .fail e s1 ↔ r = .error e ∧ s1 = s := by
  unfold liftE
  cases r with
  | ok x =>
    constructor
    · intro h; cases h
    · rintro ⟨h1, _⟩; cases h1
  | error e1 =>
    constructor
    · intro h; cases h; exact ⟨rfl, rfl⟩
    · rintro ⟨h1, h2⟩; cases h1; subst h2; rfl

end KeepsLemmas

section FailBeforeUpload

/-- A primitive one of whose references does not resolve is not loaded: the
iteration fails before its first OpenGL call. -/
theorem loadPrimitive_fails_before_upload (binData : List UInt8) (primitive : Json)
    (s : LoadState) (h : references? s.j primitive = none) :
    ∃ e s1, loadPrimitive binData primitive s = .fail e s1 ∧ s1.gl = s.gl ∧
      s1.meshes = s.meshes := by
  unfold loadPrimitive
  -- colour
  rcases h1 : loadColor primitive s with ⟨color, s1⟩ | ⟨e, s1⟩
  swap
  · exact ⟨e, s1, bind_fail_keeps (keeps_loadColor _) h1⟩
  obtain ⟨rfl, hcolor⟩ := loadColor_ok_iff.mp h1
  rw [bind_ok_eq h1]
  -- indices
  rcases h2 : liftE ((primitive.constAt "indices").bind Json.toInt) s1 with ⟨iIdx, s2⟩ | ⟨e, s2⟩
  swap
  · exact ⟨e, s2, bind_fail_keeps (keeps_liftE _) h2⟩
  obtain ⟨hiIdx, rfl⟩ := liftE_ok_iff.mp h2
  rw [constAt_toInt_iff] at hiIdx
  rw [bind_ok_eq h2]
  rcases h3 : accessorOffset iIdx s2 with ⟨iOff, s3⟩ | ⟨e, s3⟩
  swap
  · exact ⟨e, s3, bind_fail_keeps (keeps_accessorOffset _) h3⟩
  obtain ⟨rfl, hiOff⟩ := accessorOffset_ok_iff.mp h3
  rw [bind_ok_eq h3]
  rcases h4 : intMember (accessorRef iIdx) "count" s3 with ⟨iCount, s4⟩ | ⟨e, s4⟩
  swap
  · exact ⟨e, s4, bind_fail_keeps (keeps_intMember _ _) h4⟩
  obtain ⟨rfl, hiCount⟩ := intMember_ok_iff.mp h4
  rw [bind_ok_eq h4]
  rcases h5 : intMember (accessorRef iIdx) "componentType" s4 with ⟨ct, s5⟩ | ⟨e, s5⟩
  swap
  · exact ⟨e, s5, bind_fail_keeps (keeps_intMember _ _) h5⟩
  obtain ⟨rfl, hct⟩ := intMember_ok_iff.mp h5
  rw [bind_ok_eq h5]
  dsimp only
  -- POSITION
  rcases h6 : liftE (((primitive.constAt "attributes").bind
      (fun x => x.constAt "POSITION")).bind Json.toInt) s5 with ⟨pIdx, s6⟩ | ⟨e, s6⟩
  swap
  · exact ⟨e, s6, bind_fail_keeps (keeps_liftE _) h6⟩
  obtain ⟨hpIdx, rfl⟩ := liftE_ok_iff.mp h6
  rw [constAt_attribute_iff] at hpIdx
  rw [bind_ok_eq h6]
  rcases h7 : accessorOffset pIdx s6 with ⟨pOff, s7⟩ | ⟨e, s7⟩
  swap
  · exact ⟨e, s7, bind_fail_keeps (keeps_accessorOffset _) h7⟩
  obtain ⟨rfl, hpOff⟩ := accessorOffset_ok_iff.mp h7
  rw [bind_ok_eq h7]
  -- NORMAL
  rcases h8 : liftE (((primitive.constAt "attributes").bind
      (fun x => x.constAt "NORMAL")).bind Json.toInt) s7 with ⟨nIdx, s8⟩ | ⟨e, s8⟩
  swap
  · exact ⟨e, s8, bind_fail_keeps (keeps_liftE _) h8⟩
  obtain ⟨hnIdx, rfl⟩ := liftE_ok_iff.mp h8
  rw [constAt_attribute_iff] at hnIdx
  rw [bind_ok_eq h8]
  rcases h9 : accessorOffset nIdx s8 with ⟨nOff, s9⟩ | ⟨e, s9⟩
  swap
  · exact ⟨e, s9, bind_fail_keeps (keeps_accessorOffset _) h9⟩
  obtain ⟨rfl, hnOff⟩ := accessorOffset_ok_iff.mp h9
  exfalso
  simp [references?, hcolor, hiIdx, hiOff, accessorInt?, hiCount, hct, hpIdx, hpOff, hnIdx,
    hnOff] at h

end FailBeforeUpload

section OutOfRangeLemmas

theorem access_append_snd {v w : Json} {p : List Step} (q : List Step)
    (h : v.findPath? p = some w) : (v.access (p ++ q)).2 = (w.access q).2 := by
  induction p generalizing v with
  | nil =>
    simp only [Json.findPath?, Option.some.injEq] at h
    subst h
    rfl
  | cons st rest ih =>
    simp only [Json.findPath?] at h
    rcases hc : (v.find? st) with _ | c
    · rw [hc] at h; cases h
    · rw [hc] at h
      simp only at h
      simp only [List.cons_append, Json.access, Json.subscript_of_find? hc]
      exact ih h

theorem findPath?_prefix_isSome {v r : Json} {p q : List Step}
    (h : v.findPath? (p ++ q) = some r) : (v.findPath? p).isSome = true := by
  rw [Json.findPath?_append] at h
  cases hp : v.findPath? p with
  | none => rw [hp] at h; cases h
  | some w => rfl

theorem accessJ_of_access_snd {p : List Step} {s : LoadState} {v : Json}
    (h : (s.j.access p).2 = .ok v) :
    ∃ s1, accessJ p s = .ok v s1 ∧ s1.j.findPath? p = some v := by
  rcases hacc : s.j.access p with ⟨j1, r⟩
  rw [hacc] at h
  simp only at h
  subst h
  exact ⟨{ s with j := j1 }, accessJ_ok_iff.mpr ⟨j1, hacc, rfl⟩, Json.findPath?_of_access hacc⟩

theorem access_null_key (k : String) : (Json.null.access [.key k]).2 = .ok .null := by
  simp [Json.access, Json.subscript]

theorem access_null_key_key (k1 k2 : String) :
    (Json.null.access [.key k1, .key k2]).2 = .ok .null := by
  simp [Json.access, Json.subscript]

theorem access_null_idx {i : Int} (hi : 0 ≤ i) : (Json.null.access [.idx i]).2 = .ok .null := by
  have : ¬ i < 0 := by omega
  simp [Json.access, Json.subscript, this]

theorem access_arr_idx_beyond {xs : List Json} {i : Int} (hi : 0 ≤ i)
    (hlen : (xs.length : Int) ≤ i) : ((Json.arr xs).access [.idx i]).2 = .ok .null := by
  have h1 : ¬ i < 0 := by omega
  have h2 : xs[i.toNat]? = none := by
    apply List.getElem?_eq_none_iff.mpr
    omega
  simp [Json.access, Json.subscript, h1, h2]

theorem access_arr_idx_ok (xs : List Json) {i : Int} (hi : 0 ≤ i) :
    ∃ c, ((Json.arr xs).access [.idx i]).2 = .ok c := by
  have h1 : ¬ i < 0 := by omega
  cases hx : xs[i.toNat]? with
  | none => exact ⟨.null, by simp [Json.access, Json.subscript, h1, hx]⟩
  | some x => exact ⟨x, by simp [Json.access, Json.subscript, h1, hx]⟩

theorem find?_arr_beyond {xs : List Json} {i : Int} (hlen : (xs.length : Int) ≤ i) :
    (Json.arr xs).find? (.idx i) = none := by
  simp only [Json.find?]
  split
  · rfl
  · apply List.getElem?_eq_none_iff.mpr
    omega

/-- The table `t` of the document is too short for the index `i`: no element is
found there. -/
theorem findPath?_table_beyond {j : Json} {t : String} {xs : List Json} {i : Int}
    (ht : j.find? (.key t) = some (.arr xs)) (hlen : (xs.length : Int) ≤ i) :
    j.findPath? [.key t, .idx i] = none := by
  simp [Json.findPath?, ht, find?_arr_beyond hlen]

/-- Binding a reference to an index beyond the end of a table succeeds, refers
to a null, and leaves an element at that index. -/
theorem accessJ_table_beyond {s : LoadState} {t : String} {xs : List Json} {i : Int}
    (ht : s.j.find? (.key t) = some (.arr xs)) (hi : 0 ≤ i) (hlen : (xs.length : Int) ≤ i) :
    ∃ s1, accessJ [.key t, .idx i] s = .ok .null s1 ∧
      s1.j.findPath? [.key t, .idx i] = some .null := by
  apply accessJ_of_access_snd
  have h1 : s.j.findPath? [.key t] = some (.arr xs) := by simp [Json.findPath?, ht]
  have := access_append_snd [.idx i] h1
  simp only [List.singleton_append] at this
  rw [this]
  exact access_arr_idx_beyond hi hlen

/-- Reading an `int` member through a reference to a null: the member is created
as null and its conversion throws. -/
theorem intMember_null {p : List Step} {k : String} {s : LoadState}
    (h : s.j.findPath? p = some .null) :
    ∃ s1, intMember p k s = .fail (.typeError 302) s1 ∧ (s1.j.findPath? p).isSome = true := by
  have hsnd : (s.j.access (p ++ [.key k])).2 = .ok .null := by
    rw [access_append_snd _ h]
    exact access_null_key k
  obtain ⟨s1, hacc, hfind⟩ := accessJ_of_access_snd hsnd
  refine ⟨s1, ?_, findPath?_prefix_isSome hfind⟩
  unfold intMember
  rw [bind_ok_eq hacc]
  rfl

theorem intMember_fail_of_contains {p : List Step} {k : String} {s s1 : LoadState}
    {e : Failure}
    (hc : ((s.j.findPath? p).getD .null).contains k = true)
    (h : intMember p k s = .fail e s1) : e = .typeError 302 ∧ s1 = s := by
  have hfind : ∃ x, s.j.findPath? (p ++ [.key k]) = some x := by
    rw [findPath?_snoc]
    cases hp : s.j.findPath? p with
    | none => rw [hp] at hc; simp [Json.contains] at hc
    | some a =>
      rw [hp] at hc
      simp only [Option.getD_some, contains_eq_isSome] at hc
      cases hx : a.find? (.key k) with
      | none => rw [hx] at hc; cases hc
      | some x => exact ⟨x, by simp [hx]⟩
  obtain ⟨x, hx⟩ := hfind
  unfold intMember at h
  rw [bind_ok_eq (accessJ_of_findPath? hx)] at h
  obtain ⟨hconv, hs⟩ := liftE_fail_iff.mp h
  refine ⟨?_, hs⟩
  cases x <;> simp [Json.toInt] at hconv <;> exact hconv.symm

theorem accessorOffset_accessor_beyond {s : LoadState} {accs : List Json} {idx : Int}
    (ht : s.j.find? (.key "accessors") = some (.arr accs)) (hi : 0 ≤ idx)
    (hlen : (accs.length : Int) ≤ idx) :
    ∃ s1, accessorOffset idx s = .fail (.typeError 302) s1 ∧ s1.gl = s.gl ∧
      s1.meshes = s.meshes ∧ (s1.j.findPath? (accessorRef idx)).isSome = true := by
  obtain ⟨s1, hbind, hnull⟩ := accessJ_table_beyond ht hi hlen
  obtain ⟨s2, hfail, hsome⟩ := intMember_null (k := "bufferView") hnull
  have hrun : accessorOffset idx s = .fail (.typeError 302) s2 := by
    unfold accessorOffset
    rw [bind_ok_eq (by exact hbind)]
    simp only [Load.bind_apply]
    rw [show intMember (accessorRef idx) "bufferView" s1 = _ from hfail]
  have hk := keeps_accessorOffset idx s
  rw [hrun] at hk
  exact ⟨s2, hrun, hk.1, hk.2, hsome⟩

end OutOfRangeLemmas

section OutOfRangeLemmas2

theorem byteOffsetOf_view_null {acc view : List Step} {s : LoadState}
    (hnull : s.j.findPath? view = some .null) :
    ∃ s1, byteOffsetOf acc view s = .fail (.typeError 302) s1 ∧
      (s1.j.findPath? view).isSome = true := by
  obtain ⟨s2, hfail, hsome⟩ := intMember_null (k := "byteOffset") hnull
  unfold byteOffsetOf
  have hderef : derefJ acc s = .ok ((s.j.findPath? acc).getD .null) s := rfl
  rw [bind_ok_eq hderef]
  by_cases hc : ((s.j.findPath? acc).getD .null).contains "byteOffset" = true
  · rw [if_pos hc]
    rcases hm : intMember acc "byteOffset" s with ⟨n, s3⟩ | ⟨e, s3⟩
    · obtain ⟨hs3, _⟩ := intMember_ok_iff.mp hm
      subst hs3
      rw [bind_ok_eq hm]
      exact ⟨s2, by simp [Load.bind_apply, hfail], hsome⟩
    · obtain ⟨he, hs3⟩ := intMember_fail_of_contains hc hm
      subst he; subst hs3
      exact ⟨s3, by simp [Load.bind_apply, hm], by rw [hnull]; rfl⟩
  · rw [if_neg hc]
    exact ⟨s2, by simp [Load.bind_apply, hfail], hsome⟩

theorem accessorOffset_view_beyond {s : LoadState} {acc : Json} {views : List Json}
    {idx v : Int} (hacc : s.j.findPath? (accessorRef idx) = some acc)
    (hv : acc.intAt? "bufferView" = some v)
    (ht : s.j.find? (.key "bufferViews") = some (.arr views)) (hi : 0 ≤ v)
    (hlen : (views.length : Int) ≤ v) :
    ∃ s1, accessorOffset idx s = .fail (.typeError 302) s1 ∧ s1.gl = s.gl ∧
      s1.meshes = s.meshes ∧ (s1.j.findPath? (bufferViewRef v)).isSome = true := by
  obtain ⟨s1, hbind, hnull⟩ := accessJ_table_beyond ht hi hlen
  obtain ⟨s2, hfail, hsome⟩ := @byteOffsetOf_view_null (accessorRef idx) _ _ hnull
  have hrun : accessorOffset idx s = .fail (.typeError 302) s2 := by
    unfold accessorOffset
    rw [bind_ok_eq (accessJ_of_findPath? hacc),
      bind_ok_eq (a := v) (intMember_ok_iff.mpr ⟨rfl, by simp [hacc, hv]⟩),
      bind_ok_eq (by exact hbind)]
    exact hfail
  have hk := keeps_accessorOffset idx s
  rw [hrun] at hk
  exact ⟨s2, hrun, hk.1, hk.2, hsome⟩

theorem arr_of_findPath?_snoc_idx {v c : Json} {p : List Step} {i : Int}
    (h : v.findPath? (p ++ [.idx i]) = some c) : ∃ xs, v.findPath? p = some (.arr xs) := by
  rw [findPath?_snoc] at h
  cases hp : v.findPath? p with
  | none => rw [hp] at h; cases h
  | some w =>
    rw [hp] at h
    simp only [Option.some_bind] at h
    cases w <;> simp [Json.find?] at h
    exact ⟨_, rfl⟩

theorem accessJ_elem_of_null {p : List Step} {s : LoadState} {i : Int}
    (h : s.j.findPath? p = some .null) (hi : 0 ≤ i) :
    ∃ s1, accessJ (p ++ [.idx i]) s = .ok .null s1 ∧
      ∃ xs, s1.j.findPath? p = some (.arr xs) := by
  have hsnd : (s.j.access (p ++ [.idx i])).2 = .ok .null := by
    rw [access_append_snd _ h]
    exact access_null_idx hi
  obtain ⟨s1, hacc, hfind⟩ := accessJ_of_access_snd hsnd
  exact ⟨s1, hacc, arr_of_findPath?_snoc_idx hfind⟩

theorem accessJ_elem_of_arr {p : List Step} {s : LoadState} {xs : List Json} {i : Int}
    (h : s.j.findPath? p = some (.arr xs)) (hi : 0 ≤ i) :
    ∃ c s1, accessJ (p ++ [.idx i]) s = .ok c s1 ∧
      ∃ xs1, s1.j.findPath? p = some (.arr xs1) := by
  obtain ⟨c, hc⟩ := access_arr_idx_ok xs hi
  have hsnd : (s.j.access (p ++ [.idx i])).2 = .ok c := by
    rw [access_append_snd _ h]
    exact hc
  obtain ⟨s1, hacc, hfind⟩ := accessJ_of_access_snd hsnd
  exact ⟨c, s1, hacc, arr_of_findPath?_snoc_idx hfind⟩

theorem accessJ_keys_of_null {p : List Step} {s : LoadState} (k1 k2 : String)
    (h : s.j.findPath? p = some .null) :
    ∃ s1, accessJ (p ++ [.key k1, .key k2]) s = .ok .null s1 ∧
      s1.j.findPath? (p ++ [.key k1, .key k2]) = some .null := by
  apply accessJ_of_access_snd
  rw [access_append_snd _ h]
  exact access_null_key_key k1 k2

theorem loadColor_material_beyond {primitive : Json} {s : LoadState} {mats : List Json}
    {m : Int} (hc : primitive.contains "material" = true)
    (hm : primitive.intAt? "material" = some m)
    (ht : s.j.find? (.key "materials") = some (.arr mats)) (hi : 0 ≤ m)
    (hlen : (mats.length : Int) ≤ m) :
    ∃ s1, loadColor primitive s = .fail (.typeError 302) s1 ∧ s1.gl = s.gl ∧
      s1.meshes = s.meshes ∧
      (s1.j.findPath? [.key "materials", .idx m]).isSome = true := by
  obtain ⟨s1, hb1, hn1⟩ := accessJ_table_beyond ht hi hlen
  obtain ⟨s2, hb2, hn2⟩ := accessJ_keys_of_null "pbrMetallicRoughness" "baseColorFactor" hn1
  obtain ⟨s3, h0, xs3, ha3⟩ := accessJ_elem_of_null (i := 0) hn2 (le_refl _)
  obtain ⟨c1, s4, h1, xs4, ha4⟩ := accessJ_elem_of_arr (i := 1) ha3 (by decide)
  obtain ⟨c2, s5, h2, xs5, ha5⟩ := accessJ_elem_of_arr (i := 2) ha4 (by decide)
  obtain ⟨c3, s6, h3, xs6, ha6⟩ := accessJ_elem_of_arr (i := 3) ha5 (by decide)
  have hrun : loadColor primitive s = .fail (.typeError 302) s6 := by
    unfold loadColor
    rw [if_pos hc, bind_ok_eq (a := m) (liftE_ok_iff.mpr ⟨constAt_toInt_iff.mpr hm, rfl⟩)]
    dsimp only
    rw [bind_ok_eq (by exact hb1), bind_ok_eq (by exact hb2), bind_ok_eq (by exact h0),
      bind_ok_eq (by exact h1), bind_ok_eq (by exact h2), bind_ok_eq (by exact h3)]
    rfl
  have hk := keeps_loadColor primitive s
  rw [hrun] at hk
  exact ⟨s6, hrun, hk.1, hk.2, findPath?_prefix_isSome ha6⟩

end OutOfRangeLemmas2

section ReferencesLemmas

theorem option_bind_const_none {α β : Type} (x : Option α) :
    x.bind (fun _ => (none : Option β)) = none := by
  cases x <;> rfl

theorem references?_none_of_color {j primitive : Json} (h : colorOf? j primitive = none) :
    references? j primitive = none := by
  simp [references?, h]

theorem references?_none_of_offset {j primitive : Json} {idx : Int}
    (href : primitive.intAt? "indices" = some idx ∨ attributeIdx? primitive "POSITION" = some idx ∨
      attributeIdx? primitive "NORMAL" = some idx)
    (hoff : absoluteOffset? j idx = none) : references? j primitive = none := by
  rcases href with h | h | h <;>
    simp [references?, h, hoff, option_bind_const_none]

theorem absoluteOffset?_none_of_accessor {j : Json} {idx : Int}
    (h : j.findPath? (accessorRef idx) = none) : absoluteOffset? j idx = none := by
  simp [absoluteOffset?, h]

theorem absoluteOffset?_none_of_view {j acc : Json} {idx v : Int}
    (hacc : j.findPath? (accessorRef idx) = some acc) (hv : acc.intAt? "bufferView" = some v)
    (h : j.findPath? (bufferViewRef v) = none) : absoluteOffset? j idx = none := by
  simp [absoluteOffset?, hacc, hv, h]

theorem colorOf?_none_of_material {j primitive : Json} {m : Int}
    (hc : primitive.contains "material" = true) (hm : primitive.intAt? "material" = some m)
    (h : j.findPath? [.key "materials", .idx m] = none) : colorOf? j primitive = none := by
  have h2 : j.findPath? [.key "materials", .idx m, .key "pbrMetallicRoughness",
      .key "baseColorFactor"] = none := by
    have := Json.findPath?_append j [.key "materials", .idx m]
      [.key "pbrMetallicRoughness", .key "baseColorFactor"]
    simp only [List.cons_append, List.nil_append] at this
    rw [this, h]
    rfl
  simp [colorOf?, hc, hm, h2]

end ReferencesLemmas

section PassedLemmas

theorem unpassed_le_length (ps : List Pipe) : unpassed ps ≤ ps.length :=
  List.length_filter_le _ _

end PassedLemmas

/-! # The claims -/

/-- C1 (counterexample).  The sample document needs bytes 0..48 for the
positions, 48..96 for the normals and 100..112 for the indices; with an empty
companion buffer the load does not fail with a bounds error: it returns one
mesh, after three `glBufferData` calls on ranges that end past the buffer
(`0 + 48`, `48 + 48` and `100 + 12` all exceed the length 0). -/
theorem C1_short_buffer_still_loads :
    loadDocument (sampleDocument "Wing" 5123 4 [samplePrimitive 0]) [] freshGL
        = .returned [⟨1, 6, GL_UNSIGNED_SHORT, ⟨1, 1, 1, 1⟩⟩] ⟨1, 3, sampleCallsNoData 12 48⟩ ∧
      GLCall.bufferData GL_ARRAY_BUFFER 48 0 none ∈ sampleCallsNoData 12 48 ∧
      ¬ ((0 : Int) + 48 ≤ ([] : List UInt8).length) := by
  refine ⟨by decide!, by decide!, by decide⟩

/-- C1 (amended).  The loader never compares a byte range with the length of
the companion buffer: for every document, how the load ends (returning or
throwing, and which exception), the meshes returned, and the target, size and
offset of every `glBufferData` call are the same for any two companion buffers;
only the bytes handed over differ. -/
theorem C1_load_ignores_buffer_length (j : Json) (binData binData1 : List UInt8)
    (gl : GLState) :
    (loadDocument j binData gl).forget = (loadDocument j binData1 gl).forget :=
  outcome_forget_of_similar (sim_loadMeshes binData binData1 _ _ (similar_refl _))

/-- C2 (counterexample).  The second primitive of this document names accessor
7, which the document does not have, so the load throws after the first
primitive was uploaded: vertex array 1 and buffers 1, 2, 3 were created and
the call log ends without any `glDeleteVertexArrays` or `glDeleteBuffers`. -/
theorem C2_failed_load_releases_nothing :
    loadDocument (sampleDocument "Wing" 5123 4 [samplePrimitive 0, samplePrimitive 7]) []
        freshGL = .threw (.typeError 302) ⟨1, 3, sampleCallsNoData 12 48⟩ ∧
      createdVertexArrays (sampleCallsNoData 12 48) = [1] ∧
      createdBuffers (sampleCallsNoData 12 48) = [1, 2, 3] ∧
      (sampleCallsNoData 12 48).all (fun c => !c.isDelete) = true := by
  refine ⟨by decide!, by decide!, by decide!, by decide!⟩

/-- C2 (amended).  The loader releases nothing: however a call ends, the calls it
made on the OpenGL context are appended to the call log and none of them is
`glDeleteVertexArrays` or `glDeleteBuffers`, so every vertex array and buffer
created before a failure is still allocated when the failure is reported.
(An exception carries no mesh list: `Outcome.threw` has none.) -/
theorem C2_load_never_releases (j : Json) (binData : List UInt8) (gl : GLState) :
    ∃ new, (loadDocument j binData gl).gl.calls = gl.calls ++ new ∧
      ∀ c ∈ new, GLCall.isDelete c = false := by
  have h := grows_loadMeshes binData ⟨j, [], gl⟩
  unfold loadDocument
  cases hr : loadMeshes binData ⟨j, [], gl⟩ <;> rw [hr] at h <;> exact h


/-- C3.  When a primitive loads, the offsets of its three `glBufferData` calls
(the fields of `r` that `uploadCalls` passes on) are the absolute offsets of
its indices, POSITION and NORMAL accessors; and the absolute offset of an
accessor is the `byteOffset` of its buffer view plus the accessor's own
`byteOffset`, with 0 for an accessor that has no `byteOffset` member.  The sum
is the loader's `int` sum; it is the exact sum whenever that fits in an `int`. -/
theorem C3_absolute_offset (binData : List UInt8) (primitive : Json) (s s1 : LoadState)
    (h : loadPrimitive binData primitive s = .ok () s1) :
    (∃ r iIdx pIdx nIdx,
      primitive.intAt? "indices" = some iIdx ∧
      attributeIdx? primitive "POSITION" = some pIdx ∧
      attributeIdx? primitive "NORMAL" = some nIdx ∧
      absoluteOffset? s.j iIdx = some r.indicesOffset ∧
      absoluteOffset? s.j pIdx = some r.posOffset ∧
      absoluteOffset? s.j nIdx = some r.normOffset ∧
      s1.gl.calls = s.gl.calls ++
        uploadCalls binData r (s.gl.vertexArrays + 1) (s.gl.buffers + 1)) ∧
    (∀ idx off, absoluteOffset? s.j idx = some off →
      ∃ acc view viewIdx accOffset viewOffset,
        s.j.findPath? [.key "accessors", .idx idx] = some acc ∧
        acc.intAt? "bufferView" = some viewIdx ∧
        s.j.findPath? [.key "bufferViews", .idx viewIdx] = some view ∧
        view.intAt? "byteOffset" = some viewOffset ∧
        (if acc.contains "byteOffset" then acc.intAt? "byteOffset" = some accOffset
          else accOffset = 0) ∧
        off = wrap32 (viewOffset + accOffset) ∧
        (-2147483648 ≤ viewOffset + accOffset → viewOffset + accOffset < 2147483648 →
          off = viewOffset + accOffset)) := by
  obtain ⟨r, hr, rfl⟩ := loadPrimitive_ok_iff.mp h
  constructor
  · simp only [resolve?, Option.bind_eq_bind, Option.bind_eq_some, Option.some.injEq] at hr
    obtain ⟨color, hcolor, iIdx, hiIdx, iOff, hiOff, iCount, hiCount, ct, hct, pIdx, hpIdx,
      pOff, hpOff, nIdx, hnIdx, nOff, hnOff, pCount, hpCount, nCount, hnCount, rfl⟩ := hr
    exact ⟨_, iIdx, pIdx, nIdx, hiIdx, hpIdx, hnIdx, hiOff, hpOff, hnOff, rfl⟩
  · intro idx off hoff
    simp only [absoluteOffset?, Option.bind_eq_bind, Option.bind_eq_some, Option.some.injEq]
      at hoff
    obtain ⟨acc, hacc, viewIdx, hviewIdx, view, hview, accOffset, haccOffset, viewOffset,
      hviewOffset, rfl⟩ := hoff
    refine ⟨acc, view, viewIdx, accOffset, viewOffset, hacc, hviewIdx, hview, hviewOffset, ?_,
      by rw [add_comm], ?_⟩
    · split
      · rename_i hc
        simpa [hc] using haccOffset
      · rename_i hc
        simp only [hc] at haccOffset
        simp only [Bool.false_eq_true, if_false, Option.some.injEq] at haccOffset
        exact haccOffset.symm
    · intro h1 h2
      unfold wrap32
      omega

/-- C3 (witness).  The primitive of the sample document loads; its accessors 0, 1
and 2 have the absolute offsets 100, 0 and 48. -/
theorem C3_absolute_offset_witness :
    loadPrimitive sampleBuffer (samplePrimitive 0) (sampleState "Wing" 5123 4 [])
      = .ok () (uploaded sampleBuffer (sampleResolved 5123 4) (sampleState "Wing" 5123 4 [])) ∧
    ((∃ r iIdx pIdx nIdx,
      (samplePrimitive 0).intAt? "indices" = some iIdx ∧
      attributeIdx? (samplePrimitive 0) "POSITION" = some pIdx ∧
      attributeIdx? (samplePrimitive 0) "NORMAL" = some nIdx ∧
      absoluteOffset? (sampleState "Wing" 5123 4 []).j iIdx = some r.indicesOffset ∧
      absoluteOffset? (sampleState "Wing" 5123 4 []).j pIdx = some r.posOffset ∧
      absoluteOffset? (sampleState "Wing" 5123 4 []).j nIdx = some r.normOffset ∧
      (uploaded sampleBuffer (sampleResolved 5123 4) (sampleState "Wing" 5123 4 [])).gl.calls
        = (sampleState "Wing" 5123 4 []).gl.calls ++
          uploadCalls sampleBuffer r ((sampleState "Wing" 5123 4 []).gl.vertexArrays + 1)
            ((sampleState "Wing" 5123 4 []).gl.buffers + 1)) ∧
    (∀ idx off, absoluteOffset? (sampleState "Wing" 5123 4 []).j idx = some off →
      ∃ acc view viewIdx accOffset viewOffset,
        (sampleState "Wing" 5123 4 []).j.findPath? [.key "accessors", .idx idx] = some acc ∧
        acc.intAt? "bufferView" = some viewIdx ∧
        (sampleState "Wing" 5123 4 []).j.findPath? [.key "bufferViews", .idx viewIdx]
          = some view ∧
        view.intAt? "byteOffset" = some viewOffset ∧
        (if acc.contains "byteOffset" then acc.intAt? "byteOffset" = some accOffset
          else accOffset = 0) ∧
        off = wrap32 (viewOffset + accOffset) ∧
        (-2147483648 ≤ viewOffset + accOffset → viewOffset + accOffset < 2147483648 →
          off = viewOffset + accOffset))) :=
  have h : loadPrimitive sampleBuffer (samplePrimitive 0) (sampleState "Wing" 5123 4 [])
      = .ok () (uploaded sampleBuffer (sampleResolved 5123 4) (sampleState "Wing" 5123 4 [])) :=
    loadPrimitive_ok_iff.mpr ⟨_, by decide!, rfl⟩
  ⟨h, C3_absolute_offset _ _ _ _ h⟩


/-- C4.  When a primitive loads, the mesh pushed for it has the `count` of the
indices accessor as index count; the last OpenGL call of the iteration fills
the index buffer with `count * size` bytes; component type 5123 gives index
type `GL_UNSIGNED_SHORT` and `size` 2, component type 5125 gives index type
`GL_UNSIGNED_INT` and `size` 4. -/
theorem C4_index_type_and_size (binData : List UInt8) (primitive : Json) (s s1 : LoadState)
    (h : loadPrimitive binData primitive s = .ok () s1) :
    ∃ iIdx componentType count iOff m size,
      primitive.intAt? "indices" = some iIdx ∧
      accessorInt? s.j iIdx "componentType" = some componentType ∧
      accessorInt? s.j iIdx "count" = some count ∧
      s1.meshes = s.meshes ++ [m] ∧
      m.indexCount = count ∧
      s1.gl.calls.getLast? = some (.bufferData GL_ELEMENT_ARRAY_BUFFER (wrap32 (count * size))
        iOff (readRange binData iOff (wrap32 (count * size)))) ∧
      (componentType = 5123 → m.indexType = GL_UNSIGNED_SHORT ∧ size = 2) ∧
      (componentType = 5125 → m.indexType = GL_UNSIGNED_INT ∧ size = 4) := by
  obtain ⟨r, hr, rfl⟩ := loadPrimitive_ok_iff.mp h
  simp only [resolve?, Option.bind_eq_bind, Option.bind_eq_some, Option.some.injEq] at hr
  obtain ⟨color, hcolor, iIdx, hiIdx, iOff, hiOff, iCount, hiCount, ct, hct, pIdx, hpIdx,
    pOff, hpOff, nIdx, hnIdx, nOff, hnOff, pCount, hpCount, nCount, hnCount, rfl⟩ := hr
  refine ⟨iIdx, ct, iCount, iOff, meshOf _ (s.gl.vertexArrays + 1),
    indexSizeOf (indexTypeOf ct), hiIdx, hct, hiCount, rfl, rfl, ?_, ?_, ?_⟩
  · simp [uploaded, uploadCalls]
  · intro hc
    subst hc
    exact ⟨rfl, rfl⟩
  · intro hc
    subst hc
    exact ⟨rfl, rfl⟩

/-- C4 (witness).  The primitive of the sample document, whose indices accessor
has component type 5123, loads. -/
theorem C4_index_type_and_size_witness :
    loadPrimitive sampleBuffer (samplePrimitive 0) (sampleState "Wing" 5123 4 [])
      = .ok () (uploaded sampleBuffer (sampleResolved 5123 4) (sampleState "Wing" 5123 4 [])) ∧
    ∃ iIdx componentType count iOff m size,
      (samplePrimitive 0).intAt? "indices" = some iIdx ∧
      accessorInt? (sampleState "Wing" 5123 4 []).j iIdx "componentType" = some componentType ∧
      accessorInt? (sampleState "Wing" 5123 4 []).j iIdx "count" = some count ∧
      (uploaded sampleBuffer (sampleResolved 5123 4) (sampleState "Wing" 5123 4 [])).meshes
        = (sampleState "Wing" 5123 4 []).meshes ++ [m] ∧
      m.indexCount = count ∧
      (uploaded sampleBuffer (sampleResolved 5123 4)
          (sampleState "Wing" 5123 4 [])).gl.calls.getLast?
        = some (.bufferData GL_ELEMENT_ARRAY_BUFFER (wrap32 (count * size))
            iOff (readRange sampleBuffer iOff (wrap32 (count * size)))) ∧
      (componentType = 5123 → m.indexType = GL_UNSIGNED_SHORT ∧ size = 2) ∧
      (componentType = 5125 → m.indexType = GL_UNSIGNED_INT ∧ size = 4) :=
  have h : loadPrimitive sampleBuffer (samplePrimitive 0) (sampleState "Wing" 5123 4 [])
      = .ok () (uploaded sampleBuffer (sampleResolved 5123 4) (sampleState "Wing" 5123 4 [])) :=
    loadPrimitive_ok_iff.mpr ⟨_, by decide!, rfl⟩
  ⟨h, C4_index_type_and_size _ _ _ _ h⟩


/-- C5 (counterexample).  The indices accessor of this document has component type
5126 (FLOAT); the load does not fail with an unsupported-format error: it
returns a mesh for the primitive, with index type `GL_UNSIGNED_INT`, and fills
the index buffer with 6 * 4 bytes. -/
theorem C5_float_indices_are_loaded :
    loadDocument (sampleDocument "Wing" 5126 4 [samplePrimitive 0]) sampleBuffer freshGL
      = .returned [⟨1, 6, GL_UNSIGNED_INT, ⟨1, 1, 1, 1⟩⟩] ⟨1, 3, sampleCalls 24 48⟩ := by
  decide!

/-- C5 (amended).  A component type other than 5123 on the indices accessor (5125,
5126 or any other number) raises no error: whenever the values the loader reads
for the primitive resolve, the primitive loads, its mesh has index type
`GL_UNSIGNED_INT`, and its index buffer is filled with `indexCount * 4` bytes. -/
theorem C5_other_component_types_load_as_unsigned_int (binData : List UInt8)
    (primitive : Json) (s : LoadState) (r : Resolved) (hr : resolve? s.j primitive = some r)
    (hct : r.componentType ≠ 5123) :
    ∃ s1, loadPrimitive binData primitive s = .ok () s1 ∧
      s1.meshes = s.meshes ++ [⟨s.gl.vertexArrays + 1, r.indexCount, GL_UNSIGNED_INT, r.color⟩] ∧
      s1.gl.calls.getLast? = some (.bufferData GL_ELEMENT_ARRAY_BUFFER
        (wrap32 (r.indexCount * 4)) r.indicesOffset
        (readRange binData r.indicesOffset (wrap32 (r.indexCount * 4)))) := by
  refine ⟨uploaded binData r s, loadPrimitive_ok_iff.mpr ⟨r, hr, rfl⟩, ?_, ?_⟩
  · simp [uploaded, meshOf, indexTypeOf, hct]
  · simp [uploaded, uploadCalls, indexTypeOf, indexSizeOf, hct, GL_UNSIGNED_INT,
      GL_UNSIGNED_SHORT]

/-- C5 (witness).  The sample primitive with component type 5126 on its indices
accessor. -/
theorem C5_other_component_types_load_as_unsigned_int_witness :
    resolve? (sampleState "Wing" 5126 4 []).j (samplePrimitive 0) = some (sampleResolved 5126 4) ∧
    (sampleResolved 5126 4).componentType ≠ 5123 ∧
    ∃ s1, loadPrimitive sampleBuffer (samplePrimitive 0) (sampleState "Wing" 5126 4 [])
        = .ok () s1 ∧
      s1.meshes = (sampleState "Wing" 5126 4 []).meshes ++
        [⟨(sampleState "Wing" 5126 4 []).gl.vertexArrays + 1, (sampleResolved 5126 4).indexCount,
          GL_UNSIGNED_INT, (sampleResolved 5126 4).color⟩] ∧
      s1.gl.calls.getLast? = some (.bufferData GL_ELEMENT_ARRAY_BUFFER
        (wrap32 ((sampleResolved 5126 4).indexCount * 4)) (sampleResolved 5126 4).indicesOffset
        (readRange sampleBuffer (sampleResolved 5126 4).indicesOffset
          (wrap32 ((sampleResolved 5126 4).indexCount * 4)))) :=
  ⟨by decide!, by decide!,
    C5_other_component_types_load_as_unsigned_int sampleBuffer (samplePrimitive 0)
      (sampleState "Wing" 5126 4 []) (sampleResolved 5126 4) (by decide!) (by decide!)⟩


/-- C6.  The loop body on a mesh: a mesh whose `name` is the string `"Cube.001"`
is skipped, the state is left as it is; a mesh with no `name`, or with a name
that is another string (such as `"cube.001"`, `"Cube.0010"` or `"Cube"`), has
its primitives loaded: when the body completes, one mesh was pushed for each
of its primitives, in order. -/
theorem C6_exclusion_by_exact_name (binData : List UInt8) (mesh : Json) (s : LoadState) :
    (mesh.find? (.key "name") = some (.str "Cube.001") → loadMesh binData mesh s = .ok () s) ∧
    (∀ s1, (mesh.find? (.key "name") = none ∨
          ∃ n, mesh.find? (.key "name") = some (.str n) ∧ n ≠ "Cube.001") →
        loadMesh binData mesh s = .ok () s1 →
        ∃ rs, resolveAll? s.j (primitivesOf mesh) = some rs ∧
          s1.meshes = s.meshes ++ meshesFrom s.gl.vertexArrays rs ∧
          (meshesFrom s.gl.vertexArrays rs).length = (primitivesOf mesh).length) ∧
    ("cube.001" ≠ "Cube.001" ∧ "Cube.0010" ≠ "Cube.001" ∧ "Cube" ≠ "Cube.001") := by
  refine ⟨?_, ?_, by decide⟩
  · intro hname
    refine loadMesh_ok_iff.mpr ⟨by simp [meshWalkable, hname], ?_⟩
    simp [isExcluded, hname, loadPrimitives]
  · intro s1 hname hload
    obtain ⟨_, hprims⟩ := loadMesh_ok_iff.mp hload
    have hex : isExcluded mesh = false := by
      unfold isExcluded
      rcases hname with h | ⟨n, h, hne⟩
      · rw [h]
      · rw [h]; simp [hne]
    rw [hex] at hprims
    simp only [Bool.false_eq_true, if_false] at hprims
    obtain ⟨rs, hrs, rfl⟩ := loadPrimitives_ok_iff.mp hprims
    exact ⟨rs, hrs, uploadedAll_meshes _ _ _, by
      rw [meshesFrom_length, resolveAll?_length hrs]⟩

/-- C6 (witness).  In the sample document, the mesh called `"Cube.001"` is skipped
and the mesh called `"cube.001"` has its one primitive loaded. -/
theorem C6_exclusion_by_exact_name_witness :
    (sampleMesh "Cube.001" [samplePrimitive 0]).find? (.key "name") = some (.str "Cube.001") ∧
    loadMesh sampleBuffer (sampleMesh "Cube.001" [samplePrimitive 0])
        (sampleState "Cube.001" 5123 4 [samplePrimitive 0])
      = .ok () (sampleState "Cube.001" 5123 4 [samplePrimitive 0]) ∧
    (sampleMesh "cube.001" [samplePrimitive 0]).find? (.key "name") = some (.str "cube.001") ∧
    loadMesh sampleBuffer (sampleMesh "cube.001" [samplePrimitive 0])
        (sampleState "cube.001" 5123 4 [samplePrimitive 0])
      = .ok () (uploaded sampleBuffer (sampleResolved 5123 4)
          (sampleState "cube.001" 5123 4 [samplePrimitive 0])) ∧
    ∃ rs, resolveAll? (sampleState "cube.001" 5123 4 [samplePrimitive 0]).j
          (primitivesOf (sampleMesh "cube.001" [samplePrimitive 0])) = some rs ∧
      (uploaded sampleBuffer (sampleResolved 5123 4)
          (sampleState "cube.001" 5123 4 [samplePrimitive 0])).meshes
        = (sampleState "cube.001" 5123 4 [samplePrimitive 0]).meshes ++
          meshesFrom (sampleState "cube.001" 5123 4 [samplePrimitive 0]).gl.vertexArrays rs ∧
      (meshesFrom (sampleState "cube.001" 5123 4 [samplePrimitive 0]).gl.vertexArrays rs).length
        = (primitivesOf (sampleMesh "cube.001" [samplePrimitive 0])).length :=
  have hload : loadMesh sampleBuffer (sampleMesh "cube.001" [samplePrimitive 0])
        (sampleState "cube.001" 5123 4 [samplePrimitive 0])
      = .ok () (uploaded sampleBuffer (sampleResolved 5123 4)
          (sampleState "cube.001" 5123 4 [samplePrimitive 0])) :=
    loadMesh_ok_iff.mpr ⟨by decide!,
      loadPrimitives_ok_iff.mpr ⟨[sampleResolved 5123 4], by decide!, rfl⟩⟩
  ⟨rfl,
    (C6_exclusion_by_exact_name sampleBuffer (sampleMesh "Cube.001" [samplePrimitive 0])
      (sampleState "Cube.001" 5123 4 [samplePrimitive 0])).1 rfl,
    rfl, hload,
    (C6_exclusion_by_exact_name sampleBuffer (sampleMesh "cube.001" [samplePrimitive 0])
      (sampleState "cube.001" 5123 4 [samplePrimitive 0])).2.1 _
        (Or.inr ⟨"cube.001", rfl, by decide⟩) hload⟩


/-- C7.  When a primitive loads, the colour of the mesh pushed for it is
(1, 1, 1, 1) if the primitive has no `material` member; otherwise its x, y, z, w
are elements 0, 1, 2, 3 of `pbrMetallicRoughness.baseColorFactor` of the
material with the index the primitive gives. -/
theorem C7_material_color (binData : List UInt8) (primitive : Json) (s s1 : LoadState)
    (h : loadPrimitive binData primitive s = .ok () s1) :
    ∃ m, s1.meshes = s.meshes ++ [m] ∧
      (primitive.contains "material" = false → m.color = ⟨1, 1, 1, 1⟩) ∧
      (primitive.contains "material" = true →
        ∃ matIdx colorFactor r g b a,
          primitive.intAt? "material" = some matIdx ∧
          s.j.findPath? [.key "materials", .idx matIdx, .key "pbrMetallicRoughness",
            .key "baseColorFactor"] = some colorFactor ∧
          colorFactor.floatAt? 0 = some r ∧ colorFactor.floatAt? 1 = some g ∧
          colorFactor.floatAt? 2 = some b ∧ colorFactor.floatAt? 3 = some a ∧
          m.color = ⟨r, g, b, a⟩) := by
  obtain ⟨r, hr, rfl⟩ := loadPrimitive_ok_iff.mp h
  simp only [resolve?, Option.bind_eq_bind, Option.bind_eq_some, Option.some.injEq] at hr
  obtain ⟨color, hcolor, iIdx, hiIdx, iOff, hiOff, iCount, hiCount, ct, hct, pIdx, hpIdx,
    pOff, hpOff, nIdx, hnIdx, nOff, hnOff, pCount, hpCount, nCount, hnCount, rfl⟩ := hr
  refine ⟨meshOf _ (s.gl.vertexArrays + 1), rfl, ?_, ?_⟩
  · intro hm
    simp only [colorOf?, hm, Bool.false_eq_true, if_false, Option.some.injEq] at hcolor
    exact hcolor.symm
  · intro hm
    simp only [colorOf?, hm, if_true, Option.bind_eq_bind, Option.bind_eq_some,
      Option.some.injEq] at hcolor
    obtain ⟨matIdx, hmat, cf, hcf, r, hr, g, hg, b, hb, a, ha, rfl⟩ := hcolor
    exact ⟨matIdx, cf, r, g, b, a, hmat, hcf, hr, hg, hb, ha, rfl⟩

/-- C7 (witness).  The sample primitive with material 0, whose colour factor is
(1/2, 0, 1/4, 1), loads. -/
theorem C7_material_color_witness :
    loadPrimitive sampleBuffer sampleMaterialPrimitive (sampleState "Wing" 5123 4 [])
      = .ok () (uploaded sampleBuffer ⟨⟨1/2, 0, 1/4, 1⟩, 100, 6, 5123, 0, 4, 48, 4⟩
          (sampleState "Wing" 5123 4 [])) ∧
    ∃ m, (uploaded sampleBuffer ⟨⟨1/2, 0, 1/4, 1⟩, 100, 6, 5123, 0, 4, 48, 4⟩
          (sampleState "Wing" 5123 4 [])).meshes = (sampleState "Wing" 5123 4 []).meshes ++ [m] ∧
      (sampleMaterialPrimitive.contains "material" = false → m.color = ⟨1, 1, 1, 1⟩) ∧
      (sampleMaterialPrimitive.contains "material" = true →
        ∃ matIdx colorFactor r g b a,
          sampleMaterialPrimitive.intAt? "material" = some matIdx ∧
          (sampleState "Wing" 5123 4 []).j.findPath? [.key "materials", .idx matIdx,
            .key "pbrMetallicRoughness", .key "baseColorFactor"] = some colorFactor ∧
          colorFactor.floatAt? 0 = some r ∧ colorFactor.floatAt? 1 = some g ∧
          colorFactor.floatAt? 2 = some b ∧ colorFactor.floatAt? 3 = some a ∧
          m.color = ⟨r, g, b, a⟩) :=
  have h : loadPrimitive sampleBuffer sampleMaterialPrimitive (sampleState "Wing" 5123 4 [])
      = .ok () (uploaded sampleBuffer ⟨⟨1/2, 0, 1/4, 1⟩, 100, 6, 5123, 0, 4, 48, 4⟩
          (sampleState "Wing" 5123 4 [])) :=
    loadPrimitive_ok_iff.mpr ⟨_, by decide!, rfl⟩
  ⟨h, C7_material_color _ _ _ _ h⟩


/-- C8.  When the loader returns, the vector has one mesh per primitive of the
non-excluded meshes, in document traversal order: it is as long as the list of
those primitives, mesh number `i` carries the index count, index type and
colour read for primitive number `i`, and that length is the sum of the
primitive counts of the non-excluded meshes. -/
theorem C8_one_mesh_per_primitive_in_order (j : Json) (binData : List UInt8)
    (gl gl1 : GLState) (ms : List GLTFMesh)
    (h : loadDocument j binData gl = .returned ms gl1) :
    ms.length = (includedPrimitives j).length ∧
    List.Forall₂ (fun p m => ∃ r, resolve? j p = some r ∧ m.indexCount = r.indexCount ∧
      m.indexType = indexTypeOf r.componentType ∧ m.color = r.color)
      (includedPrimitives j) ms ∧
    (includedPrimitives j).length
      = (((meshesOf j).filter (fun m => !isExcluded m)).map
          (fun m => (primitivesOf m).length)).sum := by
  obtain ⟨_, _, rs, hrs, rfl, _⟩ := loadDocument_returned_iff.mp h
  exact ⟨by rw [meshesFrom_length, resolveAll?_length hrs], forall₂_meshesFrom _ hrs,
    includedOf_length _⟩

/-- C8 (witness).  A document with the excluded mesh `"Cube.001"` (one primitive)
and the mesh `"Wing"` (two primitives): the loader returns two meshes, for the
two primitives of `"Wing"`, in order. -/
theorem C8_one_mesh_per_primitive_in_order_witness :
    loadDocument
        (sampleScene 5123 4 [sampleMesh "Cube.001" [samplePrimitive 0],
          sampleMesh "Wing" [samplePrimitive 0, sampleMaterialPrimitive]])
        sampleBuffer freshGL
      = .returned [⟨1, 6, GL_UNSIGNED_SHORT, ⟨1, 1, 1, 1⟩⟩,
          ⟨2, 6, GL_UNSIGNED_SHORT, ⟨1/2, 0, 1/4, 1⟩⟩]
          ⟨2, 6, callsFrom sampleBuffer 0 0
            [sampleResolved 5123 4, ⟨⟨1/2, 0, 1/4, 1⟩, 100, 6, 5123, 0, 4, 48, 4⟩]⟩ ∧
    ([⟨1, 6, GL_UNSIGNED_SHORT, ⟨1, 1, 1, 1⟩⟩,
        ⟨2, 6, GL_UNSIGNED_SHORT, ⟨1/2, 0, 1/4, 1⟩⟩] : List GLTFMesh).length
      = (includedPrimitives (sampleScene 5123 4 [sampleMesh "Cube.001" [samplePrimitive 0],
          sampleMesh "Wing" [samplePrimitive 0, sampleMaterialPrimitive]])).length ∧
    List.Forall₂ (fun (p : Json) (m : GLTFMesh) => ∃ r,
        resolve? (sampleScene 5123 4 [sampleMesh "Cube.001" [samplePrimitive 0],
          sampleMesh "Wing" [samplePrimitive 0, sampleMaterialPrimitive]]) p = some r ∧
        m.indexCount = r.indexCount ∧
        m.indexType = indexTypeOf r.componentType ∧ m.color = r.color)
      (includedPrimitives (sampleScene 5123 4 [sampleMesh "Cube.001" [samplePrimitive 0],
          sampleMesh "Wing" [samplePrimitive 0, sampleMaterialPrimitive]]))
      [⟨1, 6, GL_UNSIGNED_SHORT, ⟨1, 1, 1, 1⟩⟩, ⟨2, 6, GL_UNSIGNED_SHORT, ⟨1/2, 0, 1/4, 1⟩⟩] ∧
    (includedPrimitives (sampleScene 5123 4 [sampleMesh "Cube.001" [samplePrimitive 0],
          sampleMesh "Wing" [samplePrimitive 0, sampleMaterialPrimitive]])).length
      = (((meshesOf (sampleScene 5123 4 [sampleMesh "Cube.001" [samplePrimitive 0],
          sampleMesh "Wing" [samplePrimitive 0, sampleMaterialPrimitive]])).filter
            (fun m => !isExcluded m)).map (fun m => (primitivesOf m).length)).sum :=
  have h : loadDocument
        (sampleScene 5123 4 [sampleMesh "Cube.001" [samplePrimitive 0],
          sampleMesh "Wing" [samplePrimitive 0, sampleMaterialPrimitive]])
        sampleBuffer freshGL
      = .returned [⟨1, 6, GL_UNSIGNED_SHORT, ⟨1, 1, 1, 1⟩⟩,
          ⟨2, 6, GL_UNSIGNED_SHORT, ⟨1/2, 0, 1/4, 1⟩⟩]
          ⟨2, 6, callsFrom sampleBuffer 0 0
            [sampleResolved 5123 4, ⟨⟨1/2, 0, 1/4, 1⟩, 100, 6, 5123, 0, 4, 48, 4⟩]⟩ := by
    decide!
  ⟨h, C8_one_mesh_per_primitive_in_order _ _ _ _ _ h⟩


/-- C9.  When a primitive loads, the OpenGL calls of the iteration are exactly
these: the position buffer gets the `posCount * 12` bytes at the absolute
offset of the POSITION accessor, the normal buffer the `normCount * 12` bytes
at the absolute offset of the NORMAL accessor, the index buffer the
`indexCount * indexSize` bytes at the absolute offset of the indices accessor;
the bytes are those of `binData` at that range, unconverted, whenever the
range lies inside `binData`. -/
theorem C9_uploads_are_verbatim_ranges (binData : List UInt8) (primitive : Json)
    (s s1 : LoadState) (h : loadPrimitive binData primitive s = .ok () s1) :
    (∃ iIdx pIdx nIdx iOff pOff nOff iCount pCount nCount componentType,
      primitive.intAt? "indices" = some iIdx ∧
      attributeIdx? primitive "POSITION" = some pIdx ∧
      attributeIdx? primitive "NORMAL" = some nIdx ∧
      absoluteOffset? s.j iIdx = some iOff ∧
      absoluteOffset? s.j pIdx = some pOff ∧
      absoluteOffset? s.j nIdx = some nOff ∧
      accessorInt? s.j iIdx "count" = some iCount ∧
      accessorInt? s.j pIdx "count" = some pCount ∧
      accessorInt? s.j nIdx "count" = some nCount ∧
      accessorInt? s.j iIdx "componentType" = some componentType ∧
      s1.gl.calls = s.gl.calls ++
        [ .genVertexArrays (s.gl.vertexArrays + 1), .bindVertexArray (s.gl.vertexArrays + 1),
          .genBuffers (s.gl.buffers + 1), .bindBuffer GL_ARRAY_BUFFER (s.gl.buffers + 1),
          .bufferData GL_ARRAY_BUFFER (wrap32 (pCount * 12)) pOff
            (readRange binData pOff (wrap32 (pCount * 12))),
          .vertexAttribPointer 0 3 GL_FLOAT 0, .enableVertexAttribArray 0,
          .genBuffers (s.gl.buffers + 1 + 1), .bindBuffer GL_ARRAY_BUFFER (s.gl.buffers + 1 + 1),
          .bufferData GL_ARRAY_BUFFER (wrap32 (nCount * 12)) nOff
            (readRange binData nOff (wrap32 (nCount * 12))),
          .vertexAttribPointer 1 3 GL_FLOAT 0, .enableVertexAttribArray 1,
          .genBuffers (s.gl.buffers + 1 + 2),
          .bindBuffer GL_ELEMENT_ARRAY_BUFFER (s.gl.buffers + 1 + 2),
          .bufferData GL_ELEMENT_ARRAY_BUFFER
            (wrap32 (iCount * indexSizeOf (indexTypeOf componentType))) iOff
            (readRange binData iOff
              (wrap32 (iCount * indexSizeOf (indexTypeOf componentType)))) ]) ∧
    (∀ offset size : Int, 0 ≤ offset → 0 ≤ size → offset + size ≤ binData.length →
      readRange binData offset size
        = some ((binData.drop offset.toNat).take size.toNat)) := by
  obtain ⟨r, hr, rfl⟩ := loadPrimitive_ok_iff.mp h
  simp only [resolve?, Option.bind_eq_bind, Option.bind_eq_some, Option.some.injEq] at hr
  obtain ⟨color, hcolor, iIdx, hiIdx, iOff, hiOff, iCount, hiCount, ct, hct, pIdx, hpIdx,
    pOff, hpOff, nIdx, hnIdx, nOff, hnOff, pCount, hpCount, nCount, hnCount, rfl⟩ := hr
  refine ⟨⟨iIdx, pIdx, nIdx, iOff, pOff, nOff, iCount, pCount, nCount, ct, hiIdx, hpIdx, hnIdx,
    hiOff, hpOff, hnOff, hiCount, hpCount, hnCount, hct, rfl⟩, ?_⟩
  intro offset size h1 h2 h3
  simp [readRange, h1, h2, h3]

/-- C9 (witness).  The primitive of the sample document loads from the buffer of
300 bytes. -/
theorem C9_uploads_are_verbatim_ranges_witness :
    loadPrimitive sampleBuffer (samplePrimitive 0) (sampleState "Wing" 5123 4 [])
      = .ok () (uploaded sampleBuffer (sampleResolved 5123 4) (sampleState "Wing" 5123 4 [])) ∧
    (uploaded sampleBuffer (sampleResolved 5123 4) (sampleState "Wing" 5123 4 [])).gl.calls
      = sampleCalls 12 48 ∧
    ((∃ iIdx pIdx nIdx iOff pOff nOff iCount pCount nCount componentType,
      (samplePrimitive 0).intAt? "indices" = some iIdx ∧
      attributeIdx? (samplePrimitive 0) "POSITION" = some pIdx ∧
      attributeIdx? (samplePrimitive 0) "NORMAL" = some nIdx ∧
      absoluteOffset? (sampleState "Wing" 5123 4 []).j iIdx = some iOff ∧
      absoluteOffset? (sampleState "Wing" 5123 4 []).j pIdx = some pOff ∧
      absoluteOffset? (sampleState "Wing" 5123 4 []).j nIdx = some nOff ∧
      accessorInt? (sampleState "Wing" 5123 4 []).j iIdx "count" = some iCount ∧
      accessorInt? (sampleState "Wing" 5123 4 []).j pIdx "count" = some pCount ∧
      accessorInt? (sampleState "Wing" 5123 4 []).j nIdx "count" = some nCount ∧
      accessorInt? (sampleState "Wing" 5123 4 []).j iIdx "componentType" = some componentType ∧
      (uploaded sampleBuffer (sampleResolved 5123 4) (sampleState "Wing" 5123 4 [])).gl.calls
        = (sampleState "Wing" 5123 4 []).gl.calls ++
        [ .genVertexArrays ((sampleState "Wing" 5123 4 []).gl.vertexArrays + 1),
          .bindVertexArray ((sampleState "Wing" 5123 4 []).gl.vertexArrays + 1),
          .genBuffers ((sampleState "Wing" 5123 4 []).gl.buffers + 1),
          .bindBuffer GL_ARRAY_BUFFER ((sampleState "Wing" 5123 4 []).gl.buffers + 1),
          .bufferData GL_ARRAY_BUFFER (wrap32 (pCount * 12)) pOff
            (readRange sampleBuffer pOff (wrap32 (pCount * 12))),
          .vertexAttribPointer 0 3 GL_FLOAT 0, .enableVertexAttribArray 0,
          .genBuffers ((sampleState "Wing" 5123 4 []).gl.buffers + 1 + 1),
          .bindBuffer GL_ARRAY_BUFFER ((sampleState "Wing" 5123 4 []).gl.buffers + 1 + 1),
          .bufferData GL_ARRAY_BUFFER (wrap32 (nCount * 12)) nOff
            (readRange sampleBuffer nOff (wrap32 (nCount * 12))),
          .vertexAttribPointer 1 3 GL_FLOAT 0, .enableVertexAttribArray 1,
          .genBuffers ((sampleState "Wing" 5123 4 []).gl.buffers + 1 + 2),
          .bindBuffer GL_ELEMENT_ARRAY_BUFFER ((sampleState "Wing" 5123 4 []).gl.buffers + 1 + 2),
          .bufferData GL_ELEMENT_ARRAY_BUFFER
            (wrap32 (iCount * indexSizeOf (indexTypeOf componentType))) iOff
            (readRange sampleBuffer iOff
              (wrap32 (iCount * indexSizeOf (indexTypeOf componentType)))) ]) ∧
    (∀ offset size : Int, 0 ≤ offset → 0 ≤ size → offset + size ≤ sampleBuffer.length →
      readRange sampleBuffer offset size
        = some ((sampleBuffer.drop offset.toNat).take size.toNat))) :=
  have h : loadPrimitive sampleBuffer (samplePrimitive 0) (sampleState "Wing" 5123 4 [])
      = .ok () (uploaded sampleBuffer (sampleResolved 5123 4) (sampleState "Wing" 5123 4 [])) :=
    loadPrimitive_ok_iff.mpr ⟨_, by decide!, rfl⟩
  ⟨h, by decide!, C9_uploads_are_verbatim_ranges _ _ _ _ h⟩


/-- C10 (counterexample).  In this document the POSITION accessor has count 4 and
the NORMAL accessor count 3; the primitive is loaded all the same: a mesh is
returned, the position buffer holds 48 bytes and the normal buffer 36. -/
theorem C10_unequal_counts_are_loaded :
    accessorInt? (sampleDocument "Wing" 5123 3 [samplePrimitive 0]) 1 "count" = some 4 ∧
    accessorInt? (sampleDocument "Wing" 5123 3 [samplePrimitive 0]) 2 "count" = some 3 ∧
    loadDocument (sampleDocument "Wing" 5123 3 [samplePrimitive 0]) sampleBuffer freshGL
      = .returned [⟨1, 6, GL_UNSIGNED_SHORT, ⟨1, 1, 1, 1⟩⟩] ⟨1, 3, sampleCalls 12 36⟩ := by
  refine ⟨by decide!, by decide!, by decide!⟩

/-- C10 (amended).  The loader does not compare the counts of the POSITION and the
NORMAL accessor: whenever the values it reads for a primitive resolve, equal
counts or not, the primitive loads, its position buffer filled with
`posCount * 12` bytes and its normal buffer with `normCount * 12` bytes, each
from its own accessor. -/
theorem C10_counts_are_not_compared (binData : List UInt8) (primitive : Json)
    (s : LoadState) (r : Resolved) (hr : resolve? s.j primitive = some r) :
    loadPrimitive binData primitive s = .ok () (uploaded binData r s) ∧
    (∃ pIdx nIdx, attributeIdx? primitive "POSITION" = some pIdx ∧
      attributeIdx? primitive "NORMAL" = some nIdx ∧
      accessorInt? s.j pIdx "count" = some r.posCount ∧
      accessorInt? s.j nIdx "count" = some r.normCount) ∧
    GLCall.bufferData GL_ARRAY_BUFFER (wrap32 (r.posCount * 12)) r.posOffset
      (readRange binData r.posOffset (wrap32 (r.posCount * 12)))
        ∈ (uploaded binData r s).gl.calls ∧
    GLCall.bufferData GL_ARRAY_BUFFER (wrap32 (r.normCount * 12)) r.normOffset
      (readRange binData r.normOffset (wrap32 (r.normCount * 12)))
        ∈ (uploaded binData r s).gl.calls := by
  refine ⟨loadPrimitive_ok_iff.mpr ⟨r, hr, rfl⟩, ?_, ?_, ?_⟩
  · simp only [resolve?, Option.bind_eq_bind, Option.bind_eq_some, Option.some.injEq] at hr
    obtain ⟨color, hcolor, iIdx, hiIdx, iOff, hiOff, iCount, hiCount, ct, hct, pIdx, hpIdx,
      pOff, hpOff, nIdx, hnIdx, nOff, hnOff, pCount, hpCount, nCount, hnCount, rfl⟩ := hr
    exact ⟨pIdx, nIdx, hpIdx, hnIdx, hpCount, hnCount⟩
  · simp [uploaded, uploadCalls]
  · simp [uploaded, uploadCalls]

/-- C10 (witness).  The sample primitive with 4 positions and 3 normals. -/
theorem C10_counts_are_not_compared_witness :
    resolve? (sampleState "Wing" 5123 3 []).j (samplePrimitive 0) = some (sampleResolved 5123 3) ∧
    loadPrimitive sampleBuffer (samplePrimitive 0) (sampleState "Wing" 5123 3 [])
      = .ok () (uploaded sampleBuffer (sampleResolved 5123 3) (sampleState "Wing" 5123 3 [])) ∧
    (∃ pIdx nIdx, attributeIdx? (samplePrimitive 0) "POSITION" = some pIdx ∧
      attributeIdx? (samplePrimitive 0) "NORMAL" = some nIdx ∧
      accessorInt? (sampleState "Wing" 5123 3 []).j pIdx "count"
        = some (sampleResolved 5123 3).posCount ∧
      accessorInt? (sampleState "Wing" 5123 3 []).j nIdx "count"
        = some (sampleResolved 5123 3).normCount) ∧
    GLCall.bufferData GL_ARRAY_BUFFER (wrap32 ((sampleResolved 5123 3).posCount * 12))
      (sampleResolved 5123 3).posOffset
      (readRange sampleBuffer (sampleResolved 5123 3).posOffset
        (wrap32 ((sampleResolved 5123 3).posCount * 12)))
        ∈ (uploaded sampleBuffer (sampleResolved 5123 3) (sampleState "Wing" 5123 3 [])).gl.calls ∧
    GLCall.bufferData GL_ARRAY_BUFFER (wrap32 ((sampleResolved 5123 3).normCount * 12))
      (sampleResolved 5123 3).normOffset
      (readRange sampleBuffer (sampleResolved 5123 3).normOffset
        (wrap32 ((sampleResolved 5123 3).normCount * 12)))
        ∈ (uploaded sampleBuffer (sampleResolved 5123 3) (sampleState "Wing" 5123 3 [])).gl.calls :=
  ⟨by decide!,
    C10_counts_are_not_compared sampleBuffer (samplePrimitive 0) (sampleState "Wing" 5123 3 [])
      (sampleResolved 5123 3) (by decide!)⟩


/-- C11 (counterexample).  The primitive names accessor 7 of a document with 3
accessors.  The load fails, but with the `type_error` 302 of converting a null
to `int`, not with an index error, and the accessors table does not stay as it
was: it has 3 elements before the iteration and 8 after it. -/
theorem C11_out_of_range_accessor_extends_table :
    loadDocument (sampleDocument "Wing" 5123 4 [samplePrimitive 7]) sampleBuffer freshGL
      = .threw (.typeError 302) freshGL ∧
    (loadPrimitive sampleBuffer (samplePrimitive 7) (sampleState "Wing" 5123 4 [])).failure?
      = some (.typeError 302) ∧
    ((sampleState "Wing" 5123 4 []).j.findPath? [.key "accessors"]).map
      (fun t => t.items.length) = some 3 ∧
    ((loadPrimitive sampleBuffer (samplePrimitive 7)
        (sampleState "Wing" 5123 4 [])).state.j.findPath? [.key "accessors"]).map
      (fun t => t.items.length) = some 8 := by
  refine ⟨by decide!, by decide!, by decide!, by decide!⟩

/-- C11 (amended).  An index at or beyond the end of its table makes the load of
the primitive fail, without any OpenGL call (so no buffer byte is read) and
without a mesh.  The failure is no index error: the non-const `operator[]`
first fills the table up with nulls to that index, so the table is modified,
and the conversion of a null then throws `type_error` 302.  This holds for the
accessor index of the indices, POSITION or NORMAL reference, for the buffer
view index of such an accessor, and for the material index. -/
theorem C11_out_of_range_reference (binData : List UInt8) (primitive : Json)
    (s : LoadState) :
    (∀ (idx : Int) (accs : List Json),
      s.j.find? (.key "accessors") = some (.arr accs) → 0 ≤ idx → (accs.length : Int) ≤ idx →
      (∃ s1, accessorOffset idx s = .fail (.typeError 302) s1 ∧ s1.gl = s.gl ∧
        s1.meshes = s.meshes ∧ s.j.findPath? (accessorRef idx) = none ∧
        (s1.j.findPath? (accessorRef idx)).isSome = true) ∧
      ((primitive.intAt? "indices" = some idx ∨ attributeIdx? primitive "POSITION" = some idx ∨
          attributeIdx? primitive "NORMAL" = some idx) →
        ∃ e s1, loadPrimitive binData primitive s = .fail e s1 ∧ s1.gl = s.gl ∧
          s1.meshes = s.meshes)) ∧
    (∀ (idx v : Int) (acc : Json) (views : List Json),
      s.j.findPath? (accessorRef idx) = some acc → acc.intAt? "bufferView" = some v →
      s.j.find? (.key "bufferViews") = some (.arr views) → 0 ≤ v → (views.length : Int) ≤ v →
      (∃ s1, accessorOffset idx s = .fail (.typeError 302) s1 ∧ s1.gl = s.gl ∧
        s1.meshes = s.meshes ∧ s.j.findPath? (bufferViewRef v) = none ∧
        (s1.j.findPath? (bufferViewRef v)).isSome = true) ∧
      ((primitive.intAt? "indices" = some idx ∨ attributeIdx? primitive "POSITION" = some idx ∨
          attributeIdx? primitive "NORMAL" = some idx) →
        ∃ e s1, loadPrimitive binData primitive s = .fail e s1 ∧ s1.gl = s.gl ∧
          s1.meshes = s.meshes)) ∧
    (∀ (m : Int) (mats : List Json),
      primitive.contains "material" = true → primitive.intAt? "material" = some m →
      s.j.find? (.key "materials") = some (.arr mats) → 0 ≤ m → (mats.length : Int) ≤ m →
      ∃ s1, loadColor primitive s = .fail (.typeError 302) s1 ∧
        loadPrimitive binData primitive s = .fail (.typeError 302) s1 ∧ s1.gl = s.gl ∧
        s1.meshes = s.meshes ∧ s.j.findPath? [.key "materials", .idx m] = none ∧
        (s1.j.findPath? [.key "materials", .idx m]).isSome = true) := by
  refine ⟨?_, ?_, ?_⟩
  · intro idx accs ht hi hlen
    have hnone : s.j.findPath? (accessorRef idx) = none := findPath?_table_beyond ht hlen
    obtain ⟨s1, hrun, hgl, hms, hsome⟩ := accessorOffset_accessor_beyond ht hi hlen
    refine ⟨⟨s1, hrun, hgl, hms, hnone, hsome⟩, ?_⟩
    intro href
    exact loadPrimitive_fails_before_upload binData primitive s
      (references?_none_of_offset href (absoluteOffset?_none_of_accessor hnone))
  · intro idx v acc views hacc hv ht hi hlen
    have hnone : s.j.findPath? (bufferViewRef v) = none := findPath?_table_beyond ht hlen
    obtain ⟨s1, hrun, hgl, hms, hsome⟩ := accessorOffset_view_beyond hacc hv ht hi hlen
    refine ⟨⟨s1, hrun, hgl, hms, hnone, hsome⟩, ?_⟩
    intro href
    exact loadPrimitive_fails_before_upload binData primitive s
      (references?_none_of_offset href (absoluteOffset?_none_of_view hacc hv hnone))
  · intro m mats hc hm ht hi hlen
    have hnone : s.j.findPath? [.key "materials", .idx m] = none := findPath?_table_beyond ht hlen
    obtain ⟨s1, hrun, hgl, hms, hsome⟩ := loadColor_material_beyond hc hm ht hi hlen
    refine ⟨s1, hrun, ?_, hgl, hms, hnone, hsome⟩
    unfold loadPrimitive
    exact (bind_fail_keeps (keeps_loadColor _) hrun).1

/-- C11 (witness).  Accessor index 7 in the sample document, which has the three
accessors 0, 1, 2, named as the indices accessor by `samplePrimitive 7`. -/
theorem C11_out_of_range_reference_witness :
    (sampleState "Wing" 5123 4 []).j.find? (.key "accessors")
      = some (.arr [sampleAccessor 0 5123 6, sampleAccessor 1 5126 4, sampleAccessor 2 5126 4]) ∧
    (0 : Int) ≤ 7 ∧
    (([sampleAccessor 0 5123 6, sampleAccessor 1 5126 4,
      sampleAccessor 2 5126 4].length : Nat) : Int) ≤ 7 ∧
    (samplePrimitive 7).intAt? "indices" = some 7 ∧
    (∃ s1, accessorOffset 7 (sampleState "Wing" 5123 4 []) = .fail (.typeError 302) s1 ∧
      s1.gl = (sampleState "Wing" 5123 4 []).gl ∧
      s1.meshes = (sampleState "Wing" 5123 4 []).meshes ∧
      (sampleState "Wing" 5123 4 []).j.findPath? (accessorRef 7) = none ∧
      (s1.j.findPath? (accessorRef 7)).isSome = true) ∧
    ∃ e s1, loadPrimitive sampleBuffer (samplePrimitive 7) (sampleState "Wing" 5123 4 [])
        = .fail e s1 ∧ s1.gl = (sampleState "Wing" 5123 4 []).gl ∧
      s1.meshes = (sampleState "Wing" 5123 4 []).meshes :=
  have h := (C11_out_of_range_reference sampleBuffer (samplePrimitive 7)
    (sampleState "Wing" 5123 4 [])).1 7
      [sampleAccessor 0 5123 6, sampleAccessor 1 5126 4, sampleAccessor 2 5126 4]
      rfl (by decide) (by decide)
  ⟨rfl, by decide, by decide, by decide!, h.1, h.2 (Or.inl (by decide!))⟩


/-- C12 (counterexample).  The primitive has no `indices` member.  No mesh is
produced, but no missing-attribute error is reported either: `primitive` is a
const reference, the const `operator[]` asserts that the key exists, and the
load ends in that failed assertion. -/
theorem C12_missing_indices_fails_assertion :
    loadDocument (sampleDocument "Wing" 5123 4 [primitiveWithoutIndices]) sampleBuffer freshGL
      = .threw .assertFailed freshGL := by
  decide!

/-- C12 (amended).  A primitive object without `indices`, without `attributes`,
or whose attributes lack `POSITION` or `NORMAL`, produces no mesh and no OpenGL
call.  When the lookups before the missing one succeed, the load ends at the
missing key in the failed assertion of the const `operator[]`, the state as
it was; no missing-attribute error exists. -/
theorem C12_missing_attribute (binData : List UInt8) (primitive : Json) (s : LoadState)
    (ms : List (String × Json)) (hobj : primitive = .obj ms) :
    (∀ color, colorOf? s.j primitive = some color → lookupMember "indices" ms = none →
      loadPrimitive binData primitive s = .fail .assertFailed s) ∧
    (∀ color iIdx iOff iCount componentType,
      colorOf? s.j primitive = some color → primitive.intAt? "indices" = some iIdx →
      absoluteOffset? s.j iIdx = some iOff → accessorInt? s.j iIdx "count" = some iCount →
      accessorInt? s.j iIdx "componentType" = some componentType →
      (lookupMember "attributes" ms = none ∨
        ∃ attrs, lookupMember "attributes" ms = some (.obj attrs) ∧
          lookupMember "POSITION" attrs = none) →
      loadPrimitive binData primitive s = .fail .assertFailed s) ∧
    (∀ color iIdx iOff iCount componentType pIdx pOff attrs,
      colorOf? s.j primitive = some color → primitive.intAt? "indices" = some iIdx →
      absoluteOffset? s.j iIdx = some iOff → accessorInt? s.j iIdx "count" = some iCount →
      accessorInt? s.j iIdx "componentType" = some componentType →
      attributeIdx? primitive "POSITION" = some pIdx → absoluteOffset? s.j pIdx = some pOff →
      lookupMember "attributes" ms = some (.obj attrs) → lookupMember "NORMAL" attrs = none →
      loadPrimitive binData primitive s = .fail .assertFailed s) ∧
    ((primitive.intAt? "indices" = none ∨ attributeIdx? primitive "POSITION" = none ∨
        attributeIdx? primitive "NORMAL" = none) →
      ∃ e s1, loadPrimitive binData primitive s = .fail e s1 ∧ s1.gl = s.gl ∧
        s1.meshes = s.meshes) := by
  subst hobj
  refine ⟨?_, ?_, ?_, ?_⟩
  · intro color hcolor hmiss
    unfold loadPrimitive
    rw [bind_ok_eq (a := color) (loadColor_ok_iff.mpr ⟨rfl, hcolor⟩)]
    simp [Load.bind_apply, liftE, Json.constAt, hmiss, Except.bind]
  · intro color iIdx iOff iCount ct hcolor hiIdx hiOff hiCount hct hmiss
    simp only [accessorInt?] at hiCount hct
    unfold loadPrimitive
    rw [bind_ok_eq (a := color) (loadColor_ok_iff.mpr ⟨rfl, hcolor⟩),
      bind_ok_eq (a := iIdx) (liftE_ok_iff.mpr ⟨constAt_toInt_iff.mpr hiIdx, rfl⟩),
      bind_ok_eq (a := iOff) (accessorOffset_ok_iff.mpr ⟨rfl, hiOff⟩),
      bind_ok_eq (a := iCount) (intMember_ok_iff.mpr ⟨rfl, hiCount⟩),
      bind_ok_eq (a := ct) (intMember_ok_iff.mpr ⟨rfl, hct⟩)]
    rcases hmiss with h | ⟨attrs, h, hp⟩
    · simp [Load.bind_apply, liftE, Json.constAt, h, Except.bind]
    · simp [Load.bind_apply, liftE, Json.constAt, h, hp, Except.bind]
  · intro color iIdx iOff iCount ct pIdx pOff attrs hcolor hiIdx hiOff hiCount hct hpIdx hpOff
      hattrs hmiss
    simp only [accessorInt?] at hiCount hct
    unfold loadPrimitive
    rw [bind_ok_eq (a := color) (loadColor_ok_iff.mpr ⟨rfl, hcolor⟩),
      bind_ok_eq (a := iIdx) (liftE_ok_iff.mpr ⟨constAt_toInt_iff.mpr hiIdx, rfl⟩),
      bind_ok_eq (a := iOff) (accessorOffset_ok_iff.mpr ⟨rfl, hiOff⟩),
      bind_ok_eq (a := iCount) (intMember_ok_iff.mpr ⟨rfl, hiCount⟩),
      bind_ok_eq (a := ct) (intMember_ok_iff.mpr ⟨rfl, hct⟩)]
    dsimp only
    rw [bind_ok_eq (a := pIdx) (liftE_ok_iff.mpr ⟨constAt_attribute_iff.mpr hpIdx, rfl⟩),
      bind_ok_eq (a := pOff) (accessorOffset_ok_iff.mpr ⟨rfl, hpOff⟩)]
    simp [Load.bind_apply, liftE, Json.constAt, hattrs, hmiss, Except.bind]
  · intro hmiss
    apply loadPrimitive_fails_before_upload
    rcases hmiss with h | h | h <;> simp [references?, h, option_bind_const_none]

/-- C12 (witness).  The sample primitive without `indices`, in the sample
document. -/
theorem C12_missing_attribute_witness :
    primitiveWithoutIndices
      = .obj [("attributes", .obj [("NORMAL", .int 2), ("POSITION", .int 1)])] ∧
    colorOf? (sampleState "Wing" 5123 4 []).j primitiveWithoutIndices = some ⟨1, 1, 1, 1⟩ ∧
    lookupMember "indices" [("attributes", Json.obj [("NORMAL", .int 2), ("POSITION", .int 1)])]
      = none ∧
    primitiveWithoutIndices.intAt? "indices" = none ∧
    loadPrimitive sampleBuffer primitiveWithoutIndices (sampleState "Wing" 5123 4 [])
      = .fail .assertFailed (sampleState "Wing" 5123 4 []) ∧
    ∃ e s1, loadPrimitive sampleBuffer primitiveWithoutIndices (sampleState "Wing" 5123 4 [])
        = .fail e s1 ∧ s1.gl = (sampleState "Wing" 5123 4 []).gl ∧
      s1.meshes = (sampleState "Wing" 5123 4 []).meshes :=
  have h := C12_missing_attribute sampleBuffer primitiveWithoutIndices
    (sampleState "Wing" 5123 4 []) _ rfl
  ⟨rfl, by decide!, rfl, by decide!, h.1 ⟨1, 1, 1, 1⟩ (by decide!) rfl, h.2.2.2 (Or.inl (by decide!))⟩


/-- C13 (counterexample).  The document has a mesh but its binary companion cannot
be opened: `loadBirdModel` returns the empty vector, which is also what it
returns for a document without meshes whose companion opens. -/
theorem C13_missing_binary_looks_like_empty_document :
    loadBirdModel (sampleFiles (sampleDocument "Wing" 5123 4 [samplePrimitive 0]) none)
        "Resources/FlappyBird/bird/bird.gltf" freshGL = .returned [] freshGL ∧
    loadBirdModel (sampleFiles (sampleScene 5123 4 []) (some sampleBuffer))
        "Resources/FlappyBird/bird/bird.gltf" freshGL = .returned [] freshGL := by
  refine ⟨by decide!, by decide!⟩

/-- C13 (amended).  When the document parses and the binary companion cannot be
opened, `loadBirdModel` writes `Failed to load binary: <path>` to the standard
output and returns the empty vector, the OpenGL context untouched: the value
the caller gets is the one it gets from a document with no meshes. -/
theorem C13_missing_binary_returns_empty_vector (files : Files) (path : String)
    (gl : GLState) (j : Json) (hdoc : files.document path = some (.ok j))
    (hbin : files.binary (binPathOf path) = none) :
    loadBirdModel files path gl = .returned [] gl ∧
    loadBirdModelOutput files path = ["Failed to load binary: " ++ binPathOf path] ∧
    ∀ binData, loadDocument (.obj [("meshes", .arr [])]) binData gl = .returned [] gl := by
  refine ⟨by simp [loadBirdModel, hdoc, hbin], by simp [loadBirdModelOutput, hdoc, hbin], ?_⟩
  intro binData
  exact loadDocument_returned_iff.mpr ⟨rfl, by simp [meshesOf, Json.find?, lookupMember,
    Json.items], [], rfl, rfl, by simp [callsFrom]⟩

/-- C13 (witness).  The sample document at the path the program uses, with no
binary companion. -/
theorem C13_missing_binary_returns_empty_vector_witness :
    (sampleFiles (sampleDocument "Wing" 5123 4 [samplePrimitive 0]) none).document
        "Resources/FlappyBird/bird/bird.gltf"
      = some (.ok (sampleDocument "Wing" 5123 4 [samplePrimitive 0])) ∧
    (sampleFiles (sampleDocument "Wing" 5123 4 [samplePrimitive 0]) none).binary
        (binPathOf "Resources/FlappyBird/bird/bird.gltf") = none ∧
    loadBirdModel (sampleFiles (sampleDocument "Wing" 5123 4 [samplePrimitive 0]) none)
        "Resources/FlappyBird/bird/bird.gltf" freshGL = .returned [] freshGL ∧
    loadBirdModelOutput (sampleFiles (sampleDocument "Wing" 5123 4 [samplePrimitive 0]) none)
        "Resources/FlappyBird/bird/bird.gltf"
      = ["Failed to load binary: " ++ binPathOf "Resources/FlappyBird/bird/bird.gltf"] ∧
    ∀ binData, loadDocument (.obj [("meshes", .arr [])]) binData freshGL
      = .returned [] freshGL :=
  ⟨rfl, rfl, C13_missing_binary_returns_empty_vector _ _ _ _ rfl rfl⟩

/-- C14 (counterexample).  The example document as the specification gives it has
no NORMAL attribute; the loader looks `NORMAL` up in the attributes of every
primitive (line 405), the lookup fails the library's assertion, and the load
ends without a mesh and without any OpenGL call. -/
theorem C14_example_without_normal_is_not_loaded :
    loadDocument (wingDocument false) sampleBuffer freshGL = .threw .assertFailed freshGL := by
  decide!

/-- C14 (amended).  The example document with a NORMAL accessor added loads: one
mesh is returned, with index count 6 and index type `GL_UNSIGNED_SHORT`; the index
buffer is filled with 6 * 2 = 12 bytes read from offset 100 and the position
buffer with the 48 bytes at offset 0, the range [0, 48). -/
theorem C14_example_with_normal_loads :
    loadDocument (wingDocument true) sampleBuffer freshGL
      = .returned [⟨1, 6, GL_UNSIGNED_SHORT, ⟨1, 1, 1, 1⟩⟩]
          ⟨1, 3,
            [ .genVertexArrays 1, .bindVertexArray 1,
              .genBuffers 1, .bindBuffer GL_ARRAY_BUFFER 1,
              .bufferData GL_ARRAY_BUFFER 48 0 (some (List.replicate 48 0)),
              .vertexAttribPointer 0 3 GL_FLOAT 0, .enableVertexAttribArray 0,
              .genBuffers 2, .bindBuffer GL_ARRAY_BUFFER 2,
              .bufferData GL_ARRAY_BUFFER 48 48 (some (List.replicate 48 0)),
              .vertexAttribPointer 1 3 GL_FLOAT 0, .enableVertexAttribArray 1,
              .genBuffers 3, .bindBuffer GL_ELEMENT_ARRAY_BUFFER 3,
              .bufferData GL_ELEMENT_ARRAY_BUFFER 12 100 (some (List.replicate 12 0)) ]⟩ ∧
    indexSizeOf GL_UNSIGNED_SHORT = 2 ∧
    readRange sampleBuffer 0 48 = some ((sampleBuffer.drop 0).take 48) := by
  refine ⟨by decide!, by decide!, by decide!⟩

/-- C15.  The companion path the loader derives: for the path the program uses
and for a path with a backslash it is `bird.bin` in the directory of the
document; for a path without a separator, `find_last_of` returns `npos`,
`substr(0, npos)` is the whole path, and the companion path is the document
path itself followed by `/bird.bin`, not a file in the document's directory. -/
theorem C15_companion_path :
    binPathOf "Resources/FlappyBird/bird/bird.gltf" = "Resources/FlappyBird/bird/bird.bin" ∧
    binPathOf "models\\bird.gltf" = "models/bird.bin" ∧
    findLastOf "bird.gltf".data ['/', '\\'] = none ∧
    binPathOf "bird.gltf" = "bird.gltf/bird.bin" := by
  refine ⟨by decide!, by decide!, by decide!, by decide!⟩


/-- C16.  In every state at the top of the render loop, reached from the start
through any frames (with any key presses, clicks, time steps and random
values), the vector `pipes` has 5 entries, and it still has 5 after
`processInput`, where the game update of the frame runs; so the recycling finds
`pipes.front()` and, after the erase, `pipes.back()` on a non-empty vector, and
the frame ends in a state with 5 pipes again. -/
theorem C16_five_pipes (g : Game) (h : Reachable g) (i : FrameInput) :
    g.pipes.length = 5 ∧
    (processInput i g).pipes.length = 5 ∧
    (∃ ps, recyclePipes i.recycleGap (movePipes i.deltaTime (processInput i g).pipes) = some ps ∧
      ps.length = 5) ∧
    ∃ g1, frame i g = some g1 ∧ g1.pipes.length = 5 := by
  have hlen := reachable_pipes_length h
  have hin := processInput_pipes_length i g hlen
  exact ⟨hlen, hin,
    recyclePipes_length _ _ 3 (by rw [movePipes_length, hin]),
    frame_pipes_length i g hlen⟩

/-- C16 (witness).  The state in which the render loop starts, and a frame of
1/60 s with no key and no click. -/
theorem C16_five_pipes_witness :
    Reachable (initialGame (fun _ => 0)) ∧
    (initialGame (fun _ => 0)).pipes.length = 5 ∧
    (processInput ⟨1 / 60, false, false, false, false, false, fun _ => 0, 0, fun _ => 0⟩
      (initialGame (fun _ => 0))).pipes.length = 5 ∧
    (∃ ps, recyclePipes (0 : ℚ) (movePipes (1 / 60)
        (processInput ⟨1 / 60, false, false, false, false, false, fun _ => 0, 0, fun _ => 0⟩
          (initialGame (fun _ => 0))).pipes) = some ps ∧ ps.length = 5) ∧
    ∃ g1, frame ⟨1 / 60, false, false, false, false, false, fun _ => 0, 0, fun _ => 0⟩
        (initialGame (fun _ => 0)) = some g1 ∧ g1.pipes.length = 5 :=
  ⟨Reachable.start _,
    C16_five_pipes _ (Reachable.start _)
      ⟨1 / 60, false, false, false, false, false, fun _ => 0, 0, fun _ => 0⟩⟩


/-- C18.  The rotation of the bird stays in [-90, 30]: a new bird has it there,
`reset` and `jump` put it there, and `update` with a time step `dt ≥ 0` keeps
it there; `update` sets the rotation to 30 when the new velocity is positive
and otherwise lowers it by `100 * dt`, not below -90. -/
theorem C18_rotation_in_range (b : Bird) (dt : ℚ) (hdt : 0 ≤ dt)
    (hb : b.rotationInRange) :
    Bird.new.rotationInRange ∧ b.reset.rotationInRange ∧ b.jump.rotationInRange ∧
    (b.update dt).rotationInRange ∧
    (0 < b.velocity + GRAVITY * dt → (b.update dt).rotation = 30) ∧
    (¬ 0 < b.velocity + GRAVITY * dt →
      (b.update dt).rotation = max (-90) (b.rotation - 100 * dt)) := by
  obtain ⟨h1, h2⟩ := hb
  refine ⟨?_, ?_, ?_, ?_, ?_, ?_⟩
  · unfold Bird.rotationInRange; norm_num [Bird.new]
  · unfold Bird.rotationInRange; norm_num [Bird.reset]
  · unfold Bird.rotationInRange; norm_num [Bird.jump]
  · unfold Bird.update Bird.rotationInRange
    simp only [gt_iff_lt]
    split
    · constructor <;> norm_num
    · simp only
      split
      · constructor <;> norm_num
      · rename_i hlt
        constructor
        · exact not_lt.mp hlt
        · nlinarith
  · intro hv
    simp [Bird.update, hv]
  · intro hv
    simp only [Bird.update, gt_iff_lt, hv, if_false]
    split
    · rename_i hlt
      exact (max_eq_left (le_of_lt hlt)).symm
    · rename_i hlt
      exact (max_eq_right (not_lt.mp hlt)).symm

/-- C18 (witness).  A new bird updated with a time step of 1/60. -/
theorem C18_rotation_in_range_witness :
    (0 : ℚ) ≤ 1 / 60 ∧ Bird.new.rotationInRange ∧
    (Bird.new.rotationInRange ∧ Bird.new.reset.rotationInRange ∧
      Bird.new.jump.rotationInRange ∧ (Bird.new.update (1 / 60)).rotationInRange ∧
      (0 < Bird.new.velocity + GRAVITY * (1 / 60) → (Bird.new.update (1 / 60)).rotation = 30) ∧
      (¬ 0 < Bird.new.velocity + GRAVITY * (1 / 60) →
        (Bird.new.update (1 / 60)).rotation
          = max (-90) (Bird.new.rotation - 100 * (1 / 60)))) :=
  have hdt : (0 : ℚ) ≤ 1 / 60 := by norm_num
  have hb : Bird.new.rotationInRange := by unfold Bird.rotationInRange; norm_num [Bird.new]
  ⟨hdt, hb, C18_rotation_in_range Bird.new (1 / 60) hdt hb⟩


end FlappyBird
